import Mathlib

/-!
# envs: dotenv scanner and typed binder

A shallow embedding of the Go package `envs` (files `dotenv.go`, `dotenv_nodejs.go`,
`dotenv_python.go`, `errors.go`, `maptostruct.go`, `osenv.go`).

Conventions of the embedding.

* A Go `string` is the list of its runes, `List Char`.  The scanner reads its input
  rune by rune (`bufio.Reader.ReadRune`), so the input is a `List Char` as well; read
  failures other than end of input are outside the model.
* A `rune` variable that can also hold `scanner.EOF` is an `Option Char`
  (`none` is `scanner.EOF`).
* `map[string]*string` is an association list with unique keys; a key bound to `none`
  is a key bound to the nil pointer (a naked variable).
* The destination struct is the list of its exported fields in declaration order; each
  field carries its two tags and its current value, and the constructor of the value
  is the declared type of the field.
* A Go panic is a result of its own (`Result.panic`).
* Library functions that the package calls and whose exact semantics are outside the
  repository (`time.ParseDuration`, case mapping of non-ASCII runes) are parameters,
  collected in `GoLib`.
-/

set_option autoImplicit false

namespace envs

/-! ## The quote characters and the backslash -/

/-- The double quote character U+0022. -/
def dquote : Char := Char.ofNat 34

/-- The single quote character U+0027. -/
def squote : Char := Char.ofNat 39

/-- The backtick character U+0060. -/
def backtick : Char := Char.ofNat 96

/-- The backslash character U+005C. -/
def backslash : Char := Char.ofNat 92

/-! ## errors.go -/

/-- Go: `type ErrSyntax struct { Line int; EnvVar string; Reason string }`. -/
structure ErrSyntax where
  Line : Int := 0
  EnvVar : List Char := []
  Reason : String := ""
  deriving DecidableEq, Repr

/-! ## osenv.go: `type envVarMap map[string]*string` -/

/-- Go: `envVarMap`, as an association list with unique keys. -/
abbrev envVarMap := List (List Char × Option (List Char))

/-- Go: `v, have := m[k]`; `none` is `have == false`, `some none` is a key bound to nil. -/
def mapLookup : envVarMap → List Char → Option (Option (List Char))
  | [], _ => none
  | (k1, v1) :: m, k => if k1 = k then some v1 else mapLookup m k

/-- Go: `m[k] = v`. -/
def mapStore : envVarMap → List Char → Option (List Char) → envVarMap
  | [], k, v => [(k, v)]
  | (k1, v1) :: m, k, v => if k1 = k then (k, v) :: m else (k1, v1) :: mapStore m k v

/-! ## dotenv.go: the scanner -/

/-- Go: `type dotEnvScanner struct`.  The reader `src` is not a field here: the runes
still to be read are passed to, and returned by, every method.  The three rune sets
`map[rune]bool` are the lists of the runes mapped to `true`. -/
structure dotEnvScanner where
  ch : Option Char := some (Char.ofNat 0)
  vars : envVarMap := []
  line : Int := 0
  lastErr : Option ErrSyntax := none
  allowNaked : Bool := false
  quotes : List Char := []
  unsupportedQuotes : List Char := []
  expandNewlines : List Char := []
  deriving DecidableEq, Repr

/-- Go: `string(ds.ch)`; the conversion of `scanner.EOF` (-1) gives U+FFFD. -/
def runeString : Option Char → List Char
  | some c => [c]
  | none => [Char.ofNat 65533]

/-- State after `next()` has read the rune `r` (it returns `true`). -/
def dotEnvScanner.read (ds : dotEnvScanner) (r : Char) : dotEnvScanner :=
  { ds with ch := some r, line := if r = '\n' then ds.line + 1 else ds.line }

/-- State after `next()` has met the end of the input (it returns `false`). -/
def dotEnvScanner.eof (ds : dotEnvScanner) : dotEnvScanner :=
  { ds with ch := none }

/-- Go: `func (ds *dotEnvScanner) next() bool`. -/
def next (ds : dotEnvScanner) : List Char → Bool × dotEnvScanner × List Char
  | [] => (false, ds.eof, [])
  | r :: rest => (true, ds.read r, rest)

/-- Go: `func (ds *dotEnvScanner) consumeRestLine()`:
`for ds.next() { if ds.ch == '\n' { break } }`. -/
def consumeRestLine (ds : dotEnvScanner) : List Char → dotEnvScanner × List Char
  | [] => (ds.eof, [])
  | r :: rest => if r = '\n' then (ds.read r, rest) else consumeRestLine (ds.read r) rest

/-- The inner loop of `handleName` after a space:
`for ds.next() { if ds.ch == '=' { break } }`. -/
def skipToEqual (ds : dotEnvScanner) : List Char → dotEnvScanner × List Char
  | [] => (ds.eof, [])
  | r :: rest => if r = '=' then (ds.read r, rest) else skipToEqual (ds.read r) rest

/-- The labelled loop `next:` of `handleName`; `varName` is the Go local `variable`, the name read so far. -/
def handleNameLoop (ds : dotEnvScanner) (varName : List Char) :
    List Char → Except ErrSyntax (List Char × Bool) × dotEnvScanner × List Char
  | [] => (.ok (varName, false), ds.eof, [])
  | r :: rest =>
    let ds1 := ds.read r
    if r = '\r' ∨ r = '\n' then
      if ds1.allowNaked = false then
        (.error { Line := ds1.line - 1, Reason := "naked variable" }, ds1, rest)
      else
        (.ok (varName, true), ds1, rest)
    else if r = ' ' then
      let p := skipToEqual ds1 rest
      if p.1.ch ≠ some '=' then
        (.error { Line := p.1.line, Reason := "invalid variable name" }, p.1, p.2)
      else
        (.ok (varName, false), p.1, p.2)
    else if r = '=' then
      (.ok (varName, false), ds1, rest)
    else
      handleNameLoop ds1 (varName ++ [r]) rest

/-- Go: `func (ds *dotEnvScanner) handleName() (string, bool, error)`. -/
def handleName (ds : dotEnvScanner) (src : List Char) :
    Except ErrSyntax (List Char × Bool) × dotEnvScanner × List Char :=
  handleNameLoop ds (runeString ds.ch) src

/-- The loop of `handleQuotedValue`; `quote` is the opening rune. -/
def handleQuotedValueLoop (quote : Option Char) (ds : dotEnvScanner) (value : List Char) :
    List Char → Except ErrSyntax (List Char) × dotEnvScanner × List Char
  | [] => (.error { Line := ds.eof.line, Reason := "missing closing quote" }, ds.eof, [])
  | r :: rest =>
    if some r = quote then (.ok (value ++ [r]), ds.read r, rest)
    else handleQuotedValueLoop quote (ds.read r) (value ++ [r]) rest

/-- Go: `func (ds *dotEnvScanner) handleQuotedValue() (string, error)`. -/
def handleQuotedValue (ds : dotEnvScanner) (src : List Char) :
    Except ErrSyntax (List Char) × dotEnvScanner × List Char :=
  handleQuotedValueLoop ds.ch ds (runeString ds.ch) src

/-- Go: `reUnescapeNewLines.ReplaceAllString(value, "\n")` for the regular expression
`(\\r)?\\n`: scanning from the left, a backslash-r-backslash-n or a backslash-n becomes
one line feed. -/
def unescapeNewLines : List Char → List Char
  | [] => []
  | c :: rest =>
    if c = backslash then
      match rest with
      | c1 :: c2 :: c3 :: rest3 =>
        if c1 = 'r' ∧ c2 = backslash ∧ c3 = 'n' then '\n' :: unescapeNewLines rest3
        else if c1 = 'n' then '\n' :: unescapeNewLines (c2 :: c3 :: rest3)
        else c :: unescapeNewLines (c1 :: c2 :: c3 :: rest3)
      | c1 :: rest1 =>
        if c1 = 'n' then '\n' :: unescapeNewLines rest1
        else c :: unescapeNewLines (c1 :: rest1)
      | [] => [c]
    else c :: unescapeNewLines rest

/-- The labelled loop `next:` of `handleValue`; `value` is the text read so far. -/
def handleValueLoop (ds : dotEnvScanner) (value : List Char) :
    List Char → Except ErrSyntax (List Char) × dotEnvScanner × List Char
  | [] => (.ok value, ds.eof, [])
  | r :: rest =>
    let ds1 := ds.read r
    if r ∈ ds1.quotes then
      match handleQuotedValue ds1 rest with
      | (.error err, ds2, rest2) => (.ok [], { ds2 with lastErr := some err }, rest2)
      | (.ok quoted, ds2, rest2) =>
        if r ∈ ds2.expandNewlines then (.ok (unescapeNewLines quoted), ds2, rest2)
        else (.ok quoted, ds2, rest2)
    else if r = '#' then
      let p := consumeRestLine ds1 rest
      (.ok value, p.1, p.2)
    else if r = '\n' then
      (.ok value, ds1, rest)
    else if r ∈ ds1.unsupportedQuotes then
      (.error { Line := ds1.line, Reason := "unsupported quote" }, ds1, rest)
    else
      handleValueLoop ds1 (value ++ [r]) rest

/-- Go: `func (ds *dotEnvScanner) handleValue() (string, error)`. -/
def handleValue (ds : dotEnvScanner) (src : List Char) :
    Except ErrSyntax (List Char) × dotEnvScanner × List Char :=
  handleValueLoop ds [] src

/-- The `for ds.next()` loop of `parse`.  Each round reads at least one rune, so
`fuel` larger than the length of the input is never used up (`parseLoop_fuel`). -/
def parseLoop : Nat → dotEnvScanner → List Char → Option ErrSyntax × dotEnvScanner
  | 0, ds, _ => (none, ds)
  | _ + 1, ds, [] => (none, ds.eof)
  | fuel + 1, ds, r :: rest =>
    let ds1 := ds.read r
    if r = ' ' ∨ r = '\r' ∨ r = '\n' ∨ r = '\t' then
      parseLoop fuel ds1 rest
    else if r = '#' then
      let p := consumeRestLine ds1 rest
      parseLoop fuel p.1 p.2
    else
      match handleName ds1 rest with
      | (.error err, ds2, _) => (some err, ds2)
      | (.ok (varName, naked), ds2, rest2) =>
        if naked = false then
          match handleValue ds2 rest2 with
          | (.error err, ds3, _) => (some err, ds3)
          | (.ok value, ds3, rest3) =>
            let ds4 := { ds3 with vars := mapStore ds3.vars varName (some value) }
            match ds4.lastErr with
            | some err => (some err, ds4)
            | none => parseLoop fuel ds4 rest3
        else
          let ds4 := { ds2 with vars := mapStore ds2.vars varName none }
          match ds4.lastErr with
          | some err => (some err, ds4)
          | none => parseLoop fuel ds4 rest2

/-- The `for ds.next()` loop of `parse`, run from the state `ds` on the runes `src`. -/
def scanFrom (ds : dotEnvScanner) (src : List Char) : Option ErrSyntax × dotEnvScanner :=
  parseLoop (src.length + 1) ds src

/-- Go: `func (ds *dotEnvScanner) parse(r io.Reader) error`: the error (`none` is nil)
and the scanner after the call. -/
def parse (ds : dotEnvScanner) (r : List Char) : Option ErrSyntax × dotEnvScanner :=
  scanFrom { ds with line := 1, vars := [] } r


/-! ## Go library functions used by the binder -/

/-- Go: `unicode.IsSpace`. -/
def isSpace (c : Char) : Bool :=
  let n := c.toNat
  decide ((9 ≤ n ∧ n ≤ 13) ∨ n = 32 ∨ n = 133 ∨ n = 160 ∨ n = 5760 ∨ (8192 ≤ n ∧ n ≤ 8202)
    ∨ n = 8232 ∨ n = 8233 ∨ n = 8239 ∨ n = 8287 ∨ n = 12288)

/-- Go: `strings.TrimSpace`. -/
def TrimSpace (s : List Char) : List Char :=
  (s.dropWhile isSpace).rdropWhile isSpace

/-- Value of a non-empty run of decimal digits, most significant first, continuing from
the accumulator `acc`; `none` when a rune is not a decimal digit. -/
def digitsValue : Nat → List Char → Option Nat
  | acc, [] => some acc
  | acc, c :: rest =>
    if '0' ≤ c ∧ c ≤ '9' then digitsValue (acc * 10 + (c.toNat - 48)) rest else none

/-- Go: `strconv.ParseInt(s, 10, 64)`; `none` is a non-nil error (syntax or range). -/
def ParseInt (s : List Char) : Option Int :=
  match s with
  | [] => none
  | c :: rest =>
    let neg : Bool := c = '-'
    let digits := if c = '+' ∨ c = '-' then rest else c :: rest
    match digits with
    | [] => none
    | d :: ds =>
      match digitsValue 0 (d :: ds) with
      | none => none
      | some un =>
        if neg = false ∧ un ≥ 2 ^ 63 then none
        else if neg = true ∧ un > 2 ^ 63 then none
        else some (if neg then - (un : Int) else (un : Int))

/-- Library functions taken as parameters. -/
structure GoLib where
  /-- Go: `time.ParseDuration`; the result counts nanoseconds, `none` is an error. -/
  ParseDuration : List Char → Option Int
  /-- Go: `unicode.ToLower` on runes above `unicode.MaxASCII`. -/
  ToLowerRune : Char → Char

/-- Go: `unicode.ToLower`. -/
def toLowerRune (lib : GoLib) (c : Char) : Char :=
  if c.toNat < 128 then
    if 'A' ≤ c ∧ c ≤ 'Z' then Char.ofNat (c.toNat + 32) else c
  else lib.ToLowerRune c

/-- Go: `strings.ToLower`. -/
def ToLower (lib : GoLib) (s : List Char) : List Char :=
  s.map (toLowerRune lib)

/-- Reduction of `n` to `w`-bit two's complement, as a Go integer conversion does. -/
def wrapInt (w : Nat) (n : Int) : Int :=
  (n + 2 ^ (w - 1)) % 2 ^ w - 2 ^ (w - 1)

/-! ## maptostruct.go: the binder -/

/-- The value `rv.Field(i).Interface()` of a struct field together with its type, the
type the type switch of `reflectMapToStruct` runs on: one constructor for each of the
sixteen types of the switch, and `unsupported` for a value of every other type
(`typeName` is what `%T` prints; it is `<nil>` for a field of interface type that holds
nil).  A pointer is `none` when nil and `some v` when it points to `v`.  In a
`StructField` a value of one of the sixteen types belongs to a field declared with
that type, as it does in every field whose declared type is no interface type, and
`unsupported` stands for a field of any declared type whose value is of another type;
a field of interface type that holds a value of one of the sixteen types is an
`InterfaceField`. -/
inductive Value where
  | string (v : List Char)
  | bool (v : Bool)
  | int (v : Int)
  | int8 (v : Int)
  | int16 (v : Int)
  | int32 (v : Int)
  | int64 (v : Int)
  | duration (v : Int)
  | ptrString (v : Option (List Char))
  | ptrBool (v : Option Bool)
  | ptrInt (v : Option Int)
  | ptrInt8 (v : Option Int)
  | ptrInt16 (v : Option Int)
  | ptrInt32 (v : Option Int)
  | ptrInt64 (v : Option Int)
  | ptrDuration (v : Option Int)
  | unsupported (typeName : List Char)
  deriving DecidableEq, Repr

/-- Go: `reflect.StructField` with `reflect.Value` of one exported field:
the field name, `Tag.Get("envVar")`, `Tag.Get("default")` and the current value.
Fields that are not exported are left out of the list: the binder skips one without
the `envVar` tag, and `reflect` panics on one with the tag. -/
structure StructField where
  Name : List Char := []
  tagEnvVar : List Char := []
  tagDefault : List Char := []
  value : Value
  deriving DecidableEq, Repr

/-- What a call returns to its caller: a nil error, an `*ErrSyntax`, or a panic. -/
inductive Result where
  | nil
  | err (e : ErrSyntax)
  | panic (msg : List Char)
  deriving DecidableEq, Repr

/-- Go: `field.Type.Kind() == reflect.Pointer`. -/
def Value.isPointer : Value → Bool
  | .ptrString _ | .ptrBool _ | .ptrInt _ | .ptrInt8 _ | .ptrInt16 _ | .ptrInt32 _
  | .ptrInt64 _ | .ptrDuration _ => true
  | _ => false

/-- Go: `reflect.Zero(fieldValue.Type())`. -/
def Value.zero : Value → Value
  | .string _ => .string []
  | .bool _ => .bool false
  | .int _ => .int 0
  | .int8 _ => .int8 0
  | .int16 _ => .int16 0
  | .int32 _ => .int32 0
  | .int64 _ => .int64 0
  | .duration _ => .duration 0
  | .ptrString _ => .ptrString none
  | .ptrBool _ => .ptrBool none
  | .ptrInt _ => .ptrInt none
  | .ptrInt8 _ => .ptrInt8 none
  | .ptrInt16 _ => .ptrInt16 none
  | .ptrInt32 _ => .ptrInt32 none
  | .ptrInt64 _ => .ptrInt64 none
  | .ptrDuration _ => .ptrDuration none
  | .unsupported t => .unsupported t

/-- Two values have the same Go type. -/
def Value.sameType (a b : Value) : Bool :=
  a.zero = b.zero

/-- Go: `fieldValue.Set(x)`: assigns when the type of `x` is the type of the field and
panics otherwise. -/
def reflectSet (fieldValue x : Value) : Result × Value :=
  if fieldValue.sameType x then (.nil, x)
  else (.panic "reflect.Set: value is not assignable to the type of the field".toList, fieldValue)

/-- Go: `fieldValue.SetString(v)`; panics unless the kind of the field is String. -/
def reflectSetString (fieldValue : Value) (v : List Char) : Result × Value :=
  match fieldValue with
  | .string _ => (.nil, .string v)
  | _ => (.panic "reflect: call of reflect.Value.SetString on a value that is no string".toList,
      fieldValue)

/-- Go: `value.SetInt(n)`; the field receives `n` converted to its own width (`int` has
64 bits); panics unless the kind of the field is one of the Int kinds. -/
def reflectSetInt (fieldValue : Value) (n : Int) : Result × Value :=
  match fieldValue with
  | .int _ => (.nil, .int (wrapInt 64 n))
  | .int8 _ => (.nil, .int8 (wrapInt 8 n))
  | .int16 _ => (.nil, .int16 (wrapInt 16 n))
  | .int32 _ => (.nil, .int32 (wrapInt 32 n))
  | .int64 _ => (.nil, .int64 (wrapInt 64 n))
  | .duration _ => (.nil, .duration (wrapInt 64 n))
  | _ => (.panic "reflect: call of reflect.Value.SetInt on a value that is no integer".toList,
      fieldValue)

/-- Go: `value.SetBool(b)`; panics unless the kind of the field is Bool. -/
def reflectSetBool (fieldValue : Value) (b : Bool) : Result × Value :=
  match fieldValue with
  | .bool _ => (.nil, .bool b)
  | _ => (.panic "reflect: call of reflect.Value.SetBool on a value that is no bool".toList,
      fieldValue)

/-- Go: `func handleString(name, field, fieldValue, value) error`; the second component
is the field after the call.  `v[0]` and `v[len(v)-1]` are bytes: the three quote
characters are ASCII, so they are compared here as runes, and `v[1 : len(v)-1]` on a
one-byte `v` is the slice `v[1:0]`, which panics. -/
def handleString (name : List Char) (fieldValue : Value) (value : Option (List Char)) :
    Result × Value :=
  match value with
  | none =>
    if fieldValue.isPointer then reflectSet fieldValue (.ptrString none)
    else reflectSet fieldValue fieldValue.zero
  | some v =>
    let assign := fun (w : List Char) =>
      if fieldValue.isPointer then reflectSet fieldValue (.string w)
      else reflectSetString fieldValue w
    match v with
    | [] => assign v
    | c :: tl =>
      if c = dquote ∨ c = backtick ∨ c = squote then
        if c ≠ (c :: tl).getLast (List.cons_ne_nil c tl) then
          (.err { EnvVar := name, Reason := "missing closing quote" }, fieldValue)
        else if tl = [] then
          (.panic "runtime error: slice bounds out of range [1:0]".toList, fieldValue)
        else assign tl.dropLast
      else assign v

/-- Go: `func handleTimeDuration(name, field, fieldValue, value) error`. -/
def handleTimeDuration (lib : GoLib) (name : List Char) (fieldValue : Value)
    (value : Option (List Char)) : Result × Value :=
  if fieldValue.isPointer ∧ value = none then reflectSet fieldValue (.ptrDuration none)
  else if value = none ∨ value = some [] then
    if fieldValue.isPointer then reflectSet fieldValue (.ptrDuration (some 0))
    else reflectSet fieldValue (.duration 0)
  else
    match lib.ParseDuration (value.getD []) with
    | none => (.err { EnvVar := name, Reason := "not parsable as Go duration string" }, fieldValue)
    | some res => reflectSet fieldValue (.duration res)

/-- Go: `func handleNumeric(name, field, value, s) error`. -/
def handleNumeric (name : List Char) (fieldValue : Value) (s : Option (List Char)) :
    Result × Value :=
  if fieldValue.isPointer ∧ s = none then reflectSet fieldValue fieldValue.zero
  else
    let parsed : Option Int :=
      if s = none ∨ s = some [] then some 0 else ParseInt (s.getD [])
    match parsed with
    | none => (.err { EnvVar := name, Reason := "number not parsable" }, fieldValue)
    | some n =>
      if fieldValue.isPointer then reflectSet fieldValue (.ptrInt64 (some n))
      else reflectSetInt fieldValue n

/-- Go: `var trues`. -/
def trues : List (List Char) :=
  ["t".toList, "true".toList, "1".toList, "on".toList, "enabled".toList]

/-- Go: `var falses`. -/
def falses : List (List Char) :=
  ["f".toList, "false".toList, "0".toList, "off".toList, "disabled".toList]

/-- Go: `func handleBoolean(name, field, value, s) error`. -/
def handleBoolean (lib : GoLib) (name : List Char) (fieldValue : Value)
    (s : Option (List Char)) : Result × Value :=
  if fieldValue.isPointer ∧ s = none then reflectSet fieldValue fieldValue.zero
  else
    let parsed : Option Bool :=
      if s = none ∨ s = some [] then some false
      else
        let v := ToLower lib (s.getD [])
        if v ∈ trues then some true
        else if v ∈ falses then some false
        else
          match ParseInt v with
          | some n => some (decide (n > 0))
          | none => none
    match parsed with
    | none => (.err { EnvVar := name, Reason := "not a valid boolean value" }, fieldValue)
    | some b =>
      if fieldValue.isPointer then reflectSet fieldValue (.ptrBool (some b))
      else reflectSetBool fieldValue b

/-- One round of the loop of `reflectMapToStruct` for a field whose `envVar` tag is not
empty: the result, the field value after the round, and the map after the round (the
string a present key points to is trimmed in place).  The type switch runs on
`rv.Field(i).Interface()`, which `f.value` is; a handler then asks the kind of the
declared type of the field, which for a `StructField` that reaches a handler is the
type of `f.value` (`bindInterfaceField` is the round for a field of interface type
that holds a value of one of the sixteen types). -/
def bindField (lib : GoLib) (src : envVarMap) (f : StructField) :
    Result × Value × envVarMap :=
  let envVar := f.tagEnvVar
  let found := mapLookup src envVar
  let d := f.tagDefault
  let envVarValue : Option (List Char) :=
    match found with
    | none => if d ≠ [] then some (TrimSpace d) else none
    | some none => none
    | some (some v) => some (TrimSpace v)
  let src1 : envVarMap :=
    match found with
    | some (some v) => mapStore src envVar (some (TrimSpace v))
    | _ => src
  let r : Result × Value :=
    match f.value with
    | .duration _ | .ptrDuration _ => handleTimeDuration lib envVar f.value envVarValue
    | .string _ | .ptrString _ => handleString envVar f.value envVarValue
    | .bool _ | .ptrBool _ => handleBoolean lib envVar f.value envVarValue
    | .int _ | .int8 _ | .int16 _ | .int32 _ | .int64 _
    | .ptrInt _ | .ptrInt8 _ | .ptrInt16 _ | .ptrInt32 _ | .ptrInt64 _ =>
      handleNumeric envVar f.value envVarValue
    | .unsupported t =>
      (.panic ("unsupported type ".toList ++ squote :: t ++ squote :: " for field ".toList
        ++ f.Name), f.value)
  (r.1, r.2, src1)

/-- Go: `func reflectMapToStruct(src envVarMap, dest any) error`, for a `dest` that is a
pointer to a struct with the given fields: the result, the fields after the call and
the map after the call. -/
def reflectMapToStruct (lib : GoLib) :
    envVarMap → List StructField → Result × List StructField × envVarMap
  | src, [] => (.nil, [], src)
  | src, f :: rest =>
    if f.tagEnvVar = [] then
      let p := reflectMapToStruct lib src rest
      (p.1, f :: p.2.1, p.2.2)
    else
      match bindField lib src f with
      | (.nil, v, src1) =>
        let p := reflectMapToStruct lib src1 rest
        (p.1, { f with value := v } :: p.2.1, p.2.2)
      | (res, v, src1) => (res, { f with value := v } :: rest, src1)

/-- Go: `func dotEnvToStruct(s *dotEnvScanner, dest any, r io.Reader) error`: the
result, the fields of `dest` and the scanner after the call. -/
def dotEnvToStruct (lib : GoLib) (s : dotEnvScanner) (dest : List StructField)
    (r : List Char) : Result × List StructField × dotEnvScanner :=
  match parse s r with
  | (some err, s1) => (.err err, dest, s1)
  | (none, s1) =>
    match reflectMapToStruct lib s1.vars dest with
    | (.err e, dest1, vars1) =>
      (.err { e with Line := s1.line }, dest1, { s1 with vars := vars1 })
    | (res, dest1, vars1) => (res, dest1, { s1 with vars := vars1 })

/-! ## maptostruct.go: the binder on a field of interface type -/

/-- Go: one exported field whose declared type is an interface type (`any`,
`fmt.Stringer`, ...): the field name, the two tags, and `held`, the value
`rv.Field(i).Interface()`: a value of one of the sixteen types of the type switch, or
`.unsupported t` when the field holds nil (`t` is `<nil>`) or a value of another type
`t`.  `field.Type.Kind()` and `fieldValue.Kind()` are Interface for such a field. -/
structure InterfaceField where
  Name : List Char := []
  tagEnvVar : List Char := []
  tagDefault : List Char := []
  held : Value
  deriving DecidableEq, Repr

/-- What a field of interface type holds when it is nil: `%T` prints `<nil>`. -/
def nilInterface : Value := .unsupported "<nil>".toList

/-- The text of the panic of the default branch of the type switch:
`fmt.Sprintf("unsupported type '%T' for field %s", t, rtf.Name)`. -/
def unsupportedTypePanic (typeName fieldName : List Char) : List Char :=
  "unsupported type ".toList ++ squote :: typeName ++ squote :: " for field ".toList
    ++ fieldName

/-- Go: `handleString` on a field of interface type.  The kind of the field is not
Pointer, so a nil value stores `reflect.Zero(fieldValue.Type())`, the nil interface;
after the check of the quotes every path ends in `fieldValue.SetString(v)`, which
panics on a field whose kind is not String. -/
def handleStringInterface (name : List Char) (held : Value) (value : Option (List Char)) :
    Result × Value :=
  match value with
  | none => (.nil, nilInterface)
  | some v =>
    let assign : Result × Value :=
      (.panic "reflect: call of reflect.Value.SetString on interface Value".toList, held)
    match v with
    | [] => assign
    | c :: tl =>
      if c = dquote ∨ c = backtick ∨ c = squote then
        if c ≠ (c :: tl).getLast (List.cons_ne_nil c tl) then
          (.err { EnvVar := name, Reason := "missing closing quote" }, held)
        else if tl = [] then
          (.panic "runtime error: slice bounds out of range [1:0]".toList, held)
        else assign
      else assign

/-- Go: `handleTimeDuration` on a field of interface type.  The kind of the field is
not Pointer, so the first block is skipped and every store is
`fieldValue.Set(reflect.ValueOf(d))` with `d` a `time.Duration`; the field holds a
`time.Duration` or a `*time.Duration`, whose methods are those of `time.Duration`, so
`d` is assignable to the interface and the field then holds `d`. -/
def handleTimeDurationInterface (lib : GoLib) (name : List Char) (held : Value)
    (value : Option (List Char)) : Result × Value :=
  if value = none ∨ value = some [] then (.nil, .duration 0)
  else
    match lib.ParseDuration (value.getD []) with
    | none => (.err { EnvVar := name, Reason := "not parsable as Go duration string" }, held)
    | some res => (.nil, .duration res)

/-- Go: `handleNumeric` on a field of interface type.  The kind of the field is not
Pointer, so the text is parsed and the store is `value.SetInt(n)`, which panics on a
field whose kind is none of the Int kinds. -/
def handleNumericInterface (name : List Char) (held : Value) (s : Option (List Char)) :
    Result × Value :=
  let parsed : Option Int :=
    if s = none ∨ s = some [] then some 0 else ParseInt (s.getD [])
  match parsed with
  | none => (.err { EnvVar := name, Reason := "number not parsable" }, held)
  | some _ => (.panic "reflect: call of reflect.Value.SetInt on interface Value".toList, held)

/-- Go: `handleBoolean` on a field of interface type.  The kind of the field is not
Pointer, so the text is parsed and the store is `value.SetBool(b)`, which panics on a
field whose kind is not Bool. -/
def handleBooleanInterface (lib : GoLib) (name : List Char) (held : Value)
    (s : Option (List Char)) : Result × Value :=
  let parsed : Option Bool :=
    if s = none ∨ s = some [] then some false
    else
      let v := ToLower lib (s.getD [])
      if v ∈ trues then some true
      else if v ∈ falses then some false
      else
        match ParseInt v with
        | some n => some (decide (n > 0))
        | none => none
  match parsed with
  | none => (.err { EnvVar := name, Reason := "not a valid boolean value" }, held)
  | some _ => (.panic "reflect: call of reflect.Value.SetBool on interface Value".toList, held)

/-- One round of the loop of `reflectMapToStruct` for a field of interface type whose
`envVar` tag is not empty: the result, what the field holds after the round, and the
map after the round.  The type switch runs on what the field holds. -/
def bindInterfaceField (lib : GoLib) (src : envVarMap) (g : InterfaceField) :
    Result × Value × envVarMap :=
  let envVar := g.tagEnvVar
  let found := mapLookup src envVar
  let d := g.tagDefault
  let envVarValue : Option (List Char) :=
    match found with
    | none => if d ≠ [] then some (TrimSpace d) else none
    | some none => none
    | some (some v) => some (TrimSpace v)
  let src1 : envVarMap :=
    match found with
    | some (some v) => mapStore src envVar (some (TrimSpace v))
    | _ => src
  let r : Result × Value :=
    match g.held with
    | .duration _ | .ptrDuration _ => handleTimeDurationInterface lib envVar g.held envVarValue
    | .string _ | .ptrString _ => handleStringInterface envVar g.held envVarValue
    | .bool _ | .ptrBool _ => handleBooleanInterface lib envVar g.held envVarValue
    | .int _ | .int8 _ | .int16 _ | .int32 _ | .int64 _
    | .ptrInt _ | .ptrInt8 _ | .ptrInt16 _ | .ptrInt32 _ | .ptrInt64 _ =>
      handleNumericInterface envVar g.held envVarValue
    | .unsupported t => (.panic (unsupportedTypePanic t g.Name), g.held)
  (r.1, r.2, src1)

/-- Go: `func reflectMapToStruct(src envVarMap, dest any) error`, for a `dest` that is a
pointer to a struct with one field, of interface type: the result, the field after the
call and the map after the call. -/
def reflectMapToStructInterface (lib : GoLib) (src : envVarMap) (g : InterfaceField) :
    Result × InterfaceField × envVarMap :=
  if g.tagEnvVar = [] then (.nil, g, src)
  else
    let p := bindInterfaceField lib src g
    (p.1, { g with held := p.2.1 }, p.2.2)

/-! ## dotenv_nodejs.go, dotenv_python.go: the two dialects -/

/-- The scanner `NodeJSDotEnv` builds. -/
def nodeJSScanner : dotEnvScanner :=
  { quotes := [dquote, backtick, squote], expandNewlines := [dquote] }

/-- The scanner `DjangoDotEnv` builds. -/
def djangoScanner : dotEnvScanner :=
  { quotes := [dquote, squote], unsupportedQuotes := [backtick], expandNewlines := [dquote],
    allowNaked := true }

/-- Go: `func NodeJSDotEnv(dest any, r io.Reader) error`: the result and the fields of
`dest` after the call. -/
def NodeJSDotEnv (lib : GoLib) (dest : List StructField) (r : List Char) :
    Result × List StructField :=
  let p := dotEnvToStruct lib nodeJSScanner dest r
  (p.1, p.2.1)

/-- Go: `func DjangoDotEnv(dest any, r io.Reader) error`: the result and the fields of
`dest` after the call. -/
def DjangoDotEnv (lib : GoLib) (dest : List StructField) (r : List Char) :
    Result × List StructField :=
  let p := dotEnvToStruct lib djangoScanner dest r
  (p.1, p.2.1)

/-! ## Shapes of input text the properties speak about -/

/-- A variable name: not empty, its first rune is none of the runes `parse` skips
(space, tab, CR, LF) and not `#`, and no rune of it is a space, `=`, CR or LF. -/
def isName : List Char → Bool
  | [] => false
  | c :: tl =>
    decide (c ≠ ' ' ∧ c ≠ '\t' ∧ c ≠ '\r' ∧ c ≠ '\n' ∧ c ≠ '#')
      && (c :: tl).all (fun x => decide (x ≠ ' ' ∧ x ≠ '=' ∧ x ≠ '\r' ∧ x ≠ '\n'))

/-- Unquoted value text: no quote character, no `#` and no line feed. -/
def isUnquoted (v : List Char) : Bool :=
  v.all (fun x => decide (x ≠ dquote ∧ x ≠ squote ∧ x ≠ backtick ∧ x ≠ '#' ∧ x ≠ '\n'))

/-- Runes that `parse` skips between variables: space, CR, LF and tab. -/
def isBlank (ws : List Char) : Bool :=
  ws.all (fun x => decide (x = ' ' ∨ x = '\r' ∨ x = '\n' ∨ x = '\t'))

/-- A library instance for evaluating concrete inputs that hold no duration text and
no non-ASCII capital: its `ParseDuration` accepts nothing. -/
def plainLib : GoLib :=
  { ParseDuration := fun _ => none, ToLowerRune := fun c => c }

/-- The runes `handleValue` appends to the value it collects, in the state `ds`. -/
def plainFor (ds : dotEnvScanner) (v : List Char) : Prop :=
  ∀ x ∈ v, x ∉ ds.quotes ∧ x ≠ '#' ∧ x ≠ '\n' ∧ x ∉ ds.unsupportedQuotes

/-! ## Escapes in the inner text of a quoted value -/

/-- The escape text backslash-n. -/
def escLF : List Char := [backslash, 'n']

/-- The escape text backslash-r-backslash-n. -/
def escCRLF : List Char := [backslash, 'r', backslash, 'n']

/-- The text holds the two runes backslash-n somewhere. -/
def hasEscapedLF : List Char → Bool
  | a :: b :: rest => (decide (a = backslash) && decide (b = 'n')) || hasEscapedLF (b :: rest)
  | _ => false

/-- Text made of pieces with an escape after each piece but the last: `(s, crlf)` is the
piece `s` followed by backslash-r-backslash-n when `crlf` is true and by backslash-n
when it is false; `last` is the piece after the last escape. -/
def joinEscaped : List (List Char × Bool) → List Char → List Char
  | [], last => last
  | (s, crlf) :: segs, last => s ++ ((if crlf then escCRLF else escLF) ++ joinEscaped segs last)

/-- The same pieces with one line feed in the place of each escape. -/
def joinNewlines : List (List Char × Bool) → List Char → List Char
  | [], last => last
  | (s, _) :: segs, last => s ++ '\n' :: joinNewlines segs last

/-- The pieces hold no escape themselves: no piece holds backslash-n, and a piece that
stands before the escape backslash-n does not end with backslash-r (the four runes
would be the escape backslash-r-backslash-n). -/
def piecesPlain (segs : List (List Char × Bool)) (last : List Char) : Bool :=
  segs.all (fun p => !hasEscapedLF p.1 && (p.2 || !decide ([backslash, 'r'] <:+ p.1)))
    && !hasEscapedLF last

/-- Puts the rune `c` in front of the first piece (of `last` when there is no escape). -/
def consPiece (c : Char) :
    List (List Char × Bool) × List Char → List (List Char × Bool) × List Char
  | ([], last) => ([], c :: last)
  | ((s, b) :: segs, last) => ((c :: s, b) :: segs, last)

/-- Cuts a text at its escapes, read from the left as `unescapeNewLines` reads them:
the pieces between the escapes, each with the kind of the escape after it, and the
piece after the last escape. -/
def splitEscapes : List Char → List (List Char × Bool) × List Char
  | [] => ([], [])
  | c :: rest =>
    if c = backslash then
      match rest with
      | c1 :: c2 :: c3 :: rest3 =>
        if c1 = 'r' ∧ c2 = backslash ∧ c3 = 'n' then
          (([], true) :: (splitEscapes rest3).1, (splitEscapes rest3).2)
        else if c1 = 'n' then
          (([], false) :: (splitEscapes (c2 :: c3 :: rest3)).1,
            (splitEscapes (c2 :: c3 :: rest3)).2)
        else consPiece c (splitEscapes (c1 :: c2 :: c3 :: rest3))
      | c1 :: rest1 =>
        if c1 = 'n' then (([], false) :: (splitEscapes rest1).1, (splitEscapes rest1).2)
        else consPiece c (splitEscapes (c1 :: rest1))
      | [] => ([], [c])
    else consPiece c (splitEscapes rest)

/-! ## errors.go: the text of an error -/

/-- Go: the verb `%d` of `fmt.Sprintf` for an `int`. -/
def formatInt (n : Int) : List Char :=
  (toString n).toList

/-- Go: `func (err *ErrSyntax) Error() string`. -/
def ErrSyntax.Error (err : ErrSyntax) : List Char :=
  if err.Line > 0 then
    "line ".toList ++ formatInt err.Line ++ ": syntax error (".toList ++ err.Reason.toList
      ++ ")".toList
  else
    err.EnvVar ++ ": syntax error (".toList ++ err.Reason.toList ++ ")".toList

/-! ## osenv.go: OSEnviron -/

/-- The inner loop of `OSEnviron` over one string `s` of `os.Environ()`: `s[0:i]` and
`s[i+1:]` for the first `i` with `s[i] == '='`, `none` when `s` holds no `=`. -/
def splitAtEqual : List Char → Option (List Char × List Char)
  | [] => none
  | c :: rest =>
    if c = '=' then some ([], rest)
    else (splitAtEqual rest).map (fun p => (c :: p.1, p.2))

/-- The map `src` that `OSEnviron` fills from the strings of `os.Environ()`. -/
def environMap (environ : List (List Char)) : envVarMap :=
  environ.foldl
    (fun m s =>
      match splitAtEqual s with
      | some (k, v) => mapStore m k (some v)
      | none => m)
    []

/-- Go: `func OSEnviron(dest any) error`, with the strings of `os.Environ()` as an
argument: the result and the fields of `dest` after the call. -/
def OSEnviron (lib : GoLib) (environ : List (List Char)) (dest : List StructField) :
    Result × List StructField :=
  let p := reflectMapToStruct lib (environMap environ) dest
  (p.1, p.2.1)

/-! ## Shapes of values the properties of the binder speak about -/

/-- The text `s` is the word `w` with some of its letters written in upper case. -/
def isCaseVariant : List Char → List Char → Bool
  | [], [] => true
  | c :: s, d :: w =>
    decide (c = d ∨ ('A' ≤ c ∧ c ≤ 'Z' ∧ c.toNat + 32 = d.toNat)) && isCaseVariant s w
  | _, _ => false

/-- Value of a run of decimal digits, most significant first. -/
def natOfDigits (ds : List Char) : Nat :=
  ds.foldl (fun a d => a * 10 + (d.toNat - 48)) 0

/-- A base-10 signed integer literal: an optional sign, then one or more decimal
digits. -/
def isDecimalLiteral (s : List Char) : Bool :=
  match s with
  | [] => false
  | c :: rest =>
    let digits := if c = '+' ∨ c = '-' then rest else c :: rest
    decide (digits ≠ []) && digits.all (fun d => decide ('0' ≤ d ∧ d ≤ '9'))

/-- The integer a base-10 signed integer literal stands for. -/
def decimalValue (s : List Char) : Int :=
  match s with
  | [] => 0
  | c :: rest =>
    if c = '-' then - (natOfDigits rest : Int)
    else if c = '+' then (natOfDigits rest : Int)
    else (natOfDigits (c :: rest) : Int)

/-- The signed integer kinds that are no pointer. -/
def isIntKind : Value → Bool
  | .int _ | .int8 _ | .int16 _ | .int32 _ | .int64 _ => true
  | _ => false

/-- What the binder reads from the map `m` for the key `k`: the value, trimmed. -/
def trimmedLookup (m : envVarMap) (k : List Char) : Option (Option (List Char)) :=
  (mapLookup m k).map (Option.map TrimSpace)

/-- The field `g` after its round of the loop of `reflectMapToStruct` on the map `src`:
a field without `envVar` tag is skipped. -/
def boundField (lib : GoLib) (src : envVarMap) (g : StructField) : StructField :=
  if g.tagEnvVar = [] then g else { g with value := (bindField lib src g).2.1 }

/-- The reason strings of the `ErrSyntax` values that dotenv.go and maptostruct.go
build. -/
def syntaxReasons : List String :=
  ["naked variable", "invalid variable name", "missing closing quote", "unsupported quote",
    "number not parsable", "not parsable as Go duration string", "not a valid boolean value"]

/-- The text of the panic of Go for the slice expression `v[1:0]`. -/
def sliceBoundsPanic : List Char :=
  "runtime error: slice bounds out of range [1:0]".toList

/-! # Properties -/

/-! ## The scanner state after a read -/

@[simp] theorem read_ch (ds : dotEnvScanner) (r : Char) : (ds.read r).ch = some r := rfl
@[simp] theorem read_vars (ds : dotEnvScanner) (r : Char) : (ds.read r).vars = ds.vars := rfl
@[simp] theorem read_lastErr (ds : dotEnvScanner) (r : Char) : (ds.read r).lastErr = ds.lastErr := rfl
@[simp] theorem read_allowNaked (ds : dotEnvScanner) (r : Char) :
    (ds.read r).allowNaked = ds.allowNaked := rfl
@[simp] theorem read_quotes (ds : dotEnvScanner) (r : Char) : (ds.read r).quotes = ds.quotes := rfl
@[simp] theorem read_unsupportedQuotes (ds : dotEnvScanner) (r : Char) :
    (ds.read r).unsupportedQuotes = ds.unsupportedQuotes := rfl
@[simp] theorem read_expandNewlines (ds : dotEnvScanner) (r : Char) :
    (ds.read r).expandNewlines = ds.expandNewlines := rfl

theorem read_of_ne_newline (ds : dotEnvScanner) (r : Char) (h : r ≠ '\n') :
    ds.read r = { ds with ch := some r } := by
  simp [dotEnvScanner.read, h]

theorem read_newline (ds : dotEnvScanner) :
    ds.read '\n' = { ds with ch := some '\n', line := ds.line + 1 } := by
  simp [dotEnvScanner.read]

/-! ## The loops of the scanner, written with `next` as in the source -/

theorem consumeRestLine_next (ds : dotEnvScanner) (src : List Char) :
    consumeRestLine ds src
      = if (next ds src).1 = true then
          if (next ds src).2.1.ch = some '\n' then ((next ds src).2.1, (next ds src).2.2)
          else consumeRestLine (next ds src).2.1 (next ds src).2.2
        else ((next ds src).2.1, (next ds src).2.2) := by
  cases src with
  | nil => rfl
  | cons r rest => by_cases h : r = '\n' <;> simp [consumeRestLine, next, h]

theorem skipToEqual_next (ds : dotEnvScanner) (src : List Char) :
    skipToEqual ds src
      = if (next ds src).1 = true then
          if (next ds src).2.1.ch = some '=' then ((next ds src).2.1, (next ds src).2.2)
          else skipToEqual (next ds src).2.1 (next ds src).2.2
        else ((next ds src).2.1, (next ds src).2.2) := by
  cases src with
  | nil => rfl
  | cons r rest => by_cases h : r = '=' <;> simp [skipToEqual, next, h]

theorem handleQuotedValueLoop_next (q : Option Char) (ds : dotEnvScanner)
    (value src : List Char) :
    handleQuotedValueLoop q ds value src
      = if (next ds src).1 = true then
          if (next ds src).2.1.ch = q then
            (.ok (value ++ runeString (next ds src).2.1.ch), (next ds src).2.1,
              (next ds src).2.2)
          else
            handleQuotedValueLoop q (next ds src).2.1
              (value ++ runeString (next ds src).2.1.ch) (next ds src).2.2
        else
          (.error { Line := (next ds src).2.1.line, Reason := "missing closing quote" },
            (next ds src).2.1, (next ds src).2.2) := by
  cases src with
  | nil => rfl
  | cons r rest =>
    by_cases h : some r = q
    · subst h
      simp [handleQuotedValueLoop, next, runeString]
    · simp [handleQuotedValueLoop, next, runeString, h]

/-! ## Every loop of the scanner returns a suffix of its input -/

theorem consumeRestLine_length (ds : dotEnvScanner) (src : List Char) :
    (consumeRestLine ds src).2.length ≤ src.length := by
  induction src generalizing ds with
  | nil => simp [consumeRestLine]
  | cons r rest ih =>
    simp only [consumeRestLine]
    split
    · simp
    · exact Nat.le_succ_of_le (ih _)

theorem skipToEqual_length (ds : dotEnvScanner) (src : List Char) :
    (skipToEqual ds src).2.length ≤ src.length := by
  induction src generalizing ds with
  | nil => simp [skipToEqual]
  | cons r rest ih =>
    simp only [skipToEqual]
    split
    · simp
    · exact Nat.le_succ_of_le (ih _)

theorem handleNameLoop_length (ds : dotEnvScanner) (v src : List Char) :
    (handleNameLoop ds v src).2.2.length ≤ src.length := by
  induction src generalizing ds v with
  | nil => simp [handleNameLoop]
  | cons r rest ih =>
    simp only [handleNameLoop]
    split_ifs
    all_goals first
      | (simp; done)
      | exact Nat.le_succ_of_le (skipToEqual_length _ _)
      | exact Nat.le_succ_of_le (ih _ _)

theorem handleQuotedValueLoop_length (q : Option Char) (ds : dotEnvScanner) (v src : List Char) :
    (handleQuotedValueLoop q ds v src).2.2.length ≤ src.length := by
  induction src generalizing ds v with
  | nil => simp [handleQuotedValueLoop]
  | cons r rest ih =>
    simp only [handleQuotedValueLoop]
    split
    · simp
    · exact Nat.le_succ_of_le (ih _ _)

theorem handleValueLoop_length (ds : dotEnvScanner) (v src : List Char) :
    (handleValueLoop ds v src).2.2.length ≤ src.length := by
  induction src generalizing ds v with
  | nil => simp [handleValueLoop]
  | cons r rest ih =>
    simp only [handleValueLoop]
    split_ifs with h1 h2 h3 h4
    · have hq := handleQuotedValueLoop_length (ds.read r).ch (ds.read r)
        (runeString (ds.read r).ch) rest
      simp only [handleQuotedValue]
      split
      · rename_i heq; rw [heq] at hq; exact Nat.le_succ_of_le hq
      · rename_i heq; rw [heq] at hq
        split <;> exact Nat.le_succ_of_le hq
    · exact Nat.le_succ_of_le (consumeRestLine_length _ _)
    · simp
    · simp
    · exact Nat.le_succ_of_le (ih _ _)

/-- The result of the loop of `parse` does not depend on the fuel, once the fuel is
larger than the length of the input. -/
theorem parseLoop_fuel (n m : Nat) (ds : dotEnvScanner) (src : List Char)
    (hn : src.length < n) (hm : src.length < m) : parseLoop n ds src = parseLoop m ds src := by
  induction n generalizing m ds src with
  | zero => omega
  | succ n ih =>
    cases m with
    | zero => omega
    | succ m =>
      cases src with
      | nil => simp [parseLoop]
      | cons r rest =>
        simp only [List.length_cons, Nat.add_lt_add_iff_right] at hn hm
        simp only [parseLoop]
        split_ifs with h1 h2
        · exact ih m _ _ hn hm
        · have := consumeRestLine_length (ds.read r) rest
          exact ih m _ _ (by omega) (by omega)
        · have hN := handleNameLoop_length (ds.read r) (runeString (ds.read r).ch) rest
          simp only [handleName]
          split
          · rfl
          · rename_i heq
            rw [heq] at hN
            simp only at hN
            split_ifs
            · rename_i varName naked ds2 rest2 _
              have hV := handleValueLoop_length ds2 [] rest2
              simp only [handleValue]
              split
              · rfl
              · rename_i heq2
                rw [heq2] at hV
                simp only at hV
                split
                · rfl
                · exact ih m _ _ (by omega) (by omega)
            · split
              · rfl
              · exact ih m _ _ (by omega) (by omega)


/-! ## The loop of `parse`, one round at a time -/

theorem scanFrom_nil (ds : dotEnvScanner) : scanFrom ds [] = (none, ds.eof) := by
  simp [scanFrom, parseLoop]

theorem scanFrom_blank (ds : dotEnvScanner) (r : Char) (rest : List Char)
    (hr : r = ' ' ∨ r = '\r' ∨ r = '\n' ∨ r = '\t') :
    scanFrom ds (r :: rest) = scanFrom (ds.read r) rest := by
  simp only [scanFrom, List.length_cons, parseLoop, if_pos hr]

theorem scanFrom_comment (ds : dotEnvScanner) (rest : List Char) :
    scanFrom ds ('#' :: rest)
      = scanFrom (consumeRestLine (ds.read '#') rest).1 (consumeRestLine (ds.read '#') rest).2 := by
  have hlen := consumeRestLine_length (ds.read '#') rest
  simp only [scanFrom, List.length_cons, parseLoop]
  rw [if_neg (by decide), if_pos trivial]
  exact parseLoop_fuel _ _ _ _ (by omega) (by omega)

theorem scanFrom_nameErr (ds : dotEnvScanner) (r : Char) (rest : List Char)
    (err : ErrSyntax) (ds2 : dotEnvScanner) (rest2 : List Char)
    (hr : ¬ (r = ' ' ∨ r = '\r' ∨ r = '\n' ∨ r = '\t')) (hr2 : r ≠ '#')
    (hN : handleNameLoop (ds.read r) [r] rest = (.error err, ds2, rest2)) :
    scanFrom ds (r :: rest) = (some err, ds2) := by
  simp only [scanFrom, List.length_cons, parseLoop, if_neg hr, if_neg hr2, handleName,
    read_ch, runeString, hN]

theorem scanFrom_naked (ds : dotEnvScanner) (r : Char) (rest : List Char)
    (nm : List Char) (ds2 : dotEnvScanner) (rest2 : List Char)
    (hr : ¬ (r = ' ' ∨ r = '\r' ∨ r = '\n' ∨ r = '\t')) (hr2 : r ≠ '#')
    (hN : handleNameLoop (ds.read r) [r] rest = (.ok (nm, true), ds2, rest2))
    (hE : ds2.lastErr = none) :
    scanFrom ds (r :: rest) = scanFrom { ds2 with vars := mapStore ds2.vars nm none } rest2 := by
  have hlen := handleNameLoop_length (ds.read r) [r] rest
  rw [hN] at hlen
  simp only at hlen
  simp only [scanFrom, List.length_cons, parseLoop, if_neg hr, if_neg hr2, handleName,
    read_ch, runeString, hN, hE]
  simp only [Bool.true_eq_false, if_false]
  exact parseLoop_fuel _ _ _ _ (by omega) (by omega)

theorem scanFrom_valueErr (ds : dotEnvScanner) (r : Char) (rest : List Char)
    (nm : List Char) (ds2 : dotEnvScanner) (rest2 : List Char)
    (err : ErrSyntax) (ds3 : dotEnvScanner) (rest3 : List Char)
    (hr : ¬ (r = ' ' ∨ r = '\r' ∨ r = '\n' ∨ r = '\t')) (hr2 : r ≠ '#')
    (hN : handleNameLoop (ds.read r) [r] rest = (.ok (nm, false), ds2, rest2))
    (hV : handleValueLoop ds2 [] rest2 = (.error err, ds3, rest3)) :
    scanFrom ds (r :: rest) = (some err, ds3) := by
  simp only [scanFrom, List.length_cons, parseLoop, if_neg hr, if_neg hr2, handleName,
    read_ch, runeString, hN, handleValue, hV, if_true]

theorem scanFrom_assign (ds : dotEnvScanner) (r : Char) (rest : List Char)
    (nm : List Char) (ds2 : dotEnvScanner) (rest2 : List Char)
    (value : List Char) (ds3 : dotEnvScanner) (rest3 : List Char)
    (hr : ¬ (r = ' ' ∨ r = '\r' ∨ r = '\n' ∨ r = '\t')) (hr2 : r ≠ '#')
    (hN : handleNameLoop (ds.read r) [r] rest = (.ok (nm, false), ds2, rest2))
    (hV : handleValueLoop ds2 [] rest2 = (.ok value, ds3, rest3)) :
    scanFrom ds (r :: rest)
      = match ds3.lastErr with
        | some err => (some err, { ds3 with vars := mapStore ds3.vars nm (some value) })
        | none => scanFrom { ds3 with vars := mapStore ds3.vars nm (some value) } rest3 := by
  have hlen := handleNameLoop_length (ds.read r) [r] rest
  rw [hN] at hlen
  have hlen2 := handleValueLoop_length ds2 [] rest2
  rw [hV] at hlen2
  simp only at hlen hlen2
  simp only [scanFrom, List.length_cons, parseLoop, if_neg hr, if_neg hr2, handleName,
    read_ch, runeString, hN, handleValue, hV, if_true]
  cases hE : ds3.lastErr with
  | some e => simp
  | none =>
    simp only
    exact parseLoop_fuel _ _ _ _ (by omega) (by omega)

/-! ## Reading a name -/

theorem skipToEqual_spaces (ds : dotEnvScanner) (k : Nat) (rest : List Char) :
    skipToEqual ds (List.replicate k ' ' ++ '=' :: rest) = ({ ds with ch := some '=' }, rest) := by
  induction k generalizing ds with
  | zero => simp [skipToEqual, dotEnvScanner.read]
  | succ k ih =>
    rw [List.replicate_succ, List.cons_append]
    simp only [skipToEqual]
    rw [if_neg (by decide), ih]
    simp [dotEnvScanner.read]

theorem handleNameLoop_equal (ds : dotEnvScanner) (v name rest : List Char)
    (hname : ∀ x ∈ name, x ≠ ' ' ∧ x ≠ '=' ∧ x ≠ '\r' ∧ x ≠ '\n') :
    handleNameLoop ds v (name ++ '=' :: rest)
      = (.ok (v ++ name, false), { ds with ch := some '=' }, rest) := by
  induction name generalizing ds v with
  | nil => simp [handleNameLoop, dotEnvScanner.read]
  | cons c tl ih =>
    obtain ⟨h1, h2, h3, h4⟩ := hname c (List.mem_cons_self _ _)
    rw [List.cons_append]
    simp only [handleNameLoop]
    rw [if_neg (by simp [h3, h4]), if_neg h1, if_neg h2,
      ih _ _ (fun x hx => hname x (List.mem_cons_of_mem _ hx))]
    simp [dotEnvScanner.read, h4]

theorem handleNameLoop_spaces (ds : dotEnvScanner) (v name rest : List Char) (k : Nat)
    (hname : ∀ x ∈ name, x ≠ ' ' ∧ x ≠ '=' ∧ x ≠ '\r' ∧ x ≠ '\n') :
    handleNameLoop ds v (name ++ (List.replicate (k + 1) ' ' ++ '=' :: rest))
      = (.ok (v ++ name, false), { ds with ch := some '=' }, rest) := by
  induction name generalizing ds v with
  | nil =>
    rw [List.nil_append, List.replicate_succ, List.cons_append]
    simp only [handleNameLoop]
    rw [if_neg (by decide), if_pos trivial, skipToEqual_spaces]
    simp [dotEnvScanner.read]
  | cons c tl ih =>
    obtain ⟨h1, h2, h3, h4⟩ := hname c (List.mem_cons_self _ _)
    rw [List.cons_append]
    simp only [handleNameLoop]
    rw [if_neg (by simp [h3, h4]), if_neg h1, if_neg h2]
    rw [ih (ds.read c) (v ++ [c]) (fun x hx => hname x (List.mem_cons_of_mem _ hx))]
    simp [dotEnvScanner.read, h4]

theorem handleNameLoop_newline (ds : dotEnvScanner) (v name rest : List Char)
    (hname : ∀ x ∈ name, x ≠ ' ' ∧ x ≠ '=' ∧ x ≠ '\r' ∧ x ≠ '\n') :
    handleNameLoop ds v (name ++ '\n' :: rest)
      = if ds.allowNaked = false then
          (.error { Line := ds.line, Reason := "naked variable" },
            { ds with ch := some '\n', line := ds.line + 1 }, rest)
        else
          (.ok (v ++ name, true), { ds with ch := some '\n', line := ds.line + 1 }, rest) := by
  induction name generalizing ds v with
  | nil =>
    rw [List.nil_append]
    simp only [handleNameLoop]
    rw [if_pos (Or.inr trivial)]
    simp [dotEnvScanner.read]
  | cons c tl ih =>
    obtain ⟨h1, h2, h3, h4⟩ := hname c (List.mem_cons_self _ _)
    rw [List.cons_append]
    simp only [handleNameLoop]
    rw [if_neg (by simp [h3, h4]), if_neg h1, if_neg h2,
      ih _ _ (fun x hx => hname x (List.mem_cons_of_mem _ hx))]
    simp [dotEnvScanner.read, h4]

/-! ## Reading a value -/

theorem consumeRestLine_line (ds : dotEnvScanner) (c rest : List Char) (hc : '\n' ∉ c) :
    consumeRestLine ds (c ++ '\n' :: rest)
      = ({ ds with ch := some '\n', line := ds.line + 1 }, rest) := by
  induction c generalizing ds with
  | nil => simp [consumeRestLine, dotEnvScanner.read]
  | cons x tl ih =>
    have hx : x ≠ '\n' := fun h => hc (h ▸ List.mem_cons_self _ _)
    rw [List.cons_append]
    simp only [consumeRestLine]
    rw [if_neg hx, ih _ (fun h => hc (List.mem_cons_of_mem _ h))]
    simp [dotEnvScanner.read, hx]

theorem handleValueLoop_step (ds : dotEnvScanner) (val : List Char) (x : Char) (rest : List Char)
    (h1 : x ∉ ds.quotes) (h2 : x ≠ '#') (h3 : x ≠ '\n') (h4 : x ∉ ds.unsupportedQuotes) :
    handleValueLoop ds val (x :: rest)
      = handleValueLoop { ds with ch := some x } (val ++ [x]) rest := by
  simp only [handleValueLoop, read_quotes, read_unsupportedQuotes]
  rw [if_neg h1, if_neg h2, if_neg h3, if_neg h4, read_of_ne_newline _ _ h3]


theorem handleValueLoop_eof (ds : dotEnvScanner) (val v : List Char) (hv : plainFor ds v) :
    handleValueLoop ds val v = (.ok (val ++ v), { ds with ch := none }, []) := by
  induction v generalizing ds val with
  | nil => simp [handleValueLoop, dotEnvScanner.eof]
  | cons x tl ih =>
    obtain ⟨h1, h2, h3, h4⟩ := hv x (List.mem_cons_self _ _)
    rw [handleValueLoop_step _ _ _ _ h1 h2 h3 h4,
      ih { ds with ch := some x } _ (fun z hz => hv z (List.mem_cons_of_mem _ hz))]
    simp

theorem handleValueLoop_newline (ds : dotEnvScanner) (val v rest : List Char)
    (hv : plainFor ds v) (hq : '\n' ∉ ds.quotes) :
    handleValueLoop ds val (v ++ '\n' :: rest)
      = (.ok (val ++ v), { ds with ch := some '\n', line := ds.line + 1 }, rest) := by
  induction v generalizing ds val with
  | nil =>
    rw [List.nil_append]
    simp only [handleValueLoop, read_quotes]
    rw [if_neg hq, if_neg (by decide), if_pos trivial]
    simp [dotEnvScanner.read]
  | cons x tl ih =>
    obtain ⟨h1, h2, h3, h4⟩ := hv x (List.mem_cons_self _ _)
    rw [List.cons_append, handleValueLoop_step _ _ _ _ h1 h2 h3 h4,
      ih { ds with ch := some x } _ (fun z hz => hv z (List.mem_cons_of_mem _ hz)) hq]
    simp

theorem handleValueLoop_comment (ds : dotEnvScanner) (val v c rest : List Char)
    (hv : plainFor ds v) (hq : '#' ∉ ds.quotes) (hc : '\n' ∉ c) :
    handleValueLoop ds val (v ++ '#' :: (c ++ '\n' :: rest))
      = (.ok (val ++ v), { ds with ch := some '\n', line := ds.line + 1 }, rest) := by
  induction v generalizing ds val with
  | nil =>
    rw [List.nil_append]
    simp only [handleValueLoop, read_quotes]
    rw [if_neg hq, if_pos trivial, consumeRestLine_line _ _ _ hc]
    simp [dotEnvScanner.read]
  | cons x tl ih =>
    obtain ⟨h1, h2, h3, h4⟩ := hv x (List.mem_cons_self _ _)
    rw [List.cons_append, handleValueLoop_step _ _ _ _ h1 h2 h3 h4,
      ih { ds with ch := some x } _ (fun z hz => hv z (List.mem_cons_of_mem _ hz)) hq]
    simp

theorem handleValueLoop_unsupported (ds : dotEnvScanner) (val v rest : List Char) (b : Char)
    (hv : plainFor ds v) (hq : b ∉ ds.quotes) (h2 : b ≠ '#') (h3 : b ≠ '\n')
    (hb : b ∈ ds.unsupportedQuotes) :
    handleValueLoop ds val (v ++ b :: rest)
      = (.error { Line := ds.line, Reason := "unsupported quote" },
          { ds with ch := some b }, rest) := by
  induction v generalizing ds val with
  | nil =>
    rw [List.nil_append]
    simp only [handleValueLoop, read_quotes, read_unsupportedQuotes]
    rw [if_neg hq, if_neg h2, if_neg h3, if_pos hb]
    simp [dotEnvScanner.read, h3]
  | cons x tl ih =>
    obtain ⟨h1, h2', h3', h4⟩ := hv x (List.mem_cons_self _ _)
    rw [List.cons_append, handleValueLoop_step _ _ _ _ h1 h2' h3' h4,
      ih { ds with ch := some x } _ (fun z hz => hv z (List.mem_cons_of_mem _ hz)) hq hb]

/-- A quoted span that is closed: the loop returns the text with both quotes. -/
theorem handleQuotedValueLoop_closed (q : Char) (ds : dotEnvScanner) (val inner rest : List Char)
    (hq : q ∉ inner) :
    handleQuotedValueLoop (some q) ds val (inner ++ q :: rest)
      = (.ok (val ++ inner ++ [q]),
          { ds with ch := some q, line := (ds.read q).line + inner.count '\n' }, rest) := by
  induction inner generalizing ds val with
  | nil =>
    rw [List.nil_append]
    simp [handleQuotedValueLoop, dotEnvScanner.read]
  | cons x tl ih =>
    have hx : x ≠ q := fun h => hq (h ▸ List.mem_cons_self _ _)
    rw [List.cons_append]
    simp only [handleQuotedValueLoop]
    rw [if_neg (by simpa using hx), ih _ _ (fun h => hq (List.mem_cons_of_mem _ h))]
    by_cases hn : x = '\n'
    · subst hn
      have hqn : q ≠ '\n' := fun h => hx h.symm
      simp [dotEnvScanner.read, hqn]
      omega
    · by_cases hqn : q = '\n'
      · simp [dotEnvScanner.read, hqn, hn, List.count_cons]
      · simp [dotEnvScanner.read, hqn, hn, List.count_cons]

/-- A quoted span that is not closed: the loop runs to the end of the input. -/
theorem handleQuotedValueLoop_open (q : Char) (ds : dotEnvScanner) (val inner : List Char)
    (hq : q ∉ inner) :
    handleQuotedValueLoop (some q) ds val inner
      = (.error { Line := ds.line + inner.count '\n', Reason := "missing closing quote" },
          { ds with ch := none, line := ds.line + inner.count '\n' }, []) := by
  induction inner generalizing ds val with
  | nil => simp [handleQuotedValueLoop, dotEnvScanner.eof]
  | cons x tl ih =>
    have hx : x ≠ q := fun h => hq (h ▸ List.mem_cons_self _ _)
    simp only [handleQuotedValueLoop]
    rw [if_neg (by simpa using hx), ih _ _ (fun h => hq (List.mem_cons_of_mem _ h))]
    by_cases hn : x = '\n'
    · subst hn
      simp [dotEnvScanner.read]
      omega
    · simp [dotEnvScanner.read, hn, List.count_cons]

theorem handleValueLoop_quoted (ds : dotEnvScanner) (val v inner rest : List Char) (q : Char)
    (hv : plainFor ds v) (hq : q ∈ ds.quotes) (hqn : q ≠ '\n') (hin : q ∉ inner) :
    handleValueLoop ds val (v ++ q :: (inner ++ q :: rest))
      = (.ok (if q ∈ ds.expandNewlines then unescapeNewLines (q :: inner ++ [q])
            else q :: inner ++ [q]),
          { ds with ch := some q, line := ds.line + inner.count '\n' }, rest) := by
  induction v generalizing ds val with
  | nil =>
    rw [List.nil_append]
    simp only [handleValueLoop, read_quotes, handleQuotedValue, read_ch, runeString]
    rw [if_pos hq, handleQuotedValueLoop_closed _ _ _ _ _ hin]
    simp only [read_expandNewlines]
    split_ifs <;> simp [dotEnvScanner.read, hqn]
  | cons x tl ih =>
    obtain ⟨h1, h2, h3, h4⟩ := hv x (List.mem_cons_self _ _)
    rw [List.cons_append, handleValueLoop_step _ _ _ _ h1 h2 h3 h4,
      ih { ds with ch := some x } _ (fun z hz => hv z (List.mem_cons_of_mem _ hz)) hq]

theorem handleValueLoop_unclosed (ds : dotEnvScanner) (val v inner : List Char) (q : Char)
    (hv : plainFor ds v) (hq : q ∈ ds.quotes) (hqn : q ≠ '\n') (hin : q ∉ inner) :
    handleValueLoop ds val (v ++ q :: inner)
      = (.ok [],
          { ds with
            ch := none, line := ds.line + inner.count '\n',
            lastErr := some { Line := ds.line + inner.count '\n',
                              Reason := "missing closing quote" } }, []) := by
  induction v generalizing ds val with
  | nil =>
    rw [List.nil_append]
    simp only [handleValueLoop, read_quotes, handleQuotedValue, read_ch, runeString]
    rw [if_pos hq, handleQuotedValueLoop_open _ _ _ _ hin]
    simp [dotEnvScanner.read, hqn]
  | cons x tl ih =>
    obtain ⟨h1, h2, h3, h4⟩ := hv x (List.mem_cons_self _ _)
    rw [List.cons_append, handleValueLoop_step _ _ _ _ h1 h2 h3 h4,
      ih { ds with ch := some x } _ (fun z hz => hv z (List.mem_cons_of_mem _ hz)) hq]

/-! ## Names and blank runes -/

theorem isName_cases (name : List Char) (h : isName name = true) :
    ∃ c tl, name = c :: tl ∧ ¬ (c = ' ' ∨ c = '\r' ∨ c = '\n' ∨ c = '\t') ∧ c ≠ '#'
      ∧ ∀ x ∈ tl, x ≠ ' ' ∧ x ≠ '=' ∧ x ≠ '\r' ∧ x ≠ '\n' := by
  cases name with
  | nil => simp [isName] at h
  | cons c tl =>
    refine ⟨c, tl, rfl, ?_⟩
    simp only [isName, List.all_cons, Bool.and_eq_true, decide_eq_true_eq, List.all_eq_true] at h
    obtain ⟨⟨a1, a2, a3, a4, a5⟩, -, htl⟩ := h
    exact ⟨by simp [a1, a2, a3, a4], a5, htl⟩

theorem isName_ne_nil (name : List Char) (h : isName name = true) : name ≠ [] := by
  obtain ⟨c, tl, rfl, -⟩ := isName_cases name h
  exact List.cons_ne_nil _ _

theorem scanFrom_blanks (ds : dotEnvScanner) (ws rest : List Char) (hws : isBlank ws = true)
    (hne : ws ≠ []) :
    scanFrom ds (ws ++ rest)
      = scanFrom { ds with ch := some (ws.getLast hne), line := ds.line + ws.count '\n' } rest := by
  induction ws generalizing ds with
  | nil => exact absurd rfl hne
  | cons x tl ih =>
    simp only [isBlank, List.all_cons, Bool.and_eq_true, decide_eq_true_eq] at hws
    rw [List.cons_append, scanFrom_blank _ _ _ hws.1]
    cases tl with
    | nil =>
      by_cases hx : x = '\n'
      · simp [dotEnvScanner.read, hx]
      · have hx2 : ¬ ('\n' = x) := fun h => hx h.symm
        simp [dotEnvScanner.read, hx, hx2, List.count_cons]
    | cons y tl2 =>
      rw [ih (ds.read x) (by simpa [isBlank] using hws.2) (List.cons_ne_nil _ _)]
      by_cases hx : x = '\n'
      · subst hx
        simp only [dotEnvScanner.read, List.count_cons, if_true, List.getLast_cons_cons,
          beq_self_eq_true, Nat.cast_add, Nat.cast_one]
        congr 2
        ring
      · have hx2 : ¬ ('\n' = x) := fun h => hx h.symm
        simp [dotEnvScanner.read, hx, hx2, List.count_cons]

/-- `TrimSpace` removes a run of white space at each end and nothing else: what is
left starts and ends with a rune that is no white space. -/
theorem TrimSpace_spec (s : List Char) :
    ∃ a b, s = a ++ TrimSpace s ++ b ∧ (∀ x ∈ a, isSpace x = true) ∧ (∀ x ∈ b, isSpace x = true)
      ∧ (∀ x, (TrimSpace s).head? = some x → isSpace x = false)
      ∧ (∀ x, (TrimSpace s).getLast? = some x → isSpace x = false) := by
  have h1 : (s.dropWhile isSpace).rdropWhile isSpace ++ (s.dropWhile isSpace).rtakeWhile isSpace
      = s.dropWhile isSpace := by
    unfold List.rdropWhile List.rtakeWhile
    rw [← List.reverse_append, List.takeWhile_append_dropWhile, List.reverse_reverse]
  refine ⟨s.takeWhile isSpace, (s.dropWhile isSpace).rtakeWhile isSpace, ?_, ?_, ?_, ?_, ?_⟩
  · unfold TrimSpace
    rw [List.append_assoc, h1, List.takeWhile_append_dropWhile]
  · intro x hx
    exact List.mem_takeWhile_imp hx
  · intro x hx
    exact List.mem_rtakeWhile_imp hx
  · intro x hx
    unfold TrimSpace at hx
    have ht := h1
    cases hl : (s.dropWhile isSpace).rdropWhile isSpace with
    | nil => rw [hl] at hx; simp at hx
    | cons y tl =>
      rw [hl] at hx ht
      simp only [List.head?_cons, Option.some.injEq] at hx
      subst hx
      rw [List.cons_append] at ht
      have hne : s.dropWhile isSpace ≠ [] := by rw [← ht]; exact List.cons_ne_nil _ _
      have hh := List.head_dropWhile_not isSpace s hne
      have he : ∀ (m r : List Char) (hm : m ≠ []), y :: r = m → m.head hm = y := by
        intro m r hm e
        subst e
        rfl
      rw [he _ _ hne ht] at hh
      exact hh
  · intro x hx
    unfold TrimSpace at hx
    cases hl : (s.dropWhile isSpace).rdropWhile isSpace with
    | nil => rw [hl] at hx; simp at hx
    | cons y tl =>
      have hne : (s.dropWhile isSpace).rdropWhile isSpace ≠ [] := by rw [hl]; simp
      have := List.rdropWhile_last_not isSpace (s.dropWhile isSpace) hne
      rw [List.getLast?_eq_getLast _ hne] at hx
      simp only [Option.some.injEq] at hx
      rw [hx] at this
      simpa using this

/-! ## The binder on string fields -/

theorem TrimSpace_mem (s : List Char) (x : Char) (h : x ∈ TrimSpace s) : x ∈ s := by
  unfold TrimSpace List.rdropWhile at h
  rw [List.mem_reverse] at h
  have h2 := (List.dropWhile_suffix (p := isSpace) (l := (List.dropWhile isSpace s).reverse)).subset h
  rw [List.mem_reverse] at h2
  exact (List.dropWhile_suffix (p := isSpace) (l := s)).subset h2

theorem TrimSpace_quoted (q : Char) (inner : List Char) (hq : isSpace q = false) :
    TrimSpace (q :: (inner ++ [q])) = q :: (inner ++ [q]) := by
  unfold TrimSpace
  rw [List.dropWhile_cons_of_neg (by simp [hq])]
  have : q :: (inner ++ [q]) = (q :: inner) ++ [q] := rfl
  rw [this, List.rdropWhile_concat_neg _ _ _ (by simp [hq])]

theorem handleString_unquoted (name : List Char) (old v : List Char)
    (hv : ∀ x ∈ v, x ≠ dquote ∧ x ≠ backtick ∧ x ≠ squote) :
    handleString name (.string old) (some v) = (.nil, .string v) := by
  cases v with
  | nil => simp [handleString, Value.isPointer, reflectSetString]
  | cons c tl =>
    obtain ⟨h1, h2, h3⟩ := hv c (List.mem_cons_self _ _)
    simp [handleString, Value.isPointer, reflectSetString, h1, h2, h3]

theorem handleString_quoted (name : List Char) (old inner : List Char) (q : Char)
    (hq : q = dquote ∨ q = backtick ∨ q = squote) :
    handleString name (.string old) (some (q :: (inner ++ [q]))) = (.nil, .string inner) := by
  simp only [handleString, Value.isPointer]
  rw [if_pos hq]
  have hlast : (q :: (inner ++ [q])).getLast (List.cons_ne_nil _ _) = q := by
    simp
  rw [if_neg (by rw [hlast]; simp), if_neg (by simp)]
  simp [reflectSetString]

theorem mapLookup_single (k : List Char) (v : Option (List Char)) :
    mapLookup [(k, v)] k = some v := by
  simp [mapLookup]

/-- The binder on a struct with one field that carries an `envVar` tag. -/
theorem reflectMapToStruct_single (lib : GoLib) (src : envVarMap) (f : StructField)
    (h : f.tagEnvVar ≠ []) :
    reflectMapToStruct lib src [f]
      = ((bindField lib src f).1, [{ f with value := (bindField lib src f).2.1 }],
          (bindField lib src f).2.2) := by
  simp only [reflectMapToStruct]
  rw [if_neg h]
  rcases hb : bindField lib src f with ⟨r, v, s1⟩
  cases r <;> simp

/-- Binding one string field from a map that holds its variable with the value `v`. -/
theorem bind_string_present (lib : GoLib) (f : StructField) (old name v out : List Char)
    (hne : name ≠ []) (htag : f.tagEnvVar = name) (htype : f.value = .string old)
    (hS : handleString name (.string old) (some (TrimSpace v)) = (.nil, .string out)) :
    reflectMapToStruct lib [(name, some v)] [f]
      = (.nil, [{ f with value := .string out }], [(name, some (TrimSpace v))]) := by
  rw [reflectMapToStruct_single lib _ f (by rw [htag]; exact hne)]
  simp [bindField, htag, htype, mapLookup, mapStore, hS]

/-! ## From `parse` to the two entry points -/

theorem dotEnvToStruct_parse_err (lib : GoLib) (s : dotEnvScanner) (dest : List StructField)
    (r : List Char) (err : ErrSyntax) (s1 : dotEnvScanner) (h : parse s r = (some err, s1)) :
    dotEnvToStruct lib s dest r = (.err err, dest, s1) := by
  simp [dotEnvToStruct, h]

theorem dotEnvToStruct_bind_nil (lib : GoLib) (s : dotEnvScanner) (dest : List StructField)
    (r : List Char) (s1 : dotEnvScanner) (dest1 : List StructField) (vars1 : envVarMap)
    (h : parse s r = (none, s1))
    (hb : reflectMapToStruct lib s1.vars dest = (.nil, dest1, vars1)) :
    dotEnvToStruct lib s dest r = (.nil, dest1, { s1 with vars := vars1 }) := by
  simp [dotEnvToStruct, h, hb]

/-! ## Scanning one assignment -/

theorem isUnquoted_nodeJS (v : List Char) (h : isUnquoted v = true) (ds : dotEnvScanner)
    (hq : ds.quotes = nodeJSScanner.quotes)
    (hu : ds.unsupportedQuotes = nodeJSScanner.unsupportedQuotes) : plainFor ds v := by
  intro x hx
  simp only [isUnquoted, List.all_eq_true, decide_eq_true_eq] at h
  obtain ⟨h1, h2, h3, h4, h5⟩ := h x hx
  rw [hq, hu]
  simp [nodeJSScanner, h1, h2, h3, h4, h5]

theorem isUnquoted_django (v : List Char) (h : isUnquoted v = true) (ds : dotEnvScanner)
    (hq : ds.quotes = djangoScanner.quotes)
    (hu : ds.unsupportedQuotes = djangoScanner.unsupportedQuotes) : plainFor ds v := by
  intro x hx
  simp only [isUnquoted, List.all_eq_true, decide_eq_true_eq] at h
  obtain ⟨h1, h2, h3, h4, h5⟩ := h x hx
  rw [hq, hu]
  simp [djangoScanner, h1, h2, h3, h4, h5]

theorem isUnquoted_no_quote (v : List Char) (h : isUnquoted v = true) :
    ∀ x ∈ v, x ≠ dquote ∧ x ≠ backtick ∧ x ≠ squote := by
  intro x hx
  simp only [isUnquoted, List.all_eq_true, decide_eq_true_eq] at h
  obtain ⟨h1, h2, h3, -, -⟩ := h x hx
  exact ⟨h1, h3, h2⟩

/-- Scanning the text `name=value` where `handleValue` appends every rune of `value`. -/
theorem parse_assign_eof (ds : dotEnvScanner) (name value : List Char)
    (hname : isName name = true) (hv : plainFor ds value) (hE : ds.lastErr = none) :
    parse ds (name ++ '=' :: value)
      = (none, { ds with ch := none, line := 1, vars := [(name, some value)] }) := by
  obtain ⟨c, tl, rfl, hc1, hc2, htl⟩ := isName_cases name hname
  unfold parse
  have hN := handleNameLoop_equal ({ ds with line := 1, vars := [] }.read c) [c] tl value htl
  have hV := handleValueLoop_eof { ({ ds with line := 1, vars := [] }.read c) with ch := some '=' }
    [] value hv
  rw [List.cons_append, scanFrom_assign _ c _ _ _ _ _ _ _ hc1 hc2 hN hV]
  simp only [read_lastErr, hE, scanFrom_nil]
  have hcn : c ≠ '\n' := fun h => hc1 (Or.inr (Or.inr (Or.inl h)))
  simp [dotEnvScanner.read, dotEnvScanner.eof, hcn, mapStore]

theorem NodeJSDotEnv_bind_nil (lib : GoLib) (dest : List StructField)
    (r : List Char) (s1 : dotEnvScanner) (dest1 : List StructField) (vars1 : envVarMap)
    (h : parse nodeJSScanner r = (none, s1))
    (hb : reflectMapToStruct lib s1.vars dest = (.nil, dest1, vars1)) :
    NodeJSDotEnv lib dest r = (.nil, dest1) := by
  simp [NodeJSDotEnv, dotEnvToStruct_bind_nil lib _ _ _ _ _ _ h hb]

theorem DjangoDotEnv_bind_nil (lib : GoLib) (dest : List StructField)
    (r : List Char) (s1 : dotEnvScanner) (dest1 : List StructField) (vars1 : envVarMap)
    (h : parse djangoScanner r = (none, s1))
    (hb : reflectMapToStruct lib s1.vars dest = (.nil, dest1, vars1)) :
    DjangoDotEnv lib dest r = (.nil, dest1) := by
  simp [DjangoDotEnv, dotEnvToStruct_bind_nil lib _ _ _ _ _ _ h hb]

/-- C1: for a name `name` and unquoted value text `value`, scanning `name=value` under
either dialect and binding a string field tagged `name` returns no error and leaves the
field equal to `value` with the white space at both ends removed and every other rune,
a backslash included, as it was. -/
theorem C1_unquoted_value_bound_trimmed (lib : GoLib) (f : StructField)
    (old name value : List Char)
    (hname : isName name = true) (hvalue : isUnquoted value = true)
    (htag : f.tagEnvVar = name) (htype : f.value = .string old) :
    NodeJSDotEnv lib [f] (name ++ '=' :: value)
        = (.nil, [{ f with value := .string (TrimSpace value) }])
      ∧ DjangoDotEnv lib [f] (name ++ '=' :: value)
        = (.nil, [{ f with value := .string (TrimSpace value) }])
      ∧ ∃ a b, value = a ++ TrimSpace value ++ b
          ∧ (∀ x ∈ a, isSpace x = true) ∧ (∀ x ∈ b, isSpace x = true)
          ∧ (∀ x, (TrimSpace value).head? = some x → isSpace x = false)
          ∧ (∀ x, (TrimSpace value).getLast? = some x → isSpace x = false) := by
  have hb := bind_string_present lib f old name value (TrimSpace value)
    (isName_ne_nil name hname) htag htype
    (handleString_unquoted name old _
      (fun x hx => isUnquoted_no_quote value hvalue x (TrimSpace_mem _ _ hx)))
  refine ⟨?_, ?_, TrimSpace_spec value⟩
  · exact NodeJSDotEnv_bind_nil lib _ _ _ _ _
      (parse_assign_eof nodeJSScanner name value hname
        (isUnquoted_nodeJS value hvalue _ rfl rfl) rfl) hb
  · exact DjangoDotEnv_bind_nil lib _ _ _ _ _
      (parse_assign_eof djangoScanner name value hname
        (isUnquoted_django value hvalue _ rfl rfl) rfl) hb

/-- C1 at the input of the repository's test: `STRING=not\nexpanded` with a literal
backslash and `n`, and two blanks after it. -/
theorem C1_unquoted_value_bound_trimmed_witness :
    isName "STRING".toList = true ∧ isUnquoted "not\\nexpanded  ".toList = true
      ∧ TrimSpace "not\\nexpanded  ".toList = "not\\nexpanded".toList
      ∧ NodeJSDotEnv plainLib [{ tagEnvVar := "STRING".toList, value := .string [] }]
          ("STRING".toList ++ '=' :: "not\\nexpanded  ".toList)
        = (.nil, [{ tagEnvVar := "STRING".toList,
                    value := .string (TrimSpace "not\\nexpanded  ".toList) }]) :=
  ⟨by decide, by decide, by decide,
    (C1_unquoted_value_bound_trimmed plainLib
      { tagEnvVar := "STRING".toList, value := .string [] } [] "STRING".toList
      "not\\nexpanded  ".toList (by decide) (by decide) rfl rfl).1⟩

/-! ## Unescaping of newlines -/

theorem backslash_ne_n : backslash ≠ 'n' := by decide
theorem backslash_ne_r : backslash ≠ 'r' := by decide

theorem unescapeNewLines_other (c : Char) (rest : List Char) (h : c ≠ backslash) :
    unescapeNewLines (c :: rest) = c :: unescapeNewLines rest := by
  rw [unescapeNewLines.eq_def]
  simp only [if_neg h]

theorem unescapeNewLines_escLF (rest : List Char) :
    unescapeNewLines (backslash :: 'n' :: rest) = '\n' :: unescapeNewLines rest := by
  rcases rest with _ | ⟨a, _ | ⟨b, r⟩⟩ <;> simp [unescapeNewLines]

theorem unescapeNewLines_escCRLF (rest : List Char) :
    unescapeNewLines (backslash :: 'r' :: backslash :: 'n' :: rest)
      = '\n' :: unescapeNewLines rest := by
  simp [unescapeNewLines]

theorem unescapeNewLines_backslash (rest : List Char)
    (h1 : ∀ t, rest ≠ 'n' :: t) (h2 : ∀ t, rest ≠ 'r' :: backslash :: 'n' :: t) :
    unescapeNewLines (backslash :: rest) = backslash :: unescapeNewLines rest := by
  rcases rest with _ | ⟨a, _ | ⟨b, _ | ⟨d, r⟩⟩⟩
  · simp [unescapeNewLines]
  · have ha : a ≠ 'n' := fun h => h1 [] (by rw [h])
    simp [unescapeNewLines, ha]
  · have ha : a ≠ 'n' := fun h => h1 [b] (by rw [h])
    simp [unescapeNewLines, ha]
  · have ha : a ≠ 'n' := fun h => h1 (b :: d :: r) (by rw [h])
    have hb : ¬ (a = 'r' ∧ b = backslash ∧ d = 'n') := by
      rintro ⟨e1, e2, e3⟩
      exact h2 r (by rw [e1, e2, e3])
    simp only [unescapeNewLines, if_true, if_neg hb, if_neg ha]

/-- Text without the escape backslash-n passes through unchanged, whatever follows it,
unless an escape is completed across the border. -/
theorem unescapeNewLines_append (s t : List Char) (hs : hasEscapedLF s = false)
    (ht1 : ∀ u, t ≠ 'n' :: u) (ht2 : ∀ u, t ≠ 'r' :: u)
    (ht3 : ¬ ([backslash, 'r'] <:+ s) ∨ ∀ u, t ≠ backslash :: 'n' :: u) :
    unescapeNewLines (s ++ t) = s ++ unescapeNewLines t := by
  induction s with
  | nil => rfl
  | cons c rest ih =>
    have hrest : hasEscapedLF rest = false := by
      cases rest with
      | nil => rfl
      | cons a r =>
        simp only [hasEscapedLF, Bool.or_eq_false_iff] at hs
        exact hs.2
    have ht3r : ¬ ([backslash, 'r'] <:+ rest) ∨ ∀ u, t ≠ backslash :: 'n' :: u := by
      rcases ht3 with h | h
      · exact Or.inl (fun hh => h (List.suffix_cons_iff.mpr (Or.inr hh)))
      · exact Or.inr h
    rw [List.cons_append]
    by_cases hc : c = backslash
    · subst hc
      rw [unescapeNewLines_backslash, ih hrest ht3r]
      · rfl
      · intro u hu
        cases rest with
        | nil => exact ht1 u hu
        | cons a r =>
          simp only [List.cons_append, List.cons.injEq] at hu
          simp [hasEscapedLF, hu.1] at hs
      · intro u hu
        rcases rest with _ | ⟨a, _ | ⟨b, _ | ⟨d, r⟩⟩⟩
        · exact ht2 _ hu
        · simp only [List.cons_append, List.nil_append, List.cons.injEq] at hu
          rcases ht3 with h | h
          · exact h (by rw [hu.1])
          · exact h u hu.2
        · simp only [List.cons_append, List.nil_append, List.cons.injEq] at hu
          exact ht1 u hu.2.2
        · simp only [List.cons_append, List.cons.injEq] at hu
          simp [hasEscapedLF, hu.2.1, hu.2.2.1] at hs
    · rw [unescapeNewLines_other _ _ hc, ih hrest ht3r]
      rfl

theorem unescapeNewLines_id (s : List Char) (hs : hasEscapedLF s = false) :
    unescapeNewLines s = s := by
  have := unescapeNewLines_append s [] hs (by simp) (by simp) (Or.inr (by simp))
  simpa [unescapeNewLines] using this

theorem unescapeNewLines_pieces (segs : List (List Char × Bool)) (last t : List Char)
    (hp : piecesPlain segs last = true)
    (ht1 : ∀ u, t ≠ 'n' :: u) (ht2 : ∀ u, t ≠ 'r' :: u) (ht3 : ∀ u, t ≠ backslash :: 'n' :: u)
    (ht : unescapeNewLines t = t) :
    unescapeNewLines (joinEscaped segs last ++ t) = joinNewlines segs last ++ t := by
  induction segs with
  | nil =>
    simp only [piecesPlain, List.all_nil, Bool.true_and, Bool.not_eq_true'] at hp
    simp only [joinEscaped, joinNewlines]
    rw [unescapeNewLines_append _ _ hp ht1 ht2 (Or.inr ht3), ht]
  | cons p segs ih =>
    obtain ⟨s, crlf⟩ := p
    simp only [piecesPlain, List.all_cons, Bool.and_eq_true, Bool.not_eq_true',
      Bool.or_eq_true, decide_eq_false_iff_not] at hp
    obtain ⟨⟨⟨hs, hsuf⟩, hrest⟩, hlast⟩ := hp
    have hp2 : piecesPlain segs last = true := by
      simp only [piecesPlain, Bool.and_eq_true, Bool.not_eq_true']
      exact ⟨hrest, hlast⟩
    simp only [joinEscaped, joinNewlines, List.append_assoc]
    cases crlf with
    | true =>
      rw [if_pos rfl, unescapeNewLines_append _ _ hs (by simp [escCRLF, backslash_ne_n])
        (by simp [escCRLF, backslash_ne_r]) (Or.inr (by simp [escCRLF]))]
      simp only [escCRLF, List.cons_append, List.nil_append]
      rw [unescapeNewLines_escCRLF, ih hp2]
    | false =>
      have hsuf2 : ¬ [backslash, 'r'] <:+ s := by
        rcases hsuf with h | h
        · exact absurd h (by simp)
        · exact h
      rw [if_neg (by simp), unescapeNewLines_append _ _ hs (by simp [escLF, backslash_ne_n])
        (by simp [escLF, backslash_ne_r]) (Or.inl hsuf2)]
      simp only [escLF, List.cons_append, List.nil_append]
      rw [unescapeNewLines_escLF, ih hp2]

theorem unescapeNewLines_dquoted_pieces (segs : List (List Char × Bool)) (last : List Char)
    (hp : piecesPlain segs last = true) :
    unescapeNewLines (dquote :: joinEscaped segs last ++ [dquote])
      = dquote :: (joinNewlines segs last ++ [dquote]) := by
  rw [List.cons_append, unescapeNewLines_other _ _ (by decide),
    unescapeNewLines_pieces segs last [dquote] hp (by simp; decide) (by simp; decide)
      (by simp) (by rw [unescapeNewLines_other _ _ (by decide)]; rfl)]

theorem unescapeNewLines_dquoted_id (inner : List Char) (h : hasEscapedLF inner = false) :
    unescapeNewLines (dquote :: inner ++ [dquote]) = dquote :: (inner ++ [dquote]) := by
  have := unescapeNewLines_dquoted_pieces [] inner (by simp [piecesPlain, h])
  simpa [joinEscaped, joinNewlines] using this

/-! ## Scanning one quoted assignment -/

/-- Scanning `name=`, unquoted runes `pre`, then `inner` between two quotes `q`. -/
theorem parse_quoted_eof (ds : dotEnvScanner) (name pre inner : List Char) (q : Char)
    (hname : isName name = true) (hpre : plainFor ds pre) (hq : q ∈ ds.quotes)
    (hqn : q ≠ '\n') (hin : q ∉ inner) (hE : ds.lastErr = none) :
    parse ds (name ++ '=' :: (pre ++ q :: (inner ++ [q])))
      = (none, { ds with
          ch := some q, line := 1 + inner.count '\n',
          vars := [(name, some (if q ∈ ds.expandNewlines
                    then unescapeNewLines (q :: inner ++ [q]) else q :: inner ++ [q]))] }.eof) := by
  obtain ⟨c, tl, rfl, hc1, hc2, htl⟩ := isName_cases name hname
  unfold parse
  have hN := handleNameLoop_equal ({ ds with line := 1, vars := [] }.read c) [c] tl
    (pre ++ q :: (inner ++ [q])) htl
  have hV := handleValueLoop_quoted
    { ({ ds with line := 1, vars := [] }.read c) with ch := some '=' } [] pre inner [] q
    hpre hq hqn hin
  rw [List.cons_append, scanFrom_assign _ c _ _ _ _ _ _ _ hc1 hc2 hN hV]
  simp only [read_lastErr, hE, scanFrom_nil]
  have hcn : c ≠ '\n' := fun h => hc1 (Or.inr (Or.inr (Or.inl h)))
  simp [dotEnvScanner.read, dotEnvScanner.eof, hcn, mapStore]

theorem joinEscaped_consPiece (c : Char) (p : List (List Char × Bool) × List Char) :
    joinEscaped (consPiece c p).1 (consPiece c p).2 = c :: joinEscaped p.1 p.2 := by
  obtain ⟨segs, last⟩ := p
  cases segs with
  | nil => rfl
  | cons a t => obtain ⟨s, b⟩ := a; rfl

theorem joinEscaped_splitEscapes (s : List Char) :
    joinEscaped (splitEscapes s).1 (splitEscapes s).2 = s := by
  induction s using splitEscapes.induct with
  | case1 => rfl
  | case2 c1 c2 c3 rest3 h ih =>
    obtain ⟨h1, h2, h3⟩ := h
    subst h1 h2 h3
    simp [splitEscapes, joinEscaped, escCRLF, ih]
  | case3 c2 c3 rest3 h ih =>
    simp [splitEscapes, joinEscaped, escLF, ih, h]
  | case4 c1 c2 c3 rest3 h1 h2 ih =>
    simp only [splitEscapes, if_true, if_neg h1, if_neg h2, joinEscaped_consPiece, ih]
  | case5 rest1 h ih =>
    rcases rest1 with _ | ⟨a, _ | ⟨b, r⟩⟩
    · simp [splitEscapes, joinEscaped, escLF]
    · simp [splitEscapes, joinEscaped, escLF] at ih ⊢
      exact ih
    · exact absurd rfl (h a b r)
  | case6 c1 rest1 h h2 ih =>
    rcases rest1 with _ | ⟨a, _ | ⟨b, r⟩⟩
    · rw [splitEscapes.eq_def]
      simp only [if_true, if_neg h2, joinEscaped_consPiece, ih]
    · rw [splitEscapes.eq_def]
      simp only [if_true, if_neg h2, joinEscaped_consPiece, ih]
    · exact absurd rfl (h a b r)
  | case7 => simp [splitEscapes, joinEscaped]
  | case8 r rest h ih =>
    rw [splitEscapes.eq_def]
    simp only [if_neg h, joinEscaped_consPiece, ih]

theorem hasEscapedLF_cons_other (c : Char) (s : List Char) (hc : c ≠ backslash) :
    hasEscapedLF (c :: s) = hasEscapedLF s := by
  cases s with
  | nil => rfl
  | cons a r => simp [hasEscapedLF, hc]

theorem hasEscapedLF_cons_backslash (s : List Char) (h : ∀ u, s ≠ 'n' :: u) :
    hasEscapedLF (backslash :: s) = hasEscapedLF s := by
  cases s with
  | nil => rfl
  | cons a r =>
    have ha : a ≠ 'n' := fun e => h r (by rw [e])
    simp [hasEscapedLF, ha]

theorem piecesPlain_consPiece_other (c : Char) (p : List (List Char × Bool) × List Char)
    (hc : c ≠ backslash) :
    piecesPlain (consPiece c p).1 (consPiece c p).2 = piecesPlain p.1 p.2 := by
  obtain ⟨segs, last⟩ := p
  cases segs with
  | nil => simp [consPiece, piecesPlain, hasEscapedLF_cons_other c last hc]
  | cons a t =>
    obtain ⟨s, b⟩ := a
    have hsuf : [backslash, 'r'] <:+ c :: s ↔ [backslash, 'r'] <:+ s := by
      rw [List.suffix_cons_iff]
      constructor
      · rintro (h | h)
        · simp only [List.cons.injEq] at h
          exact absurd h.1.symm hc
        · exact h
      · exact Or.inr
    simp [consPiece, piecesPlain, hasEscapedLF_cons_other c s hc, hsuf]

theorem piecesPlain_consPiece_backslash (p : List (List Char × Bool) × List Char)
    (hp : piecesPlain p.1 p.2 = true)
    (h1 : ∀ u, joinEscaped p.1 p.2 ≠ 'n' :: u)
    (h2 : ∀ u, joinEscaped p.1 p.2 ≠ 'r' :: backslash :: 'n' :: u) :
    piecesPlain (consPiece backslash p).1 (consPiece backslash p).2 = true := by
  obtain ⟨segs, last⟩ := p
  cases segs with
  | nil =>
    simp only [joinEscaped] at h1
    simp only [piecesPlain, List.all_nil, Bool.true_and, Bool.not_eq_true'] at hp
    simp [consPiece, piecesPlain, hasEscapedLF_cons_backslash last h1, hp]
  | cons a t =>
    obtain ⟨s, b⟩ := a
    simp only [joinEscaped] at h1 h2
    simp only [piecesPlain, List.all_cons, Bool.and_eq_true, Bool.not_eq_true',
      Bool.or_eq_true, decide_eq_false_iff_not] at hp
    obtain ⟨⟨⟨hs, hsuf⟩, hrest⟩, hlast⟩ := hp
    have hs1 : ∀ u, s ≠ 'n' :: u := by
      intro u e
      exact h1 (u ++ ((if b then escCRLF else escLF) ++ joinEscaped t last)) (by rw [e]; rfl)
    have hsuf2 : b = true ∨ ¬ [backslash, 'r'] <:+ backslash :: s := by
      rcases hsuf with h | h
      · exact Or.inl h
      · cases b with
        | true => exact Or.inl rfl
        | false =>
          right
          rw [List.suffix_cons_iff]
          rintro (e | e)
          · simp only [List.cons.injEq, true_and] at e
            exact h2 (joinEscaped t last) (by rw [← e]; rfl)
          · exact h e
    simp only [consPiece, piecesPlain, List.all_cons, Bool.and_eq_true, Bool.not_eq_true',
      Bool.or_eq_true, decide_eq_false_iff_not]
    exact ⟨⟨⟨by rw [hasEscapedLF_cons_backslash s hs1]; exact hs, hsuf2⟩, hrest⟩, hlast⟩

/-- Every text is pieces joined by escapes, the pieces holding no escape themselves. -/
theorem piecesPlain_splitEscapes (s : List Char) :
    piecesPlain (splitEscapes s).1 (splitEscapes s).2 = true := by
  induction s using splitEscapes.induct with
  | case1 => rfl
  | case2 c1 c2 c3 rest3 h ih =>
    rw [splitEscapes.eq_def]
    simp only [if_true, if_pos h]
    simpa [piecesPlain, hasEscapedLF] using ih
  | case3 c2 c3 rest3 h ih =>
    rw [splitEscapes.eq_def]
    simp only [if_true, if_neg h]
    simpa [piecesPlain, hasEscapedLF] using ih
  | case4 c1 c2 c3 rest3 h1 h2 ih =>
    rw [splitEscapes.eq_def]
    simp only [if_true, if_neg h1, if_neg h2]
    apply piecesPlain_consPiece_backslash _ ih
    · rw [joinEscaped_splitEscapes]
      intro u e
      simp only [List.cons.injEq] at e
      exact h2 e.1
    · rw [joinEscaped_splitEscapes]
      intro u e
      simp only [List.cons.injEq] at e
      exact h1 ⟨e.1, e.2.1, e.2.2.1⟩
  | case5 rest1 h ih =>
    rw [splitEscapes.eq_def]
    rcases rest1 with _ | ⟨a, _ | ⟨b, r⟩⟩
    · simp [piecesPlain, hasEscapedLF, splitEscapes]
    · simp only [if_true]
      simpa [piecesPlain, hasEscapedLF] using ih
    · exact absurd rfl (h a b r)
  | case6 c1 rest1 h h2 ih =>
    rw [splitEscapes.eq_def]
    have key : piecesPlain (consPiece backslash (splitEscapes (c1 :: rest1))).1
        (consPiece backslash (splitEscapes (c1 :: rest1))).2 = true := by
      apply piecesPlain_consPiece_backslash _ ih
      · rw [joinEscaped_splitEscapes]
        intro u e
        simp only [List.cons.injEq] at e
        exact h2 e.1
      · rw [joinEscaped_splitEscapes]
        intro u e
        simp only [List.cons.injEq] at e
        exact h _ _ _ e.2
    rcases rest1 with _ | ⟨a, _ | ⟨b, r⟩⟩
    · simp only [if_true, if_neg h2]
      exact key
    · simp only [if_true, if_neg h2]
      exact key
    · exact absurd rfl (h a b r)
  | case7 => simp [splitEscapes, piecesPlain, hasEscapedLF]
  | case8 r rest h ih =>
    rw [splitEscapes.eq_def]
    simp only [if_neg h]
    rw [piecesPlain_consPiece_other _ _ h]
    exact ih

theorem isSpace_quote (q : Char) (hq : q = dquote ∨ q = backtick ∨ q = squote) :
    isSpace q = false := by
  rcases hq with h | h | h <;> subst h <;> decide

theorem quote_ne_newline (q : Char) (hq : q = dquote ∨ q = backtick ∨ q = squote) :
    q ≠ '\n' := by
  rcases hq with h | h | h <;> subst h <;> decide

/-- Binding one string field from a map that holds its variable with the raw value
`q`, `out`, `q`. -/
theorem bind_string_quoted (lib : GoLib) (f : StructField) (old name out : List Char) (q : Char)
    (hq : q = dquote ∨ q = backtick ∨ q = squote)
    (hne : name ≠ []) (htag : f.tagEnvVar = name) (htype : f.value = .string old) :
    reflectMapToStruct lib [(name, some (q :: (out ++ [q])))] [f]
      = (.nil, [{ f with value := .string out }],
          [(name, some (TrimSpace (q :: (out ++ [q]))))]) := by
  apply bind_string_present lib f old name _ out hne htag htype
  rw [TrimSpace_quoted q out (isSpace_quote q hq)]
  exact handleString_quoted name old out q hq

/-- Scanning and binding `name=` `q` `inner` `q` under NodeJSDotEnv, in terms of what
the scanner stores for the quoted text. -/
theorem NodeJSDotEnv_quoted (lib : GoLib) (f : StructField) (old name pre inner out : List Char)
    (q : Char) (hq : q = dquote ∨ q = backtick ∨ q = squote)
    (hname : isName name = true) (hpre : isUnquoted pre = true)
    (htag : f.tagEnvVar = name) (htype : f.value = .string old) (hin : q ∉ inner)
    (hout : (if q ∈ nodeJSScanner.expandNewlines then unescapeNewLines (q :: inner ++ [q])
              else q :: inner ++ [q]) = q :: (out ++ [q])) :
    NodeJSDotEnv lib [f] (name ++ '=' :: (pre ++ q :: (inner ++ [q])))
      = (.nil, [{ f with value := .string out }]) := by
  have hp := parse_quoted_eof nodeJSScanner name pre inner q hname
    (isUnquoted_nodeJS pre hpre _ rfl rfl)
    (by rcases hq with h | h | h <;> subst h <;> decide) (quote_ne_newline q hq) hin rfl
  rw [hout] at hp
  exact NodeJSDotEnv_bind_nil lib _ _ _ _ _ hp
    (bind_string_quoted lib f old name out q hq (isName_ne_nil name hname) htag htype)

/-- The same under DjangoDotEnv, where the backtick is no quote. -/
theorem DjangoDotEnv_quoted (lib : GoLib) (f : StructField) (old name pre inner out : List Char)
    (q : Char) (hq : q = dquote ∨ q = squote)
    (hname : isName name = true) (hpre : isUnquoted pre = true)
    (htag : f.tagEnvVar = name) (htype : f.value = .string old) (hin : q ∉ inner)
    (hout : (if q ∈ djangoScanner.expandNewlines then unescapeNewLines (q :: inner ++ [q])
              else q :: inner ++ [q]) = q :: (out ++ [q])) :
    DjangoDotEnv lib [f] (name ++ '=' :: (pre ++ q :: (inner ++ [q])))
      = (.nil, [{ f with value := .string out }]) := by
  have hq3 : q = dquote ∨ q = backtick ∨ q = squote := by
    rcases hq with h | h
    · exact Or.inl h
    · exact Or.inr (Or.inr h)
  have hp := parse_quoted_eof djangoScanner name pre inner q hname
    (isUnquoted_django pre hpre _ rfl rfl)
    (by rcases hq with h | h <;> subst h <;> decide) (quote_ne_newline q hq3) hin rfl
  rw [hout] at hp
  exact DjangoDotEnv_bind_nil lib _ _ _ _ _ hp
    (bind_string_quoted lib f old name out q hq3 (isName_ne_nil name hname) htag htype)

theorem expand_dquote_nodeJS : dquote ∈ nodeJSScanner.expandNewlines := by decide
theorem expand_squote_nodeJS : squote ∉ nodeJSScanner.expandNewlines := by decide
theorem expand_backtick_nodeJS : backtick ∉ nodeJSScanner.expandNewlines := by decide
theorem expand_dquote_django : dquote ∈ djangoScanner.expandNewlines := by decide
theorem expand_squote_django : squote ∉ djangoScanner.expandNewlines := by decide

/-- C2: for a quote character `q` of the dialect and an inner text without `q` (and
without the escape backslash-n when `q` is the double quote), scanning `name=`, `q`,
`inner`, `q` and binding a string field tagged `name` returns no error and leaves the
field equal to `inner`, rune for rune. -/
theorem C2_quoted_value_round_trip (lib : GoLib) (f : StructField) (old name inner : List Char)
    (q : Char) (hname : isName name = true)
    (htag : f.tagEnvVar = name) (htype : f.value = .string old)
    (hin : q ∉ inner) (hesc : q = dquote → hasEscapedLF inner = false) :
    ((q = dquote ∨ q = squote ∨ q = backtick) →
        NodeJSDotEnv lib [f] (name ++ '=' :: q :: (inner ++ [q]))
          = (.nil, [{ f with value := .string inner }]))
      ∧ ((q = dquote ∨ q = squote) →
        DjangoDotEnv lib [f] (name ++ '=' :: q :: (inner ++ [q]))
          = (.nil, [{ f with value := .string inner }])) := by
  constructor
  · intro hq
    have hq3 : q = dquote ∨ q = backtick ∨ q = squote := by tauto
    refine NodeJSDotEnv_quoted lib f old name [] inner inner q hq3 hname rfl htag htype hin ?_
    rcases hq with h | h | h
    · subst h
      rw [if_pos expand_dquote_nodeJS]
      exact unescapeNewLines_dquoted_id inner (hesc rfl)
    · subst h
      rw [if_neg expand_squote_nodeJS]
      rfl
    · subst h
      rw [if_neg expand_backtick_nodeJS]
      rfl
  · intro hq
    refine DjangoDotEnv_quoted lib f old name [] inner inner q hq hname rfl htag htype hin ?_
    rcases hq with h | h
    · subst h
      rw [if_pos expand_dquote_django]
      exact unescapeNewLines_dquoted_id inner (hesc rfl)
    · subst h
      rw [if_neg expand_squote_django]
      rfl

/-- C2 at a double-quoted text with blanks at both ends and a line feed inside. -/
theorem C2_quoted_value_round_trip_witness :
    isName "DOUBLE_QUOTED".toList = true ∧ dquote ∉ " I am\nquoted! ".toList
      ∧ hasEscapedLF " I am\nquoted! ".toList = false
      ∧ NodeJSDotEnv plainLib [{ tagEnvVar := "DOUBLE_QUOTED".toList, value := .string [] }]
          ("DOUBLE_QUOTED".toList ++ '=' :: dquote :: (" I am\nquoted! ".toList ++ [dquote]))
        = (.nil, [{ tagEnvVar := "DOUBLE_QUOTED".toList,
                    value := .string " I am\nquoted! ".toList }]) :=
  ⟨by decide, by decide, by decide,
    (C2_quoted_value_round_trip plainLib
      { tagEnvVar := "DOUBLE_QUOTED".toList, value := .string [] } [] "DOUBLE_QUOTED".toList
      " I am\nquoted! ".toList dquote (by decide) rfl rfl (by decide)
      (fun _ => by decide)).1 (Or.inl rfl)⟩

/-- C3: let the inner text be pieces joined by the escapes backslash-r-backslash-n and
backslash-n, the pieces holding no escape themselves (every text is of this form).
Between double quotes, under both dialects, the bound string is the pieces joined by
one line feed for each escape; between single quotes, and between backticks under
NodeJSDotEnv, the bound string is the inner text as it stands. -/
theorem C3_newlines_expand_in_double_quotes_only (lib : GoLib) (f : StructField)
    (old name : List Char) (segs : List (List Char × Bool)) (last : List Char)
    (hname : isName name = true) (htag : f.tagEnvVar = name) (htype : f.value = .string old)
    (hp : piecesPlain segs last = true) :
    (dquote ∉ joinEscaped segs last →
        NodeJSDotEnv lib [f] (name ++ '=' :: dquote :: (joinEscaped segs last ++ [dquote]))
            = (.nil, [{ f with value := .string (joinNewlines segs last) }])
          ∧ DjangoDotEnv lib [f] (name ++ '=' :: dquote :: (joinEscaped segs last ++ [dquote]))
            = (.nil, [{ f with value := .string (joinNewlines segs last) }]))
      ∧ (squote ∉ joinEscaped segs last →
        NodeJSDotEnv lib [f] (name ++ '=' :: squote :: (joinEscaped segs last ++ [squote]))
            = (.nil, [{ f with value := .string (joinEscaped segs last) }])
          ∧ DjangoDotEnv lib [f] (name ++ '=' :: squote :: (joinEscaped segs last ++ [squote]))
            = (.nil, [{ f with value := .string (joinEscaped segs last) }]))
      ∧ (backtick ∉ joinEscaped segs last →
        NodeJSDotEnv lib [f] (name ++ '=' :: backtick :: (joinEscaped segs last ++ [backtick]))
            = (.nil, [{ f with value := .string (joinEscaped segs last) }]))
      ∧ (∀ inner : List Char, ∃ segs1 last1,
          piecesPlain segs1 last1 = true ∧ joinEscaped segs1 last1 = inner) := by
  refine ⟨fun hin => ⟨?_, ?_⟩, fun hin => ⟨?_, ?_⟩, fun hin => ?_,
    fun inner => ⟨_, _, piecesPlain_splitEscapes inner, joinEscaped_splitEscapes inner⟩⟩
  · refine NodeJSDotEnv_quoted lib f old name [] _ _ dquote (Or.inl rfl) hname rfl htag htype
      hin ?_
    rw [if_pos expand_dquote_nodeJS]
    exact unescapeNewLines_dquoted_pieces segs last hp
  · refine DjangoDotEnv_quoted lib f old name [] _ _ dquote (Or.inl rfl) hname rfl htag htype
      hin ?_
    rw [if_pos expand_dquote_django]
    exact unescapeNewLines_dquoted_pieces segs last hp
  · refine NodeJSDotEnv_quoted lib f old name [] _ _ squote (Or.inr (Or.inr rfl)) hname rfl
      htag htype hin ?_
    rw [if_neg expand_squote_nodeJS]
    rfl
  · refine DjangoDotEnv_quoted lib f old name [] _ _ squote (Or.inr rfl) hname rfl
      htag htype hin ?_
    rw [if_neg expand_squote_django]
    rfl
  · refine NodeJSDotEnv_quoted lib f old name [] _ _ backtick (Or.inr (Or.inl rfl)) hname rfl
      htag htype hin ?_
    rw [if_neg expand_backtick_nodeJS]
    rfl


/-- C3 at the texts of the repository's tests in one: `newline\r\nexpanded\nend`, the
escapes written with backslashes, between double quotes. -/
theorem C3_newlines_expand_in_double_quotes_only_witness :
    isName "MULTI_DOUBLE_QUOTED".toList = true
      ∧ piecesPlain [("newline".toList, true), ("expanded".toList, false)] "end".toList = true
      ∧ joinEscaped [("newline".toList, true), ("expanded".toList, false)] "end".toList
        = "newline\\r\\nexpanded\\nend".toList
      ∧ joinNewlines [("newline".toList, true), ("expanded".toList, false)] "end".toList
        = "newline\nexpanded\nend".toList
      ∧ dquote ∉ joinEscaped [("newline".toList, true), ("expanded".toList, false)] "end".toList
      ∧ NodeJSDotEnv plainLib [{ tagEnvVar := "MULTI_DOUBLE_QUOTED".toList, value := .string [] }]
          ("MULTI_DOUBLE_QUOTED".toList ++ '=' :: dquote ::
            (joinEscaped [("newline".toList, true), ("expanded".toList, false)] "end".toList
              ++ [dquote]))
        = (.nil, [{ tagEnvVar := "MULTI_DOUBLE_QUOTED".toList,
                    value := .string (joinNewlines
                      [("newline".toList, true), ("expanded".toList, false)] "end".toList) }]) :=
  ⟨by decide, by decide, by decide, by decide, by decide,
    ((C3_newlines_expand_in_double_quotes_only plainLib
      { tagEnvVar := "MULTI_DOUBLE_QUOTED".toList, value := .string [] } []
      "MULTI_DOUBLE_QUOTED".toList [("newline".toList, true), ("expanded".toList, false)]
      "end".toList (by decide) rfl rfl (by decide)).1 (by decide)).1⟩

/-! ## One line of input, from any state of the scanner -/

theorem name_head_ne_newline (c : Char) (h : ¬ (c = ' ' ∨ c = '\r' ∨ c = '\n' ∨ c = '\t')) :
    c ≠ '\n' := fun e => h (Or.inr (Or.inr (Or.inl e)))

/-- A name ended by a line feed where naked variables are not allowed. -/
theorem scanFrom_naked_err (ds : dotEnvScanner) (name rest : List Char)
    (hname : isName name = true) (hA : ds.allowNaked = false) :
    scanFrom ds (name ++ '\n' :: rest)
      = (some { Line := ds.line, Reason := "naked variable" },
          { ds with ch := some '\n', line := ds.line + 1 }) := by
  obtain ⟨c, tl, rfl, hc1, hc2, htl⟩ := isName_cases name hname
  have hN := handleNameLoop_newline (ds.read c) [c] tl rest htl
  rw [read_allowNaked, if_pos hA] at hN
  rw [List.cons_append, scanFrom_nameErr _ c _ _ _ _ hc1 hc2 hN]
  simp [dotEnvScanner.read, name_head_ne_newline c hc1]

/-- A name ended by a line feed where naked variables are allowed. -/
theorem scanFrom_naked_ok (ds : dotEnvScanner) (name rest : List Char)
    (hname : isName name = true) (hA : ds.allowNaked = true) (hE : ds.lastErr = none) :
    scanFrom ds (name ++ '\n' :: rest)
      = scanFrom { ds with ch := some '\n', line := ds.line + 1,
                           vars := mapStore ds.vars name none } rest := by
  obtain ⟨c, tl, rfl, hc1, hc2, htl⟩ := isName_cases name hname
  have hN := handleNameLoop_newline (ds.read c) [c] tl rest htl
  rw [read_allowNaked, if_neg (by simp [hA])] at hN
  rw [List.cons_append, scanFrom_naked _ c _ _ _ _ hc1 hc2 hN (by simpa using hE)]
  simp [dotEnvScanner.read, name_head_ne_newline c hc1]

/-- `name=`, unquoted text, then a quote that is never closed. -/
theorem scanFrom_unclosed (ds : dotEnvScanner) (name pre inner : List Char) (q : Char)
    (hname : isName name = true) (hpre : plainFor ds pre) (hq : q ∈ ds.quotes)
    (hqn : q ≠ '\n') (hin : q ∉ inner) :
    (scanFrom ds (name ++ '=' :: (pre ++ q :: inner))).1
      = some { Line := ds.line + inner.count '\n', Reason := "missing closing quote" } := by
  obtain ⟨c, tl, rfl, hc1, hc2, htl⟩ := isName_cases name hname
  have hN := handleNameLoop_equal (ds.read c) [c] tl (pre ++ q :: inner) htl
  have hV := handleValueLoop_unclosed { (ds.read c) with ch := some '=' } [] pre inner q
    hpre hq hqn hin
  rw [List.cons_append, scanFrom_assign _ c _ _ _ _ _ _ _ hc1 hc2 hN hV]
  simp [dotEnvScanner.read, name_head_ne_newline c hc1]

/-- `name=`, unquoted text, then a rune the dialect lists as unsupported quote. -/
theorem scanFrom_unsupported (ds : dotEnvScanner) (name pre rest : List Char) (b : Char)
    (hname : isName name = true) (hpre : plainFor ds pre) (hq : b ∉ ds.quotes)
    (h2 : b ≠ '#') (h3 : b ≠ '\n') (hb : b ∈ ds.unsupportedQuotes) :
    scanFrom ds (name ++ '=' :: (pre ++ b :: rest))
      = (some { Line := ds.line, Reason := "unsupported quote" }, { ds with ch := some b }) := by
  obtain ⟨c, tl, rfl, hc1, hc2, htl⟩ := isName_cases name hname
  have hN := handleNameLoop_equal (ds.read c) [c] tl (pre ++ b :: rest) htl
  have hV := handleValueLoop_unsupported { (ds.read c) with ch := some '=' } [] pre rest b
    hpre hq h2 h3 hb
  rw [List.cons_append, scanFrom_valueErr _ c _ _ _ _ _ _ _ hc1 hc2 hN hV]
  simp [dotEnvScanner.read, name_head_ne_newline c hc1]

/-- `name=`, unquoted text, then a closed quoted span at the end of the input. -/
theorem scanFrom_quoted_eof (ds : dotEnvScanner) (name pre inner : List Char) (q : Char)
    (hname : isName name = true) (hpre : plainFor ds pre) (hq : q ∈ ds.quotes)
    (hqn : q ≠ '\n') (hin : q ∉ inner) (hE : ds.lastErr = none) :
    scanFrom ds (name ++ '=' :: (pre ++ q :: (inner ++ [q])))
      = (none, { ds with
          ch := none, line := ds.line + inner.count '\n',
          vars := mapStore ds.vars name (some (if q ∈ ds.expandNewlines
                    then unescapeNewLines (q :: inner ++ [q]) else q :: inner ++ [q])) }) := by
  obtain ⟨c, tl, rfl, hc1, hc2, htl⟩ := isName_cases name hname
  have hN := handleNameLoop_equal (ds.read c) [c] tl (pre ++ q :: (inner ++ [q])) htl
  have hV := handleValueLoop_quoted { (ds.read c) with ch := some '=' } [] pre inner [] q
    hpre hq hqn hin
  rw [List.cons_append, scanFrom_assign _ c _ _ _ _ _ _ _ hc1 hc2 hN hV]
  simp only [read_lastErr, hE, scanFrom_nil]
  simp [dotEnvScanner.read, dotEnvScanner.eof, name_head_ne_newline c hc1]

/-- `name=`, unquoted text, then the end of the line. -/
theorem scanFrom_assign_line (ds : dotEnvScanner) (name v rest : List Char)
    (hname : isName name = true) (hv : plainFor ds v) (hq : '\n' ∉ ds.quotes)
    (hE : ds.lastErr = none) :
    scanFrom ds (name ++ '=' :: (v ++ '\n' :: rest))
      = scanFrom { ds with ch := some '\n', line := ds.line + 1,
                           vars := mapStore ds.vars name (some v) } rest := by
  obtain ⟨c, tl, rfl, hc1, hc2, htl⟩ := isName_cases name hname
  have hN := handleNameLoop_equal (ds.read c) [c] tl (v ++ '\n' :: rest) htl
  have hV := handleValueLoop_newline { (ds.read c) with ch := some '=' } [] v rest hv hq
  rw [List.cons_append, scanFrom_assign _ c _ _ _ _ _ _ _ hc1 hc2 hN hV]
  simp only [read_lastErr, hE]
  simp [dotEnvScanner.read, name_head_ne_newline c hc1]

/-- `name=`, unquoted text, then a comment up to the end of the line. -/
theorem scanFrom_assign_comment (ds : dotEnvScanner) (name v c rest : List Char)
    (hname : isName name = true) (hv : plainFor ds v) (hq : '#' ∉ ds.quotes)
    (hc : '\n' ∉ c) (hE : ds.lastErr = none) :
    scanFrom ds (name ++ '=' :: (v ++ '#' :: (c ++ '\n' :: rest)))
      = scanFrom { ds with ch := some '\n', line := ds.line + 1,
                           vars := mapStore ds.vars name (some v) } rest := by
  obtain ⟨c0, tl, rfl, hc1, hc2, htl⟩ := isName_cases name hname
  have hN := handleNameLoop_equal (ds.read c0) [c0] tl (v ++ '#' :: (c ++ '\n' :: rest)) htl
  have hV := handleValueLoop_comment { (ds.read c0) with ch := some '=' } [] v c rest hv hq hc
  rw [List.cons_append, scanFrom_assign _ c0 _ _ _ _ _ _ _ hc1 hc2 hN hV]
  simp only [read_lastErr, hE]
  simp [dotEnvScanner.read, name_head_ne_newline c0 hc1]

/-- Spaces between a name and `=` leave the whole scan as it is without them. -/
theorem scanFrom_spaces (ds : dotEnvScanner) (name rest : List Char) (k : Nat)
    (hname : isName name = true) :
    scanFrom ds (name ++ (List.replicate (k + 1) ' ' ++ '=' :: rest))
      = scanFrom ds (name ++ '=' :: rest) := by
  obtain ⟨c, tl, rfl, hc1, hc2, htl⟩ := isName_cases name hname
  have hN1 := handleNameLoop_spaces (ds.read c) [c] tl rest k htl
  have hN2 := handleNameLoop_equal (ds.read c) [c] tl rest htl
  rw [List.cons_append, List.cons_append]
  rcases hV : handleValueLoop { (ds.read c) with ch := some '=' } [] rest with ⟨res, ds3, rest3⟩
  cases res with
  | error err =>
    rw [scanFrom_valueErr _ c _ _ _ _ _ _ _ hc1 hc2 hN1 hV,
      scanFrom_valueErr _ c _ _ _ _ _ _ _ hc1 hc2 hN2 hV]
  | ok value =>
    rw [scanFrom_assign _ c _ _ _ _ _ _ _ hc1 hc2 hN1 hV,
      scanFrom_assign _ c _ _ _ _ _ _ _ hc1 hc2 hN2 hV]

/-- Blank runes before the first variable only move the line counter. -/
theorem parse_blanks (ds : dotEnvScanner) (ws rest : List Char) (hws : isBlank ws = true) :
    ∃ ch0, parse ds (ws ++ rest)
      = scanFrom { ds with ch := ch0, line := 1 + ws.count '\n', vars := [] } rest := by
  by_cases hne : ws = []
  · subst hne
    exact ⟨ds.ch, by simp [parse]⟩
  · exact ⟨some (ws.getLast hne), by rw [parse, scanFrom_blanks _ ws rest hws hne]⟩

/-! ## Errors of the scanner reach the caller before anything is bound -/

theorem NodeJSDotEnv_scan_err (lib : GoLib) (dest : List StructField) (r : List Char)
    (err : ErrSyntax) (h : (parse nodeJSScanner r).1 = some err) :
    NodeJSDotEnv lib dest r = (.err err, dest) := by
  rcases hp : parse nodeJSScanner r with ⟨e, s1⟩
  rw [hp] at h
  simp only at h
  subst h
  simp [NodeJSDotEnv, dotEnvToStruct_parse_err lib _ dest _ _ _ hp]

theorem DjangoDotEnv_scan_err (lib : GoLib) (dest : List StructField) (r : List Char)
    (err : ErrSyntax) (h : (parse djangoScanner r).1 = some err) :
    DjangoDotEnv lib dest r = (.err err, dest) := by
  rcases hp : parse djangoScanner r with ⟨e, s1⟩
  rw [hp] at h
  simp only at h
  subst h
  simp [DjangoDotEnv, dotEnvToStruct_parse_err lib _ dest _ _ _ hp]

/-- Binding one field of a supported type from a map that holds its variable naked. -/
theorem bind_naked (lib : GoLib) (f : StructField) (name : List Char)
    (hne : name ≠ []) (htag : f.tagEnvVar = name) (htype : ∀ t, f.value ≠ .unsupported t) :
    reflectMapToStruct lib [(name, none)] [f]
      = (.nil, [{ f with value := f.value.zero }], [(name, none)]) := by
  rw [reflectMapToStruct_single lib _ f (by rw [htag]; exact hne)]
  obtain ⟨nm, tag, d, v⟩ := f
  simp only at htag htype
  subst htag
  cases v <;>
    first
    | (exact absurd rfl (htype _))
    | simp [bindField, mapLookup, handleString, handleTimeDuration, handleNumeric,
        handleBoolean, Value.isPointer, Value.zero, reflectSet, Value.sameType,
        reflectSetInt, reflectSetBool, wrapInt]

/-- C4: a variable name ended by a line feed before any `=` or space, after blank runes
`ws`.  Under NodeJSDotEnv the call fails with the reason "naked variable", the map of
the scanner stays empty and the destination is as it was.  Under DjangoDotEnv the name
is stored with the nil pointer and the scan goes on with the runes after the line feed
on the next line; a field of a supported type bound to the name ends as the zero value
of its type, which is nil for a pointer. -/
theorem C4_name_ended_by_newline (lib : GoLib) (ws name rest : List Char)
    (hws : isBlank ws = true) (hname : isName name = true) :
    (∀ dest, NodeJSDotEnv lib dest (ws ++ (name ++ '\n' :: rest))
        = (.err { Line := 1 + ws.count '\n', Reason := "naked variable" }, dest))
      ∧ (parse nodeJSScanner (ws ++ (name ++ '\n' :: rest))).2.vars = []
      ∧ parse djangoScanner (ws ++ (name ++ '\n' :: rest))
        = scanFrom { djangoScanner with
            ch := some '\n', line := 1 + ws.count '\n' + 1, vars := [(name, none)] } rest
      ∧ (∀ f : StructField, f.tagEnvVar = name → (∀ t, f.value ≠ .unsupported t) →
          DjangoDotEnv lib [f] (ws ++ (name ++ ['\n']))
              = (.nil, [{ f with value := f.value.zero }])
            ∧ (f.value.isPointer = true →
                f.value.zero ∈ [Value.ptrString none, .ptrBool none, .ptrInt none,
                  .ptrInt8 none, .ptrInt16 none, .ptrInt32 none, .ptrInt64 none,
                  .ptrDuration none])) := by
  have hN : parse nodeJSScanner (ws ++ (name ++ '\n' :: rest))
      = (some { Line := 1 + ws.count '\n', Reason := "naked variable" },
          { nodeJSScanner with
            ch := some '\n', line := 1 + ws.count '\n' + 1, vars := [] }) := by
    obtain ⟨ch0, hp⟩ := parse_blanks nodeJSScanner ws (name ++ '\n' :: rest) hws
    rw [hp]
    exact scanFrom_naked_err
      { nodeJSScanner with ch := ch0, line := 1 + ws.count '\n', vars := [] } name rest
      hname rfl
  have hD : ∀ r, parse djangoScanner (ws ++ (name ++ '\n' :: r))
      = scanFrom { djangoScanner with
          ch := some '\n', line := 1 + ws.count '\n' + 1, vars := [(name, none)] } r := by
    intro r
    obtain ⟨ch0, hp⟩ := parse_blanks djangoScanner ws (name ++ '\n' :: r) hws
    rw [hp]
    exact scanFrom_naked_ok
      { djangoScanner with ch := ch0, line := 1 + ws.count '\n', vars := [] } name r
      hname rfl rfl
  refine ⟨fun dest => ?_, ?_, hD rest, fun f htag htype => ⟨?_, ?_⟩⟩
  · exact NodeJSDotEnv_scan_err lib dest _ _ (by rw [hN])
  · rw [hN]
  · have hp := hD []
    rw [scanFrom_nil] at hp
    exact DjangoDotEnv_bind_nil lib _ _ _ _ _ hp
      (bind_naked lib f name (isName_ne_nil name hname) htag htype)
  · intro hptr
    obtain ⟨nm, tag, d, v⟩ := f
    cases v <;> simp [Value.isPointer, Value.zero] at hptr ⊢

/-- C4 at the input of the repository's test, `NUMBER`, line feed, `STRING=foo`, after
one empty line, and at a field of type `*int8` that held a value before. -/
theorem C4_name_ended_by_newline_witness :
    isBlank "\n".toList = true ∧ isName "NUMBER".toList = true
      ∧ NodeJSDotEnv plainLib [{ tagEnvVar := "NUMBER".toList, value := .ptrInt8 (some 3) }]
          ("\n".toList ++ ("NUMBER".toList ++ '\n' :: "STRING=foo".toList))
        = (.err { Line := 1 + "\n".toList.count '\n', Reason := "naked variable" },
            [{ tagEnvVar := "NUMBER".toList, value := .ptrInt8 (some 3) }])
      ∧ (1 + "\n".toList.count '\n' : Int) = 2
      ∧ DjangoDotEnv plainLib [{ tagEnvVar := "NUMBER".toList, value := .ptrInt8 (some 3) }]
          ("\n".toList ++ ("NUMBER".toList ++ ['\n']))
        = (.nil, [{ tagEnvVar := "NUMBER".toList, value := .ptrInt8 none }]) :=
  ⟨by decide, by decide,
    (C4_name_ended_by_newline plainLib "\n".toList "NUMBER".toList "STRING=foo".toList
      (by decide) (by decide)).1 _,
    by decide,
    ((C4_name_ended_by_newline plainLib "\n".toList "NUMBER".toList [] (by decide)
      (by decide)).2.2.2
      { tagEnvVar := "NUMBER".toList, value := .ptrInt8 (some 3) } rfl
      (fun t => by simp)).1⟩

/-! ## Counting lines -/

theorem isName_count_newline (name : List Char) (h : isName name = true) :
    name.count '\n' = 0 := by
  obtain ⟨c, tl, rfl, hc1, -, htl⟩ := isName_cases name h
  rw [List.count_eq_zero]
  intro hm
  rcases List.mem_cons.mp hm with e | e
  · exact name_head_ne_newline c hc1 e.symm
  · exact (htl _ e).2.2.2 rfl

theorem isUnquoted_count_newline (v : List Char) (h : isUnquoted v = true) :
    v.count '\n' = 0 := by
  rw [List.count_eq_zero]
  intro hm
  simp only [isUnquoted, List.all_eq_true, decide_eq_true_eq] at h
  exact (h _ hm).2.2.2.2 rfl

/-- The line feeds of `ws`, `name`, `=`, `pre`, `q`, `inner` are those of `ws` and
`inner`. -/
theorem count_newline_assignment (ws name pre inner : List Char) (q : Char)
    (hname : isName name = true) (hpre : isUnquoted pre = true) (hq : q ≠ '\n') :
    (ws ++ (name ++ '=' :: (pre ++ q :: inner))).count '\n'
      = ws.count '\n' + inner.count '\n' := by
  have h1 : ('=' == '\n') = false := by decide
  have h2 : (q == '\n') = false := by simpa using hq
  simp [List.count_append, List.count_cons, isName_count_newline name hname,
    isUnquoted_count_newline pre hpre, h1, h2]

theorem mem_quotes_nodeJS (q : Char) (hq : q = dquote ∨ q = squote ∨ q = backtick) :
    q ∈ nodeJSScanner.quotes := by
  rcases hq with h | h | h <;> subst h <;> decide

theorem mem_quotes_django (q : Char) (hq : q = dquote ∨ q = squote) :
    q ∈ djangoScanner.quotes := by
  rcases hq with h | h <;> subst h <;> decide

/-- C5: a value that opens with a quote character `q` of the dialect, `q` not occurring
again up to the end of the input.  The call fails with the reason "missing closing
quote", the line of the error is 1 plus the number of line feeds of the whole input,
and the destination is as it was. -/
theorem C5_unclosed_quote (lib : GoLib) (dest : List StructField)
    (ws name pre inner : List Char) (q : Char)
    (hws : isBlank ws = true) (hname : isName name = true) (hpre : isUnquoted pre = true)
    (hin : q ∉ inner) :
    ((q = dquote ∨ q = squote ∨ q = backtick) →
        NodeJSDotEnv lib dest (ws ++ (name ++ '=' :: (pre ++ q :: inner)))
          = (.err { Line := 1 + (ws ++ (name ++ '=' :: (pre ++ q :: inner))).count '\n',
                    Reason := "missing closing quote" }, dest))
      ∧ ((q = dquote ∨ q = squote) →
        DjangoDotEnv lib dest (ws ++ (name ++ '=' :: (pre ++ q :: inner)))
          = (.err { Line := 1 + (ws ++ (name ++ '=' :: (pre ++ q :: inner))).count '\n',
                    Reason := "missing closing quote" }, dest)) := by
  constructor
  · intro hq
    have hq3 : q = dquote ∨ q = backtick ∨ q = squote := by tauto
    have hqn := quote_ne_newline q hq3
    obtain ⟨ch0, hp⟩ := parse_blanks nodeJSScanner ws (name ++ '=' :: (pre ++ q :: inner)) hws
    apply NodeJSDotEnv_scan_err
    have hs := scanFrom_unclosed
      { nodeJSScanner with ch := ch0, line := 1 + ws.count '\n', vars := [] } name pre inner q
      hname (isUnquoted_nodeJS pre hpre _ rfl rfl)
      (mem_quotes_nodeJS q hq) hqn hin
    rw [hp, hs, count_newline_assignment ws name pre inner q hname hpre hqn]
    simp [add_assoc]
  · intro hq
    have hq3 : q = dquote ∨ q = backtick ∨ q = squote := by tauto
    have hqn := quote_ne_newline q hq3
    obtain ⟨ch0, hp⟩ := parse_blanks djangoScanner ws (name ++ '=' :: (pre ++ q :: inner)) hws
    apply DjangoDotEnv_scan_err
    have hs := scanFrom_unclosed
      { djangoScanner with ch := ch0, line := 1 + ws.count '\n', vars := [] } name pre inner q
      hname (isUnquoted_django pre hpre _ rfl rfl)
      (mem_quotes_django q hq) hqn hin
    rw [hp, hs, count_newline_assignment ws name pre inner q hname hpre hqn]
    simp [add_assoc]

/-- C5 at a single-quoted text that runs over two lines, after one empty line. -/
theorem C5_unclosed_quote_witness :
    isBlank "\n".toList = true ∧ isName "SINGLE_QUOTED".toList = true
      ∧ isUnquoted " ".toList = true ∧ squote ∉ "I should\nbe closed".toList
      ∧ DjangoDotEnv plainLib [{ tagEnvVar := "SINGLE_QUOTED".toList, value := .string [] }]
          ("\n".toList ++ ("SINGLE_QUOTED".toList ++ '=' ::
            (" ".toList ++ squote :: "I should\nbe closed".toList)))
        = (.err { Line := 1 + ("\n".toList ++ ("SINGLE_QUOTED".toList ++ '=' ::
                    (" ".toList ++ squote :: "I should\nbe closed".toList))).count '\n',
                  Reason := "missing closing quote" },
            [{ tagEnvVar := "SINGLE_QUOTED".toList, value := .string [] }])
      ∧ 1 + (("\n".toList ++ ("SINGLE_QUOTED".toList ++ '=' ::
              (" ".toList ++ squote :: "I should\nbe closed".toList))).count '\n' : Int) = 3 :=
  ⟨by decide, by decide, by decide, by decide,
    (C5_unclosed_quote plainLib [{ tagEnvVar := "SINGLE_QUOTED".toList, value := .string [] }]
      "\n".toList "SINGLE_QUOTED".toList " ".toList "I should\nbe closed".toList squote
      (by decide) (by decide) (by decide) (by decide)).2 (Or.inr rfl),
    by decide⟩

theorem count_newline_before_value (ws name pre : List Char)
    (hname : isName name = true) (hpre : isUnquoted pre = true) :
    (ws ++ (name ++ '=' :: pre)).count '\n' = ws.count '\n' := by
  have h1 : ('=' == '\n') = false := by decide
  simp [List.count_append, List.count_cons, isName_count_newline name hname,
    isUnquoted_count_newline pre hpre, h1]

/-- C6: an assignment whose value text reaches a backtick before any `#`, line feed or
quote character.  Under DjangoDotEnv the call fails with the reason "unsupported
quote" on the line of the backtick, whatever follows the backtick, and the destination
is as it was; under NodeJSDotEnv the text between that backtick and a closing one is
bound to a string field. -/
theorem C6_backtick_unsupported_in_django (lib : GoLib) (ws name pre : List Char)
    (hws : isBlank ws = true) (hname : isName name = true) (hpre : isUnquoted pre = true) :
    (∀ (dest : List StructField) (rest : List Char),
        DjangoDotEnv lib dest (ws ++ (name ++ '=' :: (pre ++ backtick :: rest)))
          = (.err { Line := 1 + (ws ++ (name ++ '=' :: pre)).count '\n',
                    Reason := "unsupported quote" }, dest))
      ∧ (∀ (f : StructField) (old inner : List Char),
          f.tagEnvVar = name → f.value = .string old → backtick ∉ inner →
          NodeJSDotEnv lib [f] (ws ++ (name ++ '=' :: (pre ++ backtick :: (inner ++ [backtick]))))
            = (.nil, [{ f with value := .string inner }])) := by
  constructor
  · intro dest rest
    obtain ⟨ch0, hp⟩ := parse_blanks djangoScanner ws (name ++ '=' :: (pre ++ backtick :: rest)) hws
    have hs := scanFrom_unsupported
      { djangoScanner with ch := ch0, line := 1 + ws.count '\n', vars := [] } name pre rest
      backtick hname (isUnquoted_django pre hpre _ rfl rfl)
      (show backtick ∉ djangoScanner.quotes by decide) (by decide) (by decide)
      (show backtick ∈ djangoScanner.unsupportedQuotes by decide)
    apply DjangoDotEnv_scan_err
    rw [hp, hs, count_newline_before_value ws name pre hname hpre]
  · intro f old inner htag htype hin
    obtain ⟨ch0, hp⟩ := parse_blanks nodeJSScanner ws
      (name ++ '=' :: (pre ++ backtick :: (inner ++ [backtick]))) hws
    have hs := scanFrom_quoted_eof
      { nodeJSScanner with ch := ch0, line := 1 + ws.count '\n', vars := [] } name pre inner
      backtick hname (isUnquoted_nodeJS pre hpre _ rfl rfl)
      (show backtick ∈ nodeJSScanner.quotes by decide) (by decide) hin rfl
    rw [hs] at hp
    simp only [if_neg expand_backtick_nodeJS, mapStore] at hp
    exact NodeJSDotEnv_bind_nil lib _ _ _ _ _ hp
      (bind_string_quoted lib f old name inner backtick (Or.inr (Or.inl rfl))
        (isName_ne_nil name hname) htag htype)

/-- C6 at the input of the repository's test, on the third line of the text. -/
theorem C6_backtick_unsupported_in_django_witness :
    isBlank "\n\n".toList = true ∧ isName "BACKTICK".toList = true
      ∧ isUnquoted [] = true
      ∧ DjangoDotEnv plainLib [{ tagEnvVar := "BACKTICK".toList, value := .string [] }]
          ("\n\n".toList ++ ("BACKTICK".toList ++ '=' ::
            ([] ++ backtick :: ("backquotes not supported".toList ++ [backtick]))))
        = (.err { Line := 1 + ("\n\n".toList ++ ("BACKTICK".toList ++ '=' :: [])).count '\n',
                  Reason := "unsupported quote" },
            [{ tagEnvVar := "BACKTICK".toList, value := .string [] }])
      ∧ 1 + (("\n\n".toList ++ ("BACKTICK".toList ++ '=' :: [])).count '\n' : Int) = 3 :=
  ⟨by decide, by decide, by decide,
    (C6_backtick_unsupported_in_django plainLib "\n\n".toList "BACKTICK".toList []
      (by decide) (by decide) (by decide)).1 _ _,
    by decide⟩

/-! ## A name followed by a space -/

theorem skipToEqual_none (ds : dotEnvScanner) (rest : List Char) (h : '=' ∉ rest) :
    skipToEqual ds rest = ({ ds with ch := none, line := ds.line + rest.count '\n' }, []) := by
  induction rest generalizing ds with
  | nil => simp [skipToEqual, dotEnvScanner.eof]
  | cons x tl ih =>
    have hx : x ≠ '=' := fun e => h (e ▸ List.mem_cons_self _ _)
    simp only [skipToEqual]
    rw [if_neg hx, ih _ (fun hm => h (List.mem_cons_of_mem _ hm))]
    by_cases hn : x = '\n'
    · subst hn
      simp [dotEnvScanner.read]
      omega
    · simp [dotEnvScanner.read, hn, List.count_cons]

theorem handleNameLoop_space_none (ds : dotEnvScanner) (v name rest : List Char)
    (hname : ∀ x ∈ name, x ≠ ' ' ∧ x ≠ '=' ∧ x ≠ '\r' ∧ x ≠ '\n') (h : '=' ∉ rest) :
    handleNameLoop ds v (name ++ ' ' :: rest)
      = (.error { Line := ds.line + rest.count '\n', Reason := "invalid variable name" },
          { ds with ch := none, line := ds.line + rest.count '\n' }, []) := by
  induction name generalizing ds v with
  | nil =>
    rw [List.nil_append]
    simp only [handleNameLoop]
    rw [if_neg (by decide), if_pos trivial, skipToEqual_none _ _ h]
    simp [dotEnvScanner.read]
  | cons c tl ih =>
    obtain ⟨h1, h2, h3, h4⟩ := hname c (List.mem_cons_self _ _)
    rw [List.cons_append]
    simp only [handleNameLoop]
    rw [if_neg (by simp [h3, h4]), if_neg h1, if_neg h2,
      ih _ _ (fun x hx => hname x (List.mem_cons_of_mem _ hx))]
    simp [dotEnvScanner.read, h4]

/-- What the code does for a name followed by a space when no `=` is left in the
input: the error the repository's tests expect. -/
theorem scanFrom_space_no_equal (ds : dotEnvScanner) (name rest : List Char)
    (hname : isName name = true) (h : '=' ∉ rest) :
    (scanFrom ds (name ++ ' ' :: rest)).1
      = some { Line := ds.line + rest.count '\n', Reason := "invalid variable name" } := by
  obtain ⟨c, tl, rfl, hc1, hc2, htl⟩ := isName_cases name hname
  have hN := handleNameLoop_space_none (ds.read c) [c] tl rest htl h
  rw [List.cons_append, scanFrom_nameErr _ c _ _ _ _ hc1 hc2 hN]
  simp [dotEnvScanner.read, name_head_ne_newline c hc1]

/-- C7, the code at the failing inputs: after `NUMBER` and a space the scanner skips
every rune up to the next `=`, on the same line or on a later one, and stores what
follows that `=` as the value of `NUMBER`; no error is returned. -/
theorem C7_scan_skips_to_next_equal :
    parse nodeJSScanner "NUMBER 123\nSTRING=foo".toList
        = (none, { nodeJSScanner with
            ch := none, line := 2, vars := [("NUMBER".toList, some "foo".toList)] })
      ∧ parse djangoScanner "NUMBER 123\nSTRING=foo".toList
        = (none, { djangoScanner with
            ch := none, line := 2, vars := [("NUMBER".toList, some "foo".toList)] })
      ∧ parse nodeJSScanner "NUMBER 123 = 5".toList
        = (none, { nodeJSScanner with
            ch := none, line := 1, vars := [("NUMBER".toList, some " 5".toList)] })
      ∧ parse djangoScanner "NUMBER 123 = 5".toList
        = (none, { djangoScanner with
            ch := none, line := 1, vars := [("NUMBER".toList, some " 5".toList)] }) := by
  refine ⟨?_, ?_, ?_, ?_⟩ <;> decide

/-- C8: an inline comment after an unquoted value.  The scan of `name=v#c`, line feed,
`rest` ends as the scan of `name=v`, line feed, `rest` does (same error, same map, same
scanner); both store `v` for `name` and go on with `rest` on the second line. -/
theorem C8_inline_comment_ignored (name v c rest : List Char)
    (hname : isName name = true) (hv : isUnquoted v = true) (hc : '\n' ∉ c) :
    (parse nodeJSScanner (name ++ '=' :: (v ++ '#' :: (c ++ '\n' :: rest)))
        = parse nodeJSScanner (name ++ '=' :: (v ++ '\n' :: rest))
      ∧ parse nodeJSScanner (name ++ '=' :: (v ++ '\n' :: rest))
        = scanFrom { nodeJSScanner with
            ch := some '\n', line := 2, vars := [(name, some v)] } rest
      ∧ parse nodeJSScanner (name ++ '=' :: (v ++ '#' :: (c ++ ['\n'])))
        = (none, { nodeJSScanner with ch := none, line := 2, vars := [(name, some v)] }))
    ∧ (parse djangoScanner (name ++ '=' :: (v ++ '#' :: (c ++ '\n' :: rest)))
        = parse djangoScanner (name ++ '=' :: (v ++ '\n' :: rest))
      ∧ parse djangoScanner (name ++ '=' :: (v ++ '\n' :: rest))
        = scanFrom { djangoScanner with
            ch := some '\n', line := 2, vars := [(name, some v)] } rest
      ∧ parse djangoScanner (name ++ '=' :: (v ++ '#' :: (c ++ ['\n'])))
        = (none, { djangoScanner with ch := none, line := 2, vars := [(name, some v)] })) := by
  have hN1 : ∀ r, parse nodeJSScanner (name ++ '=' :: (v ++ '#' :: (c ++ '\n' :: r)))
      = scanFrom { nodeJSScanner with ch := some '\n', line := 2, vars := [(name, some v)] } r :=
    fun r => scanFrom_assign_comment { nodeJSScanner with line := 1, vars := [] } name v c r
      hname (isUnquoted_nodeJS v hv _ rfl rfl) (by decide) hc rfl
  have hN2 : parse nodeJSScanner (name ++ '=' :: (v ++ '\n' :: rest))
      = scanFrom { nodeJSScanner with ch := some '\n', line := 2, vars := [(name, some v)] } rest :=
    scanFrom_assign_line { nodeJSScanner with line := 1, vars := [] } name v rest
      hname (isUnquoted_nodeJS v hv _ rfl rfl) (by decide) rfl
  have hD1 : ∀ r, parse djangoScanner (name ++ '=' :: (v ++ '#' :: (c ++ '\n' :: r)))
      = scanFrom { djangoScanner with ch := some '\n', line := 2, vars := [(name, some v)] } r :=
    fun r => scanFrom_assign_comment { djangoScanner with line := 1, vars := [] } name v c r
      hname (isUnquoted_django v hv _ rfl rfl) (by decide) hc rfl
  have hD2 : parse djangoScanner (name ++ '=' :: (v ++ '\n' :: rest))
      = scanFrom { djangoScanner with ch := some '\n', line := 2, vars := [(name, some v)] } rest :=
    scanFrom_assign_line { djangoScanner with line := 1, vars := [] } name v rest
      hname (isUnquoted_django v hv _ rfl rfl) (by decide) rfl
  refine ⟨⟨?_, hN2, ?_⟩, ⟨?_, hD2, ?_⟩⟩
  · rw [hN1, hN2]
  · rw [hN1, scanFrom_nil]; rfl
  · rw [hD1, hD2]
  · rw [hD1, scanFrom_nil]; rfl

/-- C8 at the shape of the repository's test data: a comment after the value, then a
second assignment. -/
theorem C8_inline_comment_ignored_witness :
    isName "INLINE_COMMENT".toList = true ∧ isUnquoted "Are ignored ".toList = true
      ∧ '\n' ∉ " a comment".toList
      ∧ parse nodeJSScanner ("INLINE_COMMENT".toList ++ '=' ::
            ("Are ignored ".toList ++ '#' :: (" a comment".toList ++ '\n' :: "EMPTY=".toList)))
        = parse nodeJSScanner ("INLINE_COMMENT".toList ++ '=' ::
            ("Are ignored ".toList ++ '\n' :: "EMPTY=".toList)) :=
  ⟨by decide, by decide, by decide,
    (C8_inline_comment_ignored "INLINE_COMMENT".toList "Are ignored ".toList
      " a comment".toList "EMPTY=".toList (by decide) (by decide) (by decide)).1.1⟩

/-- C9: one or more spaces between a name and `=` do not change the scan, from any
scanner and for any text after the `=`: `parse` returns the same error and the same
scanner, so both entry points return the same result and destination; and
`NUMBER  = 123` binds 123 to an `int` field tagged `NUMBER`. -/
theorem C9_spaces_before_equal (name rest : List Char) (k : Nat)
    (hname : isName name = true) (hk : 1 ≤ k) :
    (∀ ds : dotEnvScanner,
        parse ds (name ++ (List.replicate k ' ' ++ '=' :: rest)) = parse ds (name ++ '=' :: rest))
      ∧ (∀ (lib : GoLib) (dest : List StructField),
          NodeJSDotEnv lib dest (name ++ (List.replicate k ' ' ++ '=' :: rest))
              = NodeJSDotEnv lib dest (name ++ '=' :: rest)
            ∧ DjangoDotEnv lib dest (name ++ (List.replicate k ' ' ++ '=' :: rest))
              = DjangoDotEnv lib dest (name ++ '=' :: rest))
      ∧ (∀ (lib : GoLib) (nm d : List Char) (old : Int),
          NodeJSDotEnv lib
              [{ Name := nm, tagEnvVar := "NUMBER".toList, tagDefault := d, value := .int old }]
              "NUMBER  = 123".toList
            = (.nil,
                [{ Name := nm, tagEnvVar := "NUMBER".toList, tagDefault := d, value := .int 123 }])
          ∧ DjangoDotEnv lib
              [{ Name := nm, tagEnvVar := "NUMBER".toList, tagDefault := d, value := .int old }]
              "NUMBER  = 123".toList
            = (.nil,
                [{ Name := nm, tagEnvVar := "NUMBER".toList, tagDefault := d, value := .int 123 }])
          ∧ (dotEnvToStruct lib {}
              [{ Name := nm, tagEnvVar := "NUMBER".toList, tagDefault := d, value := .int old }]
              "NUMBER  = 123".toList).1 = .nil) := by
  obtain ⟨j, rfl⟩ : ∃ j, k = j + 1 := ⟨k - 1, by omega⟩
  have hp : ∀ ds : dotEnvScanner,
      parse ds (name ++ (List.replicate (j + 1) ' ' ++ '=' :: rest))
        = parse ds (name ++ '=' :: rest) :=
    fun ds => scanFrom_spaces _ name rest j hname
  refine ⟨hp, fun lib dest => ⟨?_, ?_⟩, fun lib nm d old => ⟨rfl, rfl, rfl⟩⟩
  · simp only [NodeJSDotEnv, dotEnvToStruct, hp]
  · simp only [DjangoDotEnv, dotEnvToStruct, hp]

/-- C9 at the input of the repository's test: `NUMBER`, two spaces, `=`, ` 123`. -/
theorem C9_spaces_before_equal_witness :
    isName "NUMBER".toList = true ∧ 1 ≤ 2
      ∧ parse nodeJSScanner ("NUMBER".toList ++ (List.replicate 2 ' ' ++ '=' :: " 123".toList))
        = parse nodeJSScanner ("NUMBER".toList ++ '=' :: " 123".toList) :=
  ⟨by decide, by decide,
    (C9_spaces_before_equal "NUMBER".toList " 123".toList 2 (by decide) (by decide)).1 _⟩

/-! ## Defaults -/

theorem mapLookup_mapStore_self (m : envVarMap) (k : List Char) (v : Option (List Char)) :
    mapLookup (mapStore m k v) k = some v := by
  induction m with
  | nil => simp [mapStore, mapLookup]
  | cons p m ih =>
    obtain ⟨k1, v1⟩ := p
    by_cases h : k1 = k
    · simp [mapStore, mapLookup, h]
    · simp [mapStore, mapLookup, h, ih]

/-- C10: the default of a field is used exactly when its variable is absent from the
map.  With a default that is not empty, binding from a map without the variable gives
the result and the field that binding from the map with the variable set to the
default gives; when the variable is in the map, with a value or naked, the result and
the field do not depend on the default.  An `int` field with the default `999` becomes
999 when the variable is absent and 0, without error, when the variable holds the
empty string. -/
theorem C10_default_only_when_absent (lib : GoLib) (src : envVarMap) (f : StructField)
    (hd : f.tagDefault ≠ []) :
    (mapLookup src f.tagEnvVar = none →
        (reflectMapToStruct lib src [f]).1
            = (reflectMapToStruct lib (mapStore src f.tagEnvVar (some f.tagDefault)) [f]).1
          ∧ (reflectMapToStruct lib src [f]).2.1
            = (reflectMapToStruct lib (mapStore src f.tagEnvVar (some f.tagDefault)) [f]).2.1)
      ∧ (mapLookup src f.tagEnvVar ≠ none → ∀ d : List Char,
          (reflectMapToStruct lib src [{ f with tagDefault := d }]).1
              = (reflectMapToStruct lib src [f]).1
            ∧ (reflectMapToStruct lib src [{ f with tagDefault := d }]).2.1.map (·.value)
              = (reflectMapToStruct lib src [f]).2.1.map (·.value))
      ∧ (∀ (nm : List Char) (old : Int),
          reflectMapToStruct lib []
              [{ Name := nm, tagEnvVar := "NUMBER".toList, tagDefault := "999".toList,
                 value := .int old }]
            = (.nil, [{ Name := nm, tagEnvVar := "NUMBER".toList, tagDefault := "999".toList,
                        value := .int 999 }], [])
          ∧ reflectMapToStruct lib [("NUMBER".toList, some [])]
              [{ Name := nm, tagEnvVar := "NUMBER".toList, tagDefault := "999".toList,
                 value := .int old }]
            = (.nil, [{ Name := nm, tagEnvVar := "NUMBER".toList, tagDefault := "999".toList,
                        value := .int 0 }], [("NUMBER".toList, some [])])
          ∧ reflectMapToStruct lib [("NUMBER".toList, none)]
              [{ Name := nm, tagEnvVar := "NUMBER".toList, tagDefault := "999".toList,
                 value := .int old }]
            = (.nil, [{ Name := nm, tagEnvVar := "NUMBER".toList, tagDefault := "999".toList,
                        value := .int 0 }], [("NUMBER".toList, none)])) := by
  refine ⟨fun habs => ?_, fun hpres d => ?_, fun nm old => ⟨rfl, rfl, rfl⟩⟩
  · by_cases htag : f.tagEnvVar = []
    · simp [reflectMapToStruct, htag]
    · rw [reflectMapToStruct_single lib _ f htag, reflectMapToStruct_single lib _ f htag]
      simp [bindField, habs, mapLookup_mapStore_self, hd]
  · by_cases htag : f.tagEnvVar = []
    · simp [reflectMapToStruct, htag]
    · rw [reflectMapToStruct_single lib _ f htag,
        reflectMapToStruct_single lib _ { f with tagDefault := d } htag]
      cases hl : mapLookup src f.tagEnvVar with
      | none => exact absurd hl hpres
      | some p => cases p <;> simp [bindField, hl]

/-- C10 at an `int8` field with the default `7`, the variable absent from the map. -/
theorem C10_default_only_when_absent_witness :
    ("7".toList ≠ []) ∧ mapLookup [("OTHER".toList, some "1".toList)] "NUMBER8".toList = none
      ∧ (reflectMapToStruct plainLib [("OTHER".toList, some "1".toList)]
            [{ tagEnvVar := "NUMBER8".toList, tagDefault := "7".toList, value := .int8 0 }]).2.1
        = (reflectMapToStruct plainLib
            (mapStore [("OTHER".toList, some "1".toList)] "NUMBER8".toList (some "7".toList))
            [{ tagEnvVar := "NUMBER8".toList, tagDefault := "7".toList, value := .int8 0 }]).2.1
      ∧ (reflectMapToStruct plainLib [("OTHER".toList, some "1".toList)]
            [{ tagEnvVar := "NUMBER8".toList, tagDefault := "7".toList, value := .int8 0 }]).2.1
        = [{ tagEnvVar := "NUMBER8".toList, tagDefault := "7".toList, value := .int8 7 }] :=
  ⟨by decide, by decide,
    ((C10_default_only_when_absent plainLib [("OTHER".toList, some "1".toList)]
      { tagEnvVar := "NUMBER8".toList, tagDefault := "7".toList, value := .int8 0 }
      (by decide)).1 (by decide)).2,
    by decide⟩

/-! ## The binder on one field -/

/-- The value a handler receives for a field whose variable is absent without default,
or naked, is nil; every handler then stores the zero value of the field's type. -/
theorem bind_unset (lib : GoLib) (src : envVarMap) (f : StructField)
    (htag : f.tagEnvVar ≠ []) (htype : ∀ t, f.value ≠ .unsupported t)
    (h : (mapLookup src f.tagEnvVar = none ∧ f.tagDefault = [])
      ∨ mapLookup src f.tagEnvVar = some none) :
    reflectMapToStruct lib src [f] = (.nil, [{ f with value := f.value.zero }], src) := by
  rw [reflectMapToStruct_single lib _ f htag]
  obtain ⟨nm, tag, d, v⟩ := f
  simp only at htag htype h
  rcases h with ⟨h1, h2⟩ | h1
  · subst h2
    cases v <;>
      first
      | (exact absurd rfl (htype _))
      | simp [bindField, h1, handleString, handleTimeDuration, handleNumeric,
          handleBoolean, Value.isPointer, Value.zero, reflectSet, Value.sameType,
          reflectSetInt, reflectSetBool, wrapInt]
  · cases v <;>
      first
      | (exact absurd rfl (htype _))
      | simp [bindField, h1, handleString, handleTimeDuration, handleNumeric,
          handleBoolean, Value.isPointer, Value.zero, reflectSet, Value.sameType,
          reflectSetInt, reflectSetBool, wrapInt]

/-- C11: for a field of a supported type whose variable is absent from the map with no
default, or is in the map with the nil pointer (naked), binding returns no error and
the field ends as the zero value of its type, whatever it held before: the empty
string, false or 0 for a field that is no pointer, nil for a pointer. -/
theorem C11_unset_gives_zero_or_nil (lib : GoLib) (src : envVarMap) (f : StructField)
    (htag : f.tagEnvVar ≠ []) (htype : ∀ t, f.value ≠ .unsupported t)
    (h : (mapLookup src f.tagEnvVar = none ∧ f.tagDefault = [])
      ∨ mapLookup src f.tagEnvVar = some none) :
    reflectMapToStruct lib src [f] = (.nil, [{ f with value := f.value.zero }], src)
      ∧ (f.value.isPointer = false →
          f.value.zero ∈ [Value.string [], .bool false, .int 0, .int8 0, .int16 0, .int32 0,
            .int64 0, .duration 0])
      ∧ (f.value.isPointer = true →
          f.value.zero ∈ [Value.ptrString none, .ptrBool none, .ptrInt none, .ptrInt8 none,
            .ptrInt16 none, .ptrInt32 none, .ptrInt64 none, .ptrDuration none]) := by
  refine ⟨bind_unset lib src f htag htype h, ?_, ?_⟩
  · intro hp
    obtain ⟨nm, tag, d, v⟩ := f
    cases v <;> first
      | (exact absurd rfl (htype _))
      | simp [Value.isPointer, Value.zero] at hp ⊢
  · intro hp
    obtain ⟨nm, tag, d, v⟩ := f
    cases v <;> simp [Value.isPointer, Value.zero] at hp ⊢

/-- C11 at a `*time.Duration` field that pointed to a value, its variable naked, and at
a `bool` field that was true, its variable absent. -/
theorem C11_unset_gives_zero_or_nil_witness :
    ("PtrDuration_naked".toList ≠ [])
      ∧ mapLookup [("PtrDuration_naked".toList, none)] "PtrDuration_naked".toList = some none
      ∧ reflectMapToStruct plainLib [("PtrDuration_naked".toList, none)]
          [{ tagEnvVar := "PtrDuration_naked".toList, value := .ptrDuration (some 5) }]
        = (.nil, [{ tagEnvVar := "PtrDuration_naked".toList, value := .ptrDuration none }],
            [("PtrDuration_naked".toList, none)])
      ∧ reflectMapToStruct plainLib [("PtrDuration_naked".toList, none)]
          [{ tagEnvVar := "ENABLED".toList, value := .bool true }]
        = (.nil, [{ tagEnvVar := "ENABLED".toList, value := .bool false }],
            [("PtrDuration_naked".toList, none)]) :=
  ⟨by decide, by decide,
    (C11_unset_gives_zero_or_nil plainLib [("PtrDuration_naked".toList, none)]
      { tagEnvVar := "PtrDuration_naked".toList, value := .ptrDuration (some 5) }
      (by decide) (fun t => by simp) (Or.inr (by decide))).1,
    (C11_unset_gives_zero_or_nil plainLib [("PtrDuration_naked".toList, none)]
      { tagEnvVar := "ENABLED".toList, value := .bool true }
      (by decide) (fun t => by simp) (Or.inl ⟨by decide, rfl⟩)).1⟩

/-! ## Boolean fields -/

theorem toLowerRune_lower (lib : GoLib) (d : Char)
    (hd : d.toNat < 128 ∧ ¬ ('A' ≤ d ∧ d ≤ 'Z')) : toLowerRune lib d = d := by
  simp [toLowerRune, hd.1, hd.2]

theorem toLowerRune_upper (lib : GoLib) (c d : Char)
    (h : 'A' ≤ c ∧ c ≤ 'Z' ∧ c.toNat + 32 = d.toNat) : toLowerRune lib c = d := by
  obtain ⟨h1, h2, h3⟩ := h
  have hlt : c.toNat < 128 := by
    have : c.toNat ≤ 'Z'.toNat := h2
    have hz : 'Z'.toNat = 90 := by decide
    omega
  simp only [toLowerRune, if_pos hlt, if_pos (And.intro h1 h2), h3]
  exact Char.ofNat_toNat d

theorem ToLower_caseVariant (lib : GoLib) (s w : List Char)
    (hw : ∀ d ∈ w, d.toNat < 128 ∧ ¬ ('A' ≤ d ∧ d ≤ 'Z'))
    (hv : isCaseVariant s w = true) : ToLower lib s = w := by
  induction s generalizing w with
  | nil =>
    cases w with
    | nil => rfl
    | cons d w => simp [isCaseVariant] at hv
  | cons c s ih =>
    cases w with
    | nil => simp [isCaseVariant] at hv
    | cons d w =>
      simp only [isCaseVariant, Bool.and_eq_true, decide_eq_true_eq] at hv
      obtain ⟨hc, hs⟩ := hv
      have hrest := ih w (fun x hx => hw x (List.mem_cons_of_mem _ hx)) hs
      simp only [ToLower, List.map_cons, List.cons.injEq] at hrest ⊢
      refine ⟨?_, hrest⟩
      rcases hc with e | e
      · subst e
        exact toLowerRune_lower lib c (hw c (List.mem_cons_self _ _))
      · exact toLowerRune_upper lib c d e

theorem isCaseVariant_ne_nil (s w : List Char) (hv : isCaseVariant s w = true)
    (hw : w ≠ []) : s ≠ [] := by
  cases s with
  | nil =>
    cases w with
    | nil => exact absurd rfl hw
    | cons d w => simp [isCaseVariant] at hv
  | cons c s => exact List.cons_ne_nil _ _

theorem boolean_words_lower :
    ∀ w ∈ trues ++ falses, w ≠ [] ∧ ∀ d ∈ w, d.toNat < 128 ∧ ¬ ('A' ≤ d ∧ d ≤ 'Z') := by
  decide

theorem falses_not_trues : ∀ w ∈ falses, w ∉ trues := by decide

/-- What `handleBoolean` stores for the boolean `b`. -/
theorem handleBoolean_empty (lib : GoLib) (name : List Char) (fv : Value) :
    handleBoolean lib name fv (some [])
      = if fv.isPointer then reflectSet fv (.ptrBool (some false))
        else reflectSetBool fv false := by
  simp [handleBoolean]

theorem handleBoolean_true (lib : GoLib) (name : List Char) (fv : Value) (s : List Char)
    (hs : s ≠ []) (ht : ToLower lib s ∈ trues) :
    handleBoolean lib name fv (some s)
      = if fv.isPointer then reflectSet fv (.ptrBool (some true))
        else reflectSetBool fv true := by
  simp [handleBoolean, hs, ht]

theorem handleBoolean_false (lib : GoLib) (name : List Char) (fv : Value) (s : List Char)
    (hs : s ≠ []) (ht : ToLower lib s ∉ trues) (hf : ToLower lib s ∈ falses) :
    handleBoolean lib name fv (some s)
      = if fv.isPointer then reflectSet fv (.ptrBool (some false))
        else reflectSetBool fv false := by
  simp [handleBoolean, hs, ht, hf]

theorem handleBoolean_int (lib : GoLib) (name : List Char) (fv : Value) (s : List Char)
    (n : Int) (hs : s ≠ []) (ht : ToLower lib s ∉ trues) (hf : ToLower lib s ∉ falses)
    (hn : ParseInt (ToLower lib s) = some n) :
    handleBoolean lib name fv (some s)
      = if fv.isPointer then reflectSet fv (.ptrBool (some (decide (n > 0))))
        else reflectSetBool fv (decide (n > 0)) := by
  simp [handleBoolean, hs, ht, hf, hn]

theorem handleBoolean_err (lib : GoLib) (name : List Char) (fv : Value) (s : List Char)
    (hs : s ≠ []) (ht : ToLower lib s ∉ trues) (hf : ToLower lib s ∉ falses)
    (hn : ParseInt (ToLower lib s) = none) :
    handleBoolean lib name fv (some s)
      = (.err { EnvVar := name, Reason := "not a valid boolean value" }, fv) := by
  simp [handleBoolean, hs, ht, hf, hn]

/-- Binding one `bool` or `*bool` field whose variable is in the map with a value. -/
theorem bind_bool_present (lib : GoLib) (src : envVarMap) (f : StructField) (raw : List Char)
    (htag : f.tagEnvVar ≠ []) (hl : mapLookup src f.tagEnvVar = some (some raw))
    (htype : f.value.zero = .bool false ∨ f.value.zero = .ptrBool none) :
    reflectMapToStruct lib src [f]
      = ((handleBoolean lib f.tagEnvVar f.value (some (TrimSpace raw))).1,
          [{ f with value := (handleBoolean lib f.tagEnvVar f.value (some (TrimSpace raw))).2 }],
          mapStore src f.tagEnvVar (some (TrimSpace raw))) := by
  rw [reflectMapToStruct_single lib _ f htag]
  obtain ⟨nm, tag, d, v⟩ := f
  simp only at htag hl htype
  cases v <;> simp [Value.zero] at htype <;> simp [bindField, hl]

theorem reflectSetBool_bool (old b : Bool) : reflectSetBool (.bool old) b = (.nil, .bool b) := rfl

theorem reflectSet_ptrBool (p : Option Bool) (b : Bool) :
    reflectSet (.ptrBool p) (.ptrBool (some b)) = (.nil, .ptrBool (some b)) := by
  simp [reflectSet, Value.sameType, Value.zero]

/-- Binding a `bool` and a `*bool` field once `handleBoolean` has found the boolean `b`. -/
theorem bind_bool_value (lib : GoLib) (src : envVarMap) (f : StructField) (raw : List Char)
    (b : Bool) (htag : f.tagEnvVar ≠ []) (hl : mapLookup src f.tagEnvVar = some (some raw))
    (hH : ∀ fv, handleBoolean lib f.tagEnvVar fv (some (TrimSpace raw))
      = if fv.isPointer then reflectSet fv (.ptrBool (some b)) else reflectSetBool fv b) :
    (∀ old, f.value = .bool old →
        reflectMapToStruct lib src [f]
          = (.nil, [{ f with value := .bool b }],
              mapStore src f.tagEnvVar (some (TrimSpace raw))))
      ∧ (∀ p, f.value = .ptrBool p →
        reflectMapToStruct lib src [f]
          = (.nil, [{ f with value := .ptrBool (some b) }],
              mapStore src f.tagEnvVar (some (TrimSpace raw)))) := by
  constructor
  · intro old ht
    rw [bind_bool_present lib src f raw htag hl (by rw [ht]; exact Or.inl rfl), hH, ht]
    simp [Value.isPointer, reflectSetBool_bool]
  · intro p ht
    rw [bind_bool_present lib src f raw htag hl (by rw [ht]; exact Or.inr rfl), hH, ht]
    simp [Value.isPointer, reflectSet_ptrBool]

/-- C12: a value whose trimmed text is a word of the true-set with any of its letters
in upper case binds a `bool` field to true, one of the false-set binds it to false,
and the empty text binds false; a `*bool` field bound from the same values points to
that boolean. -/
theorem C12_boolean_words_any_case (lib : GoLib) (src : envVarMap) (f : StructField)
    (raw : List Char) (htag : f.tagEnvVar ≠ [])
    (hl : mapLookup src f.tagEnvVar = some (some raw)) :
    (∀ w ∈ trues, isCaseVariant (TrimSpace raw) w = true →
        (∀ old, f.value = .bool old →
          reflectMapToStruct lib src [f]
            = (.nil, [{ f with value := .bool true }],
                mapStore src f.tagEnvVar (some (TrimSpace raw))))
        ∧ (∀ p, f.value = .ptrBool p →
          reflectMapToStruct lib src [f]
            = (.nil, [{ f with value := .ptrBool (some true) }],
                mapStore src f.tagEnvVar (some (TrimSpace raw)))))
      ∧ (∀ w ∈ falses, isCaseVariant (TrimSpace raw) w = true →
        (∀ old, f.value = .bool old →
          reflectMapToStruct lib src [f]
            = (.nil, [{ f with value := .bool false }],
                mapStore src f.tagEnvVar (some (TrimSpace raw))))
        ∧ (∀ p, f.value = .ptrBool p →
          reflectMapToStruct lib src [f]
            = (.nil, [{ f with value := .ptrBool (some false) }],
                mapStore src f.tagEnvVar (some (TrimSpace raw)))))
      ∧ (TrimSpace raw = [] →
        (∀ old, f.value = .bool old →
          reflectMapToStruct lib src [f]
            = (.nil, [{ f with value := .bool false }],
                mapStore src f.tagEnvVar (some (TrimSpace raw))))
        ∧ (∀ p, f.value = .ptrBool p →
          reflectMapToStruct lib src [f]
            = (.nil, [{ f with value := .ptrBool (some false) }],
                mapStore src f.tagEnvVar (some (TrimSpace raw))))) := by
  refine ⟨fun w hw hv => ?_, fun w hw hv => ?_, fun he => ?_⟩
  · obtain ⟨hne, hlow⟩ := boolean_words_lower w (List.mem_append_left _ hw)
    have hL := ToLower_caseVariant lib _ w hlow hv
    exact bind_bool_value lib src f raw true htag hl
      (fun fv => handleBoolean_true lib _ fv _ (isCaseVariant_ne_nil _ w hv hne)
        (by rw [hL]; exact hw))
  · obtain ⟨hne, hlow⟩ := boolean_words_lower w (List.mem_append_right _ hw)
    have hL := ToLower_caseVariant lib _ w hlow hv
    exact bind_bool_value lib src f raw false htag hl
      (fun fv => handleBoolean_false lib _ fv _ (isCaseVariant_ne_nil _ w hv hne)
        (by rw [hL]; exact falses_not_trues w hw) (by rw [hL]; exact hw))
  · exact bind_bool_value lib src f raw false htag hl
      (fun fv => by rw [he]; exact handleBoolean_empty lib _ fv)

/-- C12 at `EnAbLeD` with blanks around it, bound to a `bool` field that was false. -/
theorem C12_boolean_words_any_case_witness :
    ("BOOL".toList ≠ [])
      ∧ mapLookup [("BOOL".toList, some " EnAbLeD ".toList)] "BOOL".toList
        = some (some " EnAbLeD ".toList)
      ∧ "enabled".toList ∈ trues
      ∧ isCaseVariant (TrimSpace " EnAbLeD ".toList) "enabled".toList = true
      ∧ reflectMapToStruct plainLib [("BOOL".toList, some " EnAbLeD ".toList)]
          [{ tagEnvVar := "BOOL".toList, value := .bool false }]
        = (.nil, [{ tagEnvVar := "BOOL".toList, value := .bool true }],
            mapStore [("BOOL".toList, some " EnAbLeD ".toList)] "BOOL".toList
              (some (TrimSpace " EnAbLeD ".toList))) :=
  ⟨by decide, by decide, by decide, by decide,
    ((C12_boolean_words_any_case plainLib [("BOOL".toList, some " EnAbLeD ".toList)]
      { tagEnvVar := "BOOL".toList, value := .bool false } " EnAbLeD ".toList
      (by decide) (by decide)).1 "enabled".toList (by decide) (by decide)).1 false rfl⟩

/-! ## Integers in the text of a value -/

theorem digitsValue_eq (acc : Nat) (ds : List Char) :
    digitsValue acc ds
      = if ds.all (fun d => decide ('0' ≤ d ∧ d ≤ '9')) = true
        then some (ds.foldl (fun a d => a * 10 + (d.toNat - 48)) acc) else none := by
  induction ds generalizing acc with
  | nil => simp [digitsValue]
  | cons c rest ih =>
    by_cases hc : '0' ≤ c ∧ c ≤ '9'
    · simp only [digitsValue, if_pos hc, ih, List.all_cons, List.foldl_cons]
      simp [hc]
    · simp only [digitsValue, if_neg hc, List.all_cons]
      simp [hc]

theorem digit_lower (lib : GoLib) (d : Char) (hd : '0' ≤ d ∧ d ≤ '9') :
    toLowerRune lib d = d := by
  apply toLowerRune_lower
  have h9 : d.toNat ≤ '9'.toNat := hd.2
  have h9v : '9'.toNat = 57 := by decide
  refine ⟨by omega, ?_⟩
  rintro ⟨hA, -⟩
  have hA' : 'A'.toNat ≤ d.toNat := hA
  have hAv : 'A'.toNat = 65 := by decide
  omega

theorem ToLower_digits (lib : GoLib) (ds : List Char)
    (h : ds.all (fun d => decide ('0' ≤ d ∧ d ≤ '9')) = true) : ToLower lib ds = ds := by
  induction ds with
  | nil => rfl
  | cons c rest ih =>
    simp only [List.all_cons, Bool.and_eq_true, decide_eq_true_eq] at h
    have hr := ih h.2
    simp only [ToLower, List.map_cons] at hr ⊢
    rw [digit_lower lib c h.1, hr]

/-- The part of `ParseInt` after the sign has been taken off. -/
theorem parseInt_core (neg : Bool) (digits : List Char) (n : Int) :
    (match digits with
      | [] => none
      | d :: ds =>
        match digitsValue 0 (d :: ds) with
        | none => none
        | some un =>
          if neg = false ∧ un ≥ 2 ^ 63 then none
          else if neg = true ∧ un > 2 ^ 63 then none
          else some (if neg then - (un : Int) else (un : Int))) = some n
      ↔ digits ≠ [] ∧ digits.all (fun d => decide ('0' ≤ d ∧ d ≤ '9')) = true
        ∧ (if neg then - (natOfDigits digits : Int) else (natOfDigits digits : Int)) = n
        ∧ -(2 ^ 63) ≤ n ∧ n < 2 ^ 63 := by
  cases digits with
  | nil => simp
  | cons d ds =>
    show (match digitsValue 0 (d :: ds) with
        | none => none
        | some un =>
          if neg = false ∧ un ≥ 2 ^ 63 then none
          else if neg = true ∧ un > 2 ^ 63 then none
          else some (if neg then - (un : Int) else (un : Int))) = some n ↔ _
    rw [digitsValue_eq]
    by_cases hall : (d :: ds).all (fun d => decide ('0' ≤ d ∧ d ≤ '9')) = true
    · rw [if_pos hall]
      simp only [natOfDigits]
      generalize (d :: ds).foldl (fun a d => a * 10 + (d.toNat - 48)) 0 = un
      have hne : d :: ds ≠ [] := List.cons_ne_nil _ _
      cases neg with
      | true =>
        by_cases h1 : un > 2 ^ 63
        · simp only [Bool.true_eq_false, false_and, if_false, true_and, h1, if_true, if_pos]
          constructor
          · intro e; exact absurd e (by simp)
          · rintro ⟨-, -, e, h2, -⟩
            omega
        · simp only [Bool.true_eq_false, false_and, if_false, true_and, h1, if_true, if_neg,
            not_false_eq_true, Option.some.injEq]
          constructor
          · intro e; exact ⟨hne, hall, e, by omega, by omega⟩
          · rintro ⟨-, -, e, -, -⟩; exact e
      | false =>
        by_cases h1 : un ≥ 2 ^ 63
        · simp only [true_and, h1, if_true]
          constructor
          · intro e; exact absurd e (by simp)
          · rintro ⟨-, -, e, -, h2⟩
            simp only [Bool.false_eq_true, if_false] at e
            omega
        · simp only [true_and, h1, if_false, Bool.false_eq_true, false_and,
            Option.some.injEq]
          constructor
          · intro e; exact ⟨hne, hall, e, by omega, by omega⟩
          · rintro ⟨-, -, e, -, -⟩; exact e
    · rw [if_neg hall]
      constructor
      · intro e; exact absurd e (by simp)
      · rintro ⟨-, h, -⟩; exact absurd h hall

/-- `strconv.ParseInt` accepts the base-10 signed integer literals whose value fits in
64 bits, and nothing else. -/
theorem ParseInt_eq_some_iff (s : List Char) (n : Int) :
    ParseInt s = some n
      ↔ isDecimalLiteral s = true ∧ decimalValue s = n ∧ -(2 ^ 63) ≤ n ∧ n < 2 ^ 63 := by
  cases s with
  | nil => simp [ParseInt, isDecimalLiteral]
  | cons c rest =>
    have hcore := parseInt_core (decide (c = '-'))
      (if c = '+' ∨ c = '-' then rest else c :: rest) n
    have hP : ParseInt (c :: rest)
        = (match (if c = '+' ∨ c = '-' then rest else c :: rest) with
          | [] => none
          | d :: ds =>
            match digitsValue 0 (d :: ds) with
            | none => none
            | some un =>
              if decide (c = '-') = false ∧ un ≥ 2 ^ 63 then none
              else if decide (c = '-') = true ∧ un > 2 ^ 63 then none
              else some (if decide (c = '-') then - (un : Int) else (un : Int))) := rfl
    rw [hP, hcore]
    by_cases hm : c = '-'
    · subst hm
      simp [isDecimalLiteral, decimalValue, and_assoc]
    · by_cases hp : c = '+'
      · subst hp
        simp [isDecimalLiteral, decimalValue, and_assoc]
      · simp [isDecimalLiteral, decimalValue, hm, hp, and_assoc]

/-! ## Integer fields -/

theorem ToLower_decimalLiteral (lib : GoLib) (s : List Char)
    (h : isDecimalLiteral s = true) : ToLower lib s = s := by
  cases s with
  | nil => rfl
  | cons c rest =>
    by_cases hsign : c = '+' ∨ c = '-'
    · simp only [isDecimalLiteral, if_pos hsign, Bool.and_eq_true] at h
      have hr := ToLower_digits lib rest h.2
      have hc : toLowerRune lib c = c := by
        rcases hsign with e | e <;> subst e <;>
          exact toLowerRune_lower lib _ (by decide)
      simp only [ToLower, List.map_cons] at hr ⊢
      rw [hc, hr]
    · simp only [isDecimalLiteral, if_neg hsign, Bool.and_eq_true] at h
      exact ToLower_digits lib (c :: rest) h.2

theorem ParseInt_ToLower (lib : GoLib) (s : List Char) (n : Int)
    (h : ParseInt s = some n) : ParseInt (ToLower lib s) = some n := by
  rw [ToLower_decimalLiteral lib s ((ParseInt_eq_some_iff s n).1 h).1]
  exact h

theorem wrapInt_64 (n : Int) (h1 : -(2 ^ 63) ≤ n) (h2 : n < 2 ^ 63) : wrapInt 64 n = n := by
  simp only [wrapInt]
  norm_num at h1 h2 ⊢
  omega

theorem ParseInt_range (s : List Char) (n : Int) (h : ParseInt s = some n) :
    wrapInt 64 n = n :=
  wrapInt_64 n ((ParseInt_eq_some_iff s n).1 h).2.2.1 ((ParseInt_eq_some_iff s n).1 h).2.2.2

/-- The three properties that single out the `w`-bit two's complement of `n`. -/
theorem wrapInt_spec (w : Nat) (hw : w = 8 ∨ w = 16 ∨ w = 32 ∨ w = 64) (n : Int) :
    -(2 ^ (w - 1)) ≤ wrapInt w n ∧ wrapInt w n < 2 ^ (w - 1)
      ∧ (wrapInt w n - n) % 2 ^ w = 0
      ∧ ∀ r : Int, -(2 ^ (w - 1)) ≤ r → r < 2 ^ (w - 1) → (r - n) % 2 ^ w = 0
          → r = wrapInt w n := by
  rcases hw with e | e | e | e <;> subst e <;> simp only [wrapInt] <;> norm_num <;>
    refine ⟨by omega, by omega, by omega, fun r h1 h2 h3 => by omega⟩

theorem handleNumeric_empty (name : List Char) (fv : Value) :
    handleNumeric name fv (some [])
      = if fv.isPointer then reflectSet fv (.ptrInt64 (some 0)) else reflectSetInt fv 0 := by
  simp [handleNumeric]

theorem handleNumeric_int (name : List Char) (fv : Value) (s : List Char) (n : Int)
    (hs : s ≠ []) (hn : ParseInt s = some n) :
    handleNumeric name fv (some s)
      = if fv.isPointer then reflectSet fv (.ptrInt64 (some n)) else reflectSetInt fv n := by
  simp [handleNumeric, hs, hn]

theorem handleNumeric_err (name : List Char) (fv : Value) (s : List Char)
    (hs : s ≠ []) (hn : ParseInt s = none) :
    handleNumeric name fv (some s)
      = (.err { EnvVar := name, Reason := "number not parsable" }, fv) := by
  simp [handleNumeric, hs, hn]

theorem ParseInt_ne_nil (s : List Char) (n : Int) (h : ParseInt s = some n) : s ≠ [] := by
  rintro rfl
  simp [ParseInt] at h

/-- Binding one integer field whose variable is in the map with a value. -/
theorem bind_int_present (lib : GoLib) (src : envVarMap) (f : StructField) (raw : List Char)
    (htag : f.tagEnvVar ≠ []) (hl : mapLookup src f.tagEnvVar = some (some raw))
    (htype : isIntKind f.value = true) :
    reflectMapToStruct lib src [f]
      = ((handleNumeric f.tagEnvVar f.value (some (TrimSpace raw))).1,
          [{ f with value := (handleNumeric f.tagEnvVar f.value (some (TrimSpace raw))).2 }],
          mapStore src f.tagEnvVar (some (TrimSpace raw))) := by
  rw [reflectMapToStruct_single lib _ f htag]
  obtain ⟨nm, tag, d, v⟩ := f
  simp only at htag hl htype
  cases v <;> simp [isIntKind] at htype <;> simp [bindField, hl]

theorem reflectSetInt_intKind (fv : Value) (n : Int) (h : isIntKind fv = true) :
    (reflectSetInt fv n).1 = .nil ∧ (fv.isPointer = false) := by
  cases fv <;> simp [isIntKind] at h <;> simp [reflectSetInt, Value.isPointer]

/-- C13, read as a case split over every value: the text `-5` is in neither set and is
no positive integer and not zero, yet binding a `bool` field from it returns no error
and leaves the field false. -/
theorem C13_negative_integer_binds_false :
    TrimSpace "-5".toList ≠ []
      ∧ ToLower plainLib (TrimSpace "-5".toList) ∉ trues
      ∧ ToLower plainLib (TrimSpace "-5".toList) ∉ falses
      ∧ ParseInt (ToLower plainLib (TrimSpace "-5".toList)) = some (-5)
      ∧ reflectMapToStruct plainLib [("BOOL".toList, some "-5".toList)]
          [{ Name := "Boolean".toList, tagEnvVar := "BOOL".toList, value := .bool true }]
        = (.nil,
            [{ Name := "Boolean".toList, tagEnvVar := "BOOL".toList, value := .bool false }],
            [("BOOL".toList, some "-5".toList)]) := by
  decide

/-- C13 (amended): for a trimmed value that is not empty and whose lower-cased text is in
neither the true-set nor the false-set: when the lower-cased text parses as the integer
`n`, a `bool` field is bound to true if `n` is positive and to false if `n` is zero or
negative, and a `*bool` field points to that boolean; when it does not parse as an
integer, binding fails with an `ErrSyntax` that carries the variable name and the reason
"not a valid boolean value", and the field is left as it was.  A text that parses as an
integer is not changed by lower-casing. -/
theorem C13_boolean_from_integer (lib : GoLib) (src : envVarMap) (f : StructField)
    (raw : List Char) (htag : f.tagEnvVar ≠ [])
    (hl : mapLookup src f.tagEnvVar = some (some raw))
    (hne : TrimSpace raw ≠ [])
    (ht : ToLower lib (TrimSpace raw) ∉ trues) (hf : ToLower lib (TrimSpace raw) ∉ falses) :
    (∀ n, ParseInt (ToLower lib (TrimSpace raw)) = some n →
        (∀ old, f.value = .bool old →
          reflectMapToStruct lib src [f]
            = (.nil, [{ f with value := .bool (decide (n > 0)) }],
                mapStore src f.tagEnvVar (some (TrimSpace raw))))
        ∧ (∀ p, f.value = .ptrBool p →
          reflectMapToStruct lib src [f]
            = (.nil, [{ f with value := .ptrBool (some (decide (n > 0))) }],
                mapStore src f.tagEnvVar (some (TrimSpace raw)))))
      ∧ (ParseInt (ToLower lib (TrimSpace raw)) = none →
          (f.value.zero = .bool false ∨ f.value.zero = .ptrBool none) →
          reflectMapToStruct lib src [f]
            = (.err { Line := 0, EnvVar := f.tagEnvVar, Reason := "not a valid boolean value" },
                [f], mapStore src f.tagEnvVar (some (TrimSpace raw))))
      ∧ (∀ n, ParseInt (TrimSpace raw) = some n →
          ToLower lib (TrimSpace raw) = TrimSpace raw) := by
  refine ⟨fun n hn => ?_, fun hn htype => ?_, fun n hn => ?_⟩
  · exact bind_bool_value lib src f raw (decide (n > 0)) htag hl
      (fun fv => handleBoolean_int lib _ fv _ n hne ht hf hn)
  · rw [bind_bool_present lib src f raw htag hl htype,
      handleBoolean_err lib _ _ _ hne ht hf hn]
  · exact ToLower_decimalLiteral lib _ ((ParseInt_eq_some_iff _ n).1 hn).1

/-- C13 (amended) at the value `42` for a `bool` field and at `maybe` for a `*bool`
field. -/
theorem C13_boolean_from_integer_witness :
    reflectMapToStruct plainLib [("BOOL".toList, some " 42".toList)]
        [{ tagEnvVar := "BOOL".toList, value := .bool false }]
      = (.nil, [{ tagEnvVar := "BOOL".toList, value := .bool true }],
          mapStore [("BOOL".toList, some " 42".toList)] "BOOL".toList
            (some (TrimSpace " 42".toList)))
    ∧ reflectMapToStruct plainLib [("BOOL".toList, some "maybe".toList)]
        [{ tagEnvVar := "BOOL".toList, value := .ptrBool (some true) }]
      = (.err { Line := 0, EnvVar := "BOOL".toList, Reason := "not a valid boolean value" },
          [{ tagEnvVar := "BOOL".toList, value := .ptrBool (some true) }],
          mapStore [("BOOL".toList, some "maybe".toList)] "BOOL".toList
            (some (TrimSpace "maybe".toList))) :=
  ⟨((C13_boolean_from_integer plainLib [("BOOL".toList, some " 42".toList)]
      { tagEnvVar := "BOOL".toList, value := .bool false } " 42".toList
      (by decide) (by decide) (by decide) (by decide) (by decide)).1 42 (by decide)).1
      false rfl,
    (C13_boolean_from_integer plainLib [("BOOL".toList, some "maybe".toList)]
      { tagEnvVar := "BOOL".toList, value := .ptrBool (some true) } "maybe".toList
      (by decide) (by decide) (by decide) (by decide) (by decide)).2.1 (by decide)
      (Or.inr rfl)⟩

/-- C14: for a field of type int, int8, int16, int32 or int64 whose variable is in the
map with a value, `s` being the trimmed value: when `s` is empty the field becomes 0;
when `s` is a base-10 literal (an optional sign, then one or more decimal digits) whose
value `n` fits in 64 bits, binding returns no error and the field is set from `n` (an
int or int64 field holds `n` itself); for every other `s` binding fails with an
`ErrSyntax` that carries the variable name and the reason "number not parsable", and
the field is left as it was. -/
theorem C14_integer_field (lib : GoLib) (src : envVarMap) (f : StructField)
    (raw : List Char) (htag : f.tagEnvVar ≠ [])
    (hl : mapLookup src f.tagEnvVar = some (some raw))
    (hkind : isIntKind f.value = true) :
    (TrimSpace raw = [] →
        reflectMapToStruct lib src [f]
          = (.nil, [{ f with value := f.value.zero }],
              mapStore src f.tagEnvVar (some (TrimSpace raw))))
      ∧ (∀ n : Int, isDecimalLiteral (TrimSpace raw) = true →
          decimalValue (TrimSpace raw) = n → -(2 ^ 63) ≤ n → n < 2 ^ 63 →
          reflectMapToStruct lib src [f]
              = (.nil, [{ f with value := (reflectSetInt f.value n).2 }],
                  mapStore src f.tagEnvVar (some (TrimSpace raw)))
            ∧ (∀ old, f.value = .int old → (reflectSetInt f.value n).2 = .int n)
            ∧ (∀ old, f.value = .int64 old → (reflectSetInt f.value n).2 = .int64 n)
            ∧ (∀ old, f.value = .int8 old → (reflectSetInt f.value n).2 = .int8 (wrapInt 8 n))
            ∧ (∀ old, f.value = .int16 old
                → (reflectSetInt f.value n).2 = .int16 (wrapInt 16 n))
            ∧ (∀ old, f.value = .int32 old
                → (reflectSetInt f.value n).2 = .int32 (wrapInt 32 n)))
      ∧ (TrimSpace raw ≠ [] →
          ¬ (isDecimalLiteral (TrimSpace raw) = true
              ∧ -(2 ^ 63) ≤ decimalValue (TrimSpace raw)
              ∧ decimalValue (TrimSpace raw) < 2 ^ 63) →
          reflectMapToStruct lib src [f]
            = (.err { Line := 0, EnvVar := f.tagEnvVar, Reason := "number not parsable" },
                [f], mapStore src f.tagEnvVar (some (TrimSpace raw)))) := by
  have hb := bind_int_present lib src f raw htag hl hkind
  refine ⟨fun he => ?_, fun n hlit hval h1 h2 => ⟨?_, ?_, ?_, ?_, ?_, ?_⟩, fun hne hnot => ?_⟩
  · rw [hb, he, handleNumeric_empty]
    obtain ⟨nm, tag, d, v⟩ := f
    cases v <;> simp [isIntKind] at hkind <;>
      simp [Value.isPointer, reflectSetInt, Value.zero, wrapInt]
  · have hp : ParseInt (TrimSpace raw) = some n :=
      (ParseInt_eq_some_iff _ n).2 ⟨hlit, hval, h1, h2⟩
    rw [hb, handleNumeric_int _ _ _ n (ParseInt_ne_nil _ n hp) hp]
    obtain ⟨hnil, hnp⟩ := reflectSetInt_intKind f.value n hkind
    simp [hnp, hnil]
  · intro old e
    rw [e]
    simp [reflectSetInt, wrapInt_64 n h1 h2]
  · intro old e
    rw [e]
    simp [reflectSetInt, wrapInt_64 n h1 h2]
  · intro old e
    rw [e]
    rfl
  · intro old e
    rw [e]
    rfl
  · intro old e
    rw [e]
    rfl
  · have hp : ParseInt (TrimSpace raw) = none := by
      cases hq : ParseInt (TrimSpace raw) with
      | none => rfl
      | some n =>
        obtain ⟨a, b, c, d⟩ := (ParseInt_eq_some_iff _ n).1 hq
        exact absurd ⟨a, by rw [b]; exact c, by rw [b]; exact d⟩ hnot
    rw [hb, handleNumeric_err _ _ _ hne hp]

/-- C14 at an `int32` field bound from `-323232` and at an `int` field bound from
`1a2`. -/
theorem C14_integer_field_witness :
    reflectMapToStruct plainLib [("NUMBER32".toList, some " -323232 ".toList)]
        [{ tagEnvVar := "NUMBER32".toList, value := .int32 0 }]
      = (.nil, [{ tagEnvVar := "NUMBER32".toList, value := .int32 (-323232) }],
          mapStore [("NUMBER32".toList, some " -323232 ".toList)] "NUMBER32".toList
            (some (TrimSpace " -323232 ".toList)))
    ∧ reflectMapToStruct plainLib [("NUMBER".toList, some "1a2".toList)]
        [{ tagEnvVar := "NUMBER".toList, value := .int 7 }]
      = (.err { Line := 0, EnvVar := "NUMBER".toList, Reason := "number not parsable" },
          [{ tagEnvVar := "NUMBER".toList, value := .int 7 }],
          mapStore [("NUMBER".toList, some "1a2".toList)] "NUMBER".toList
            (some (TrimSpace "1a2".toList))) :=
  ⟨((C14_integer_field plainLib [("NUMBER32".toList, some " -323232 ".toList)]
      { tagEnvVar := "NUMBER32".toList, value := .int32 0 } " -323232 ".toList
      (by decide) (by decide) (by decide)).2.1 (-323232) (by decide) (by decide)
      (by decide) (by decide)).1.trans (by decide),
    (C14_integer_field plainLib [("NUMBER".toList, some "1a2".toList)]
      { tagEnvVar := "NUMBER".toList, value := .int 7 } "1a2".toList
      (by decide) (by decide) (by decide)).2.2 (by decide) (by decide)⟩

/-- C15: for a field of type int8, int16 or int32 whose variable is in the map with a
value whose trimmed text is a base-10 literal of value `n` that fits in 64 bits,
binding returns no error and the field holds `n` reduced to the width `w` of the field:
the one value in `[-2^(w-1), 2^(w-1))` that is congruent to `n` modulo `2^w`.  An int8
field bound from `300` becomes 44. -/
theorem C15_narrowing_wraps (lib : GoLib) (src : envVarMap) (f : StructField)
    (raw : List Char) (n : Int) (htag : f.tagEnvVar ≠ [])
    (hl : mapLookup src f.tagEnvVar = some (some raw))
    (hlit : isDecimalLiteral (TrimSpace raw) = true)
    (hval : decimalValue (TrimSpace raw) = n) (h1 : -(2 ^ 63) ≤ n) (h2 : n < 2 ^ 63) :
    (∀ old, f.value = .int8 old →
        reflectMapToStruct lib src [f]
          = (.nil, [{ f with value := .int8 (wrapInt 8 n) }],
              mapStore src f.tagEnvVar (some (TrimSpace raw))))
      ∧ (∀ old, f.value = .int16 old →
        reflectMapToStruct lib src [f]
          = (.nil, [{ f with value := .int16 (wrapInt 16 n) }],
              mapStore src f.tagEnvVar (some (TrimSpace raw))))
      ∧ (∀ old, f.value = .int32 old →
        reflectMapToStruct lib src [f]
          = (.nil, [{ f with value := .int32 (wrapInt 32 n) }],
              mapStore src f.tagEnvVar (some (TrimSpace raw))))
      ∧ (∀ w : Nat, w = 8 ∨ w = 16 ∨ w = 32 →
          -(2 ^ (w - 1)) ≤ wrapInt w n ∧ wrapInt w n < 2 ^ (w - 1)
            ∧ (wrapInt w n - n) % 2 ^ w = 0
            ∧ ∀ r : Int, -(2 ^ (w - 1)) ≤ r → r < 2 ^ (w - 1) → (r - n) % 2 ^ w = 0
                → r = wrapInt w n)
      ∧ (∀ old, reflectMapToStruct lib [("NUMBER8".toList, some "300".toList)]
            [{ tagEnvVar := "NUMBER8".toList, value := .int8 old }]
          = (.nil, [{ tagEnvVar := "NUMBER8".toList, value := .int8 44 }],
              [("NUMBER8".toList, some "300".toList)])) := by
  have hp : ParseInt (TrimSpace raw) = some n :=
    (ParseInt_eq_some_iff _ n).2 ⟨hlit, hval, h1, h2⟩
  have hH : ∀ hk : isIntKind f.value = true,
      reflectMapToStruct lib src [f]
        = ((reflectSetInt f.value n).1, [{ f with value := (reflectSetInt f.value n).2 }],
            mapStore src f.tagEnvVar (some (TrimSpace raw))) := by
    intro hk
    rw [bind_int_present lib src f raw htag hl hk,
      handleNumeric_int _ _ _ n (ParseInt_ne_nil _ n hp) hp]
    simp [(reflectSetInt_intKind f.value n hk).2]
  refine ⟨fun old e => ?_, fun old e => ?_, fun old e => ?_, fun w hw => ?_, fun old => rfl⟩
  · rw [hH (by rw [e]; rfl), e]; rfl
  · rw [hH (by rw [e]; rfl), e]; rfl
  · rw [hH (by rw [e]; rfl), e]; rfl
  · exact wrapInt_spec w (by rcases hw with e | e | e <;> simp [e]) n

/-- C15 at an `int16` field bound from `70000`, which becomes 4464. -/
theorem C15_narrowing_wraps_witness :
    reflectMapToStruct plainLib [("NUMBER16".toList, some "70000".toList)]
        [{ tagEnvVar := "NUMBER16".toList, value := .int16 0 }]
      = (.nil, [{ tagEnvVar := "NUMBER16".toList, value := .int16 (wrapInt 16 70000) }],
          mapStore [("NUMBER16".toList, some "70000".toList)] "NUMBER16".toList
            (some (TrimSpace "70000".toList)))
    ∧ wrapInt 16 70000 = 4464 :=
  ⟨(C15_narrowing_wraps plainLib [("NUMBER16".toList, some "70000".toList)]
      { tagEnvVar := "NUMBER16".toList, value := .int16 0 } "70000".toList 70000
      (by decide) (by decide) (by decide) (by decide) (by decide) (by decide)).2.1 0 rfl,
    by decide⟩

/-! ## Quotes around a value -/

theorem quote_not_digit (c : Char) (hq : c = dquote ∨ c = backtick ∨ c = squote) :
    ¬ ('0' ≤ c ∧ c ≤ '9') ∧ c ≠ '+' ∧ c ≠ '-' ∧ c.toNat < 128 ∧ ¬ ('A' ≤ c ∧ c ≤ 'Z') := by
  rcases hq with e | e | e <;> subst e <;> decide

theorem ParseInt_quote (c : Char) (tl : List Char)
    (hq : c = dquote ∨ c = backtick ∨ c = squote) : ParseInt (c :: tl) = none := by
  cases h : ParseInt (c :: tl) with
  | none => rfl
  | some n =>
    have hlit := ((ParseInt_eq_some_iff _ n).1 h).1
    obtain ⟨h1, h2, h3, -, -⟩ := quote_not_digit c hq
    simp [isDecimalLiteral, h1, h2, h3] at hlit

theorem ToLower_quote (lib : GoLib) (c : Char) (tl : List Char)
    (hq : c = dquote ∨ c = backtick ∨ c = squote) :
    ToLower lib (c :: tl) = c :: ToLower lib tl := by
  obtain ⟨-, -, -, h4, h5⟩ := quote_not_digit c hq
  simp only [ToLower, List.map_cons]
  rw [toLowerRune_lower lib c ⟨h4, h5⟩]

theorem quote_not_boolean_word (c : Char) (tl : List Char)
    (hq : c = dquote ∨ c = backtick ∨ c = squote) :
    c :: tl ∉ trues ∧ c :: tl ∉ falses := by
  rcases hq with e | e | e <;> subst e <;>
    simp [trues, falses, dquote, backtick, squote]

/-- C16: only `handleString` takes quotes off.  For a present value whose trimmed text
starts with one of the three quote characters, binding an integer field fails with
"number not parsable" and binding a `bool` field fails with "not a valid boolean
value", the field being left as it was, whatever the text between the quotes; for a
`time.Duration` field the text handed to `time.ParseDuration` still has its quotes. -/
theorem C16_quotes_stripped_for_strings_only (lib : GoLib) (src : envVarMap)
    (f : StructField) (raw : List Char) (c : Char) (tl : List Char)
    (htag : f.tagEnvVar ≠ []) (hl : mapLookup src f.tagEnvVar = some (some raw))
    (ht : TrimSpace raw = c :: tl) (hq : c = dquote ∨ c = backtick ∨ c = squote) :
    (isIntKind f.value = true →
        reflectMapToStruct lib src [f]
          = (.err { Line := 0, EnvVar := f.tagEnvVar, Reason := "number not parsable" },
              [f], mapStore src f.tagEnvVar (some (TrimSpace raw))))
      ∧ (∀ old, f.value = .bool old →
        reflectMapToStruct lib src [f]
          = (.err { Line := 0, EnvVar := f.tagEnvVar, Reason := "not a valid boolean value" },
              [f], mapStore src f.tagEnvVar (some (TrimSpace raw))))
      ∧ (∀ old, f.value = .duration old →
        reflectMapToStruct lib src [f]
          = (match lib.ParseDuration (c :: tl) with
            | none =>
              (.err { Line := 0, EnvVar := f.tagEnvVar,
                      Reason := "not parsable as Go duration string" },
                [f], mapStore src f.tagEnvVar (some (TrimSpace raw)))
            | some res =>
              (.nil, [{ f with value := .duration res }],
                mapStore src f.tagEnvVar (some (TrimSpace raw))))) := by
  refine ⟨fun hk => ?_, fun old e => ?_, fun old e => ?_⟩
  · rw [bind_int_present lib src f raw htag hl hk,
      handleNumeric_err _ _ _ (by rw [ht]; exact List.cons_ne_nil _ _)
        (by rw [ht]; exact ParseInt_quote c tl hq)]
  · have hw := quote_not_boolean_word c (ToLower lib tl) hq
    rw [bind_bool_present lib src f raw htag hl (by rw [e]; exact Or.inl rfl),
      handleBoolean_err lib _ _ _ (by rw [ht]; exact List.cons_ne_nil _ _)
        (by rw [ht, ToLower_quote lib c tl hq]; exact hw.1)
        (by rw [ht, ToLower_quote lib c tl hq]; exact hw.2)
        (by rw [ht, ToLower_quote lib c tl hq]; exact ParseInt_quote c _ hq)]
  · rw [reflectMapToStruct_single lib _ f htag]
    obtain ⟨nm, tag, d, v⟩ := f
    simp only at htag hl e
    subst e
    cases hp : lib.ParseDuration (c :: tl) <;>
      simp [bindField, hl, ht, handleTimeDuration, Value.isPointer, hp, reflectSet,
        Value.sameType, Value.zero]

/-- C16 at an `int` field bound from the five characters of `123` in double quotes, and
at a `bool` field bound from `true` in single quotes. -/
theorem C16_quotes_stripped_for_strings_only_witness :
    reflectMapToStruct plainLib [("NUMBER".toList, some [dquote, '1', '2', '3', dquote])]
        [{ Name := "Number".toList, tagEnvVar := "NUMBER".toList, value := .int 0 }]
      = (.err { Line := 0, EnvVar := "NUMBER".toList, Reason := "number not parsable" },
          [{ Name := "Number".toList, tagEnvVar := "NUMBER".toList, value := .int 0 }],
          mapStore [("NUMBER".toList, some [dquote, '1', '2', '3', dquote])] "NUMBER".toList
            (some (TrimSpace [dquote, '1', '2', '3', dquote])))
    ∧ reflectMapToStruct plainLib [("NUMBER".toList, some "123".toList)]
        [{ Name := "Number".toList, tagEnvVar := "NUMBER".toList, value := .int 0 }]
      = (.nil, [{ Name := "Number".toList, tagEnvVar := "NUMBER".toList, value := .int 123 }],
          [("NUMBER".toList, some "123".toList)])
    ∧ reflectMapToStruct plainLib
        [("BOOLEAN".toList, some (squote :: "true".toList ++ [squote]))]
        [{ Name := "Boolean".toList, tagEnvVar := "BOOLEAN".toList, value := .bool false }]
      = (.err { Line := 0, EnvVar := "BOOLEAN".toList, Reason := "not a valid boolean value" },
          [{ Name := "Boolean".toList, tagEnvVar := "BOOLEAN".toList, value := .bool false }],
          mapStore [("BOOLEAN".toList, some (squote :: "true".toList ++ [squote]))]
            "BOOLEAN".toList (some (TrimSpace (squote :: "true".toList ++ [squote])))) :=
  ⟨(C16_quotes_stripped_for_strings_only plainLib
      [("NUMBER".toList, some [dquote, '1', '2', '3', dquote])]
      { Name := "Number".toList, tagEnvVar := "NUMBER".toList, value := .int 0 }
      [dquote, '1', '2', '3', dquote] dquote ['1', '2', '3', dquote]
      (by decide) (by decide) (by decide) (Or.inl rfl)).1 (by decide),
    by decide,
    (C16_quotes_stripped_for_strings_only plainLib
      [("BOOLEAN".toList, some (squote :: "true".toList ++ [squote]))]
      { Name := "Boolean".toList, tagEnvVar := "BOOLEAN".toList, value := .bool false }
      (squote :: "true".toList ++ [squote]) squote ("true".toList ++ [squote])
      (by decide) (by decide) (by decide) (Or.inr (Or.inr rfl))).2.1 false rfl⟩

/-! ## The closing quote of a string -/

theorem splitAtEqual_name (name v : List Char) (h : '=' ∉ name) :
    splitAtEqual (name ++ '=' :: v) = some (name, v) := by
  induction name with
  | nil => simp [splitAtEqual]
  | cons c rest ih =>
    have hc : c ≠ '=' := fun e => h (by rw [e]; exact List.mem_cons_self _ _)
    have hr : '=' ∉ rest := fun hm => h (List.mem_cons_of_mem _ hm)
    rw [List.cons_append]
    simp only [splitAtEqual, if_neg hc, ih hr]
    rfl

/-- C17: binding from a raw map, which has no lines, a `string` or `*string` field whose
trimmed value starts with one of the three quote characters and ends with another
character fails with an `ErrSyntax` that carries the variable name, the line 0 and the
reason "missing closing quote"; the field is left as it was; the text of the error is
the name followed by `: syntax error (missing closing quote)`; `OSEnviron` returns that
error when the environment makes that map. -/
theorem C17_missing_closing_quote_without_line (lib : GoLib) (src : envVarMap)
    (f : StructField) (raw : List Char) (c : Char) (tl : List Char)
    (htag : f.tagEnvVar ≠ []) (hl : mapLookup src f.tagEnvVar = some (some raw))
    (hstr : f.value.zero = .string [] ∨ f.value.zero = .ptrString none)
    (ht : TrimSpace raw = c :: tl) (hq : c = dquote ∨ c = squote ∨ c = backtick)
    (hlast : (c :: tl).getLast (List.cons_ne_nil c tl) ≠ c) :
    reflectMapToStruct lib src [f]
        = (.err { Line := 0, EnvVar := f.tagEnvVar, Reason := "missing closing quote" },
            [f], mapStore src f.tagEnvVar (some (TrimSpace raw)))
      ∧ ErrSyntax.Error { Line := 0, EnvVar := f.tagEnvVar, Reason := "missing closing quote" }
        = f.tagEnvVar ++ ": syntax error (missing closing quote)".toList
      ∧ (∀ environ, environMap environ = src →
          OSEnviron lib environ [f]
            = (.err { Line := 0, EnvVar := f.tagEnvVar, Reason := "missing closing quote" },
                [f])) := by
  have hq2 : c = dquote ∨ c = backtick ∨ c = squote := by
    rcases hq with e | e | e
    · exact Or.inl e
    · exact Or.inr (Or.inr e)
    · exact Or.inr (Or.inl e)
  have hmain : reflectMapToStruct lib src [f]
      = (.err { Line := 0, EnvVar := f.tagEnvVar, Reason := "missing closing quote" },
          [f], mapStore src f.tagEnvVar (some (TrimSpace raw))) := by
    rw [reflectMapToStruct_single lib _ f htag]
    obtain ⟨nm, tag, d, v⟩ := f
    simp only at htag hl hstr hlast ⊢
    have hne : ¬ c = (c :: tl).getLast (List.cons_ne_nil c tl) := fun e => hlast e.symm
    cases v <;> simp [Value.zero] at hstr <;>
      simp [bindField, hl, ht, handleString, hq2, hne]
  refine ⟨hmain, ?_, ?_⟩
  · simp only [ErrSyntax.Error]
    rw [if_neg (by decide), List.append_assoc, List.append_assoc]
    congr 1
  intro environ he
  simp only [OSEnviron, he, hmain]

/-- C17 at the variable `STRING_fiw2eodc` set to `missing quote at end` after a single
quote, read from the environment. -/
theorem C17_missing_closing_quote_without_line_witness :
    OSEnviron plainLib ["HOME=/root".toList,
        "STRING_fiw2eodc=".toList ++ squote :: "missing quote at end".toList]
        [{ Name := "Name".toList, tagEnvVar := "STRING_fiw2eodc".toList, value := .string [] }]
      = (.err { Line := 0, EnvVar := "STRING_fiw2eodc".toList,
                Reason := "missing closing quote" },
          [{ Name := "Name".toList, tagEnvVar := "STRING_fiw2eodc".toList,
             value := .string [] }])
    ∧ ErrSyntax.Error { Line := 0, EnvVar := "STRING_fiw2eodc".toList,
                        Reason := "missing closing quote" }
      = "STRING_fiw2eodc: syntax error (missing closing quote)".toList :=
  ⟨(C17_missing_closing_quote_without_line plainLib
      [("HOME".toList, some "/root".toList),
        ("STRING_fiw2eodc".toList, some (squote :: "missing quote at end".toList))]
      { Name := "Name".toList, tagEnvVar := "STRING_fiw2eodc".toList, value := .string [] }
      (squote :: "missing quote at end".toList) squote "missing quote at end".toList
      (by decide) (by decide) (Or.inl rfl) (by decide) (Or.inr (Or.inl rfl))
      (by decide)).2.2 _ (by decide),
    (C17_missing_closing_quote_without_line plainLib
      [("HOME".toList, some "/root".toList),
        ("STRING_fiw2eodc".toList, some (squote :: "missing quote at end".toList))]
      { Name := "Name".toList, tagEnvVar := "STRING_fiw2eodc".toList, value := .string [] }
      (squote :: "missing quote at end".toList) squote "missing quote at end".toList
      (by decide) (by decide) (Or.inl rfl) (by decide) (Or.inr (Or.inl rfl))
      (by decide)).2.1⟩

/-! ## Pointer fields -/

/-- C18: what `Set` receives for a pointer field whose variable is in the map with a
value.  A `*string` field is handed a `string`: binding never returns nil and the field
is left as it was, and for a text without quote characters it panics.  A `*int`,
`*int8`, `*int16` or `*int32` field is handed a `*int64` and binding panics for a text
that is empty or parses as an integer, while a `*int64` field ends as a pointer to the
integer.  A `*time.Duration` field is handed a `time.Duration` for a text that is not
empty and parses, and binding panics, while the empty text makes it a pointer to 0. -/
theorem C18_pointer_fields_from_text (lib : GoLib) (src : envVarMap) (f : StructField)
    (raw : List Char) (htag : f.tagEnvVar ≠ [])
    (hl : mapLookup src f.tagEnvVar = some (some raw)) :
    (∀ p, f.value = .ptrString p →
        (reflectMapToStruct lib src [f]).1 ≠ .nil ∧ (reflectMapToStruct lib src [f]).2.1 = [f])
      ∧ (∀ p, f.value = .ptrString p →
          (∀ x ∈ TrimSpace raw, x ≠ dquote ∧ x ≠ backtick ∧ x ≠ squote) →
          ∃ msg, reflectMapToStruct lib src [f]
            = (.panic msg, [f], mapStore src f.tagEnvVar (some (TrimSpace raw))))
      ∧ (∀ n, (TrimSpace raw = [] ∧ n = 0) ∨ ParseInt (TrimSpace raw) = some n →
          (f.value.zero = .ptrInt none ∨ f.value.zero = .ptrInt8 none
            ∨ f.value.zero = .ptrInt16 none ∨ f.value.zero = .ptrInt32 none) →
          ∃ msg, reflectMapToStruct lib src [f]
            = (.panic msg, [f], mapStore src f.tagEnvVar (some (TrimSpace raw))))
      ∧ (∀ n, (TrimSpace raw = [] ∧ n = 0) ∨ ParseInt (TrimSpace raw) = some n →
          ∀ p, f.value = .ptrInt64 p →
          reflectMapToStruct lib src [f]
            = (.nil, [{ f with value := .ptrInt64 (some n) }],
                mapStore src f.tagEnvVar (some (TrimSpace raw))))
      ∧ (∀ d, TrimSpace raw ≠ [] → lib.ParseDuration (TrimSpace raw) = some d →
          ∀ p, f.value = .ptrDuration p →
          ∃ msg, reflectMapToStruct lib src [f]
            = (.panic msg, [f], mapStore src f.tagEnvVar (some (TrimSpace raw))))
      ∧ (TrimSpace raw = [] → ∀ p, f.value = .ptrDuration p →
          reflectMapToStruct lib src [f]
            = (.nil, [{ f with value := .ptrDuration (some 0) }],
                mapStore src f.tagEnvVar (some (TrimSpace raw)))) := by
  have hnum : ∀ n, (TrimSpace raw = [] ∧ n = 0) ∨ ParseInt (TrimSpace raw) = some n →
      ∀ fv, handleNumeric f.tagEnvVar fv (some (TrimSpace raw))
        = if fv.isPointer then reflectSet fv (.ptrInt64 (some n)) else reflectSetInt fv n := by
    intro n hn fv
    rcases hn with ⟨he, h0⟩ | hp
    · rw [he, h0]; exact handleNumeric_empty _ fv
    · exact handleNumeric_int _ fv _ n (ParseInt_ne_nil _ n hp) hp
  rw [reflectMapToStruct_single lib _ f htag]
  obtain ⟨nm, tag, d, v⟩ := f
  simp only at htag hl hnum ⊢
  refine ⟨fun p e => ?_, fun p e hx => ?_, fun n hn hk => ?_, fun n hn p e => ?_,
    fun dv hne hp p e => ?_, fun he p e => ?_⟩
  · subst e
    cases hT : TrimSpace raw with
    | nil =>
      simp [bindField, hl, hT, handleString, Value.isPointer, reflectSet, Value.sameType,
        Value.zero]
    | cons c tl =>
      by_cases hq : c = dquote ∨ c = backtick ∨ c = squote
      · by_cases hlast : c = (c :: tl).getLast (List.cons_ne_nil c tl)
        · by_cases htl : tl = []
          · subst htl
            simp [bindField, hl, hT, handleString, Value.isPointer, hq]
          · have hlast2 : c = tl.getLast htl := by
              rw [List.getLast_cons htl] at hlast
              exact hlast
            simp [bindField, hl, hT, handleString, Value.isPointer, hq, htl, ← hlast2,
              reflectSet, Value.sameType, Value.zero]
        · have hlast2 : ¬ c = (c :: tl).getLast (List.cons_ne_nil c tl) := hlast
          simp [bindField, hl, hT, handleString, Value.isPointer, hq, hlast2]
      · simp [bindField, hl, hT, handleString, Value.isPointer, hq, reflectSet,
          Value.sameType, Value.zero]
  · subst e
    cases hT : TrimSpace raw with
    | nil =>
      simp [bindField, hl, hT, handleString, Value.isPointer, reflectSet, Value.sameType,
        Value.zero]
    | cons c tl =>
      have hc := hx c (by rw [hT]; exact List.mem_cons_self _ _)
      simp [bindField, hl, hT, handleString, Value.isPointer, hc.1, hc.2.1, hc.2.2,
        reflectSet, Value.sameType, Value.zero]
  · cases v <;> simp [Value.zero] at hk <;>
      simp [bindField, hl, hnum n hn, Value.isPointer, reflectSet, Value.sameType, Value.zero]
  · subst e
    simp [bindField, hl, hnum n hn, Value.isPointer, reflectSet, Value.sameType, Value.zero]
  · subst e
    simp [bindField, hl, handleTimeDuration, Value.isPointer, hne, hp, reflectSet,
      Value.sameType, Value.zero]
  · subst e
    simp [bindField, hl, handleTimeDuration, Value.isPointer, he, reflectSet,
      Value.sameType, Value.zero]

/-- C18 at the `*string` field `PtrString` bound from `hello`, at a `*int` field bound
from `12` and at a `*time.Duration` field bound from `5s`. -/
theorem C18_pointer_fields_from_text_witness :
    ((reflectMapToStruct plainLib [("PTR_STRING".toList, some "hello".toList)]
        [{ Name := "PtrString".toList, tagEnvVar := "PTR_STRING".toList,
           value := .ptrString none }]).1 ≠ .nil
      ∧ (reflectMapToStruct plainLib [("PTR_STRING".toList, some "hello".toList)]
        [{ Name := "PtrString".toList, tagEnvVar := "PTR_STRING".toList,
           value := .ptrString none }]).2.1
        = [{ Name := "PtrString".toList, tagEnvVar := "PTR_STRING".toList,
             value := .ptrString none }])
    ∧ (∃ msg, reflectMapToStruct plainLib [("PTR_INT".toList, some "12".toList)]
        [{ Name := "PtrInt".toList, tagEnvVar := "PTR_INT".toList, value := .ptrInt none }]
      = (.panic msg,
          [{ Name := "PtrInt".toList, tagEnvVar := "PTR_INT".toList, value := .ptrInt none }],
          mapStore [("PTR_INT".toList, some "12".toList)] "PTR_INT".toList
            (some (TrimSpace "12".toList))))
    ∧ (∃ msg, reflectMapToStruct
        { plainLib with
          ParseDuration := fun s => if s = "5s".toList then some 5000000000 else none }
        [("PtrDuration".toList, some "5s".toList)]
        [{ Name := "PtrDuration".toList, tagEnvVar := "PtrDuration".toList,
           value := .ptrDuration none }]
      = (.panic msg,
          [{ Name := "PtrDuration".toList, tagEnvVar := "PtrDuration".toList,
             value := .ptrDuration none }],
          mapStore [("PtrDuration".toList, some "5s".toList)] "PtrDuration".toList
            (some (TrimSpace "5s".toList)))) :=
  ⟨(C18_pointer_fields_from_text plainLib [("PTR_STRING".toList, some "hello".toList)]
      { Name := "PtrString".toList, tagEnvVar := "PTR_STRING".toList,
        value := .ptrString none } "hello".toList (by decide) (by decide)).1 none rfl,
    (C18_pointer_fields_from_text plainLib [("PTR_INT".toList, some "12".toList)]
      { Name := "PtrInt".toList, tagEnvVar := "PTR_INT".toList, value := .ptrInt none }
      "12".toList (by decide) (by decide)).2.2.1 12 (Or.inr (by decide)) (Or.inl rfl),
    (C18_pointer_fields_from_text
      { plainLib with
        ParseDuration := fun s => if s = "5s".toList then some 5000000000 else none }
      [("PtrDuration".toList, some "5s".toList)]
      { Name := "PtrDuration".toList, tagEnvVar := "PtrDuration".toList,
        value := .ptrDuration none } "5s".toList (by decide) (by decide)).2.2.2.2.1
      5000000000 (by decide) (by decide) none rfl⟩

/-! ## The fields of a struct, in the order of their declaration -/

theorem TrimSpace_idem (s : List Char) : TrimSpace (TrimSpace s) = TrimSpace s := by
  obtain ⟨a, b, -, -, -, hhead, hlast⟩ := TrimSpace_spec s
  generalize TrimSpace s = t at hhead hlast
  rcases List.eq_nil_or_concat t with rfl | ⟨init, z, rfl⟩
  · rfl
  · simp only [List.concat_eq_append] at hhead hlast ⊢
    have hz : isSpace z = false := hlast z (by simp)
    unfold TrimSpace
    have hd : (init ++ [z]).dropWhile isSpace = init ++ [z] := by
      cases init with
      | nil =>
        rw [List.nil_append, List.dropWhile_cons_of_neg (by simp [hz])]
      | cons y tl =>
        have hy : isSpace y = false := hhead y (by simp)
        rw [List.cons_append, List.dropWhile_cons_of_neg (by simp [hy])]
    rw [hd, List.rdropWhile_concat_neg _ _ _ (by simp [hz])]

theorem mapLookup_mapStore (m : envVarMap) (k k2 : List Char) (v : Option (List Char)) :
    mapLookup (mapStore m k v) k2 = if k = k2 then some v else mapLookup m k2 := by
  induction m with
  | nil => simp [mapStore, mapLookup]
  | cons p m ih =>
    obtain ⟨k1, v1⟩ := p
    by_cases h : k1 = k
    · subst h
      by_cases h2 : k1 = k2 <;> simp [mapStore, mapLookup, h2]
    · by_cases h2 : k1 = k2
      · subst h2
        simp [mapStore, mapLookup, h, Ne.symm h]
      · simp [mapStore, mapLookup, h, h2, ih]

theorem reflectSet_keeps (fv x : Value) (h : (reflectSet fv x).1 ≠ .nil) :
    (reflectSet fv x).2 = fv := by
  unfold reflectSet at h ⊢
  split <;> simp_all

theorem reflectSetString_keeps (fv : Value) (w : List Char)
    (h : (reflectSetString fv w).1 ≠ .nil) : (reflectSetString fv w).2 = fv := by
  cases fv <;> simp_all [reflectSetString]

theorem reflectSetInt_keeps (fv : Value) (n : Int)
    (h : (reflectSetInt fv n).1 ≠ .nil) : (reflectSetInt fv n).2 = fv := by
  cases fv <;> simp_all [reflectSetInt]

theorem reflectSetBool_keeps (fv : Value) (b : Bool)
    (h : (reflectSetBool fv b).1 ≠ .nil) : (reflectSetBool fv b).2 = fv := by
  cases fv <;> simp_all [reflectSetBool]

theorem handleString_keeps (name : List Char) (fv : Value) (val : Option (List Char))
    (h : (handleString name fv val).1 ≠ .nil) : (handleString name fv val).2 = fv := by
  have hassign : ∀ w : List Char,
      (if fv.isPointer then reflectSet fv (.string w) else reflectSetString fv w).1 ≠ .nil →
      (if fv.isPointer then reflectSet fv (.string w) else reflectSetString fv w).2 = fv := by
    intro w hw
    split at hw
    · rw [if_pos (by assumption)]; exact reflectSet_keeps _ _ hw
    · rw [if_neg (by assumption)]; exact reflectSetString_keeps _ _ hw
  unfold handleString at h ⊢
  cases val with
  | none =>
    simp only at h ⊢
    split at h
    · rw [if_pos (by assumption)]; exact reflectSet_keeps _ _ h
    · rw [if_neg (by assumption)]; exact reflectSet_keeps _ _ h
  | some v =>
    cases v with
    | nil => exact hassign [] h
    | cons c tl =>
      simp only at h ⊢
      split
      · split
        · rfl
        · split
          · rfl
          · rename_i h1 h2 h3
            rw [if_pos h1, if_neg h2, if_neg h3] at h
            exact hassign _ h
      · rename_i h1
        rw [if_neg h1] at h
        exact hassign _ h

theorem handleTimeDuration_keeps (lib : GoLib) (name : List Char) (fv : Value)
    (val : Option (List Char)) (h : (handleTimeDuration lib name fv val).1 ≠ .nil) :
    (handleTimeDuration lib name fv val).2 = fv := by
  unfold handleTimeDuration at h ⊢
  split
  · rename_i h1
    rw [if_pos h1] at h
    exact reflectSet_keeps _ _ h
  · rename_i h1
    rw [if_neg h1] at h
    split
    · rename_i h2
      rw [if_pos h2] at h
      split
      · rename_i h3
        rw [if_pos h3] at h
        exact reflectSet_keeps _ _ h
      · rename_i h3
        rw [if_neg h3] at h
        exact reflectSet_keeps _ _ h
    · rename_i h2
      rw [if_neg h2] at h
      cases hp : lib.ParseDuration (val.getD []) with
      | none => rfl
      | some res =>
        rw [hp] at h
        exact reflectSet_keeps _ _ h

theorem handleNumeric_keeps (name : List Char) (fv : Value) (val : Option (List Char))
    (h : (handleNumeric name fv val).1 ≠ .nil) : (handleNumeric name fv val).2 = fv := by
  unfold handleNumeric at h ⊢
  split
  · rename_i h1
    rw [if_pos h1] at h
    exact reflectSet_keeps _ _ h
  · rename_i h1
    rw [if_neg h1] at h
    simp only at h ⊢
    generalize (if val = none ∨ val = some [] then some 0 else ParseInt (val.getD [])) = parsed
      at h ⊢
    cases parsed with
    | none => rfl
    | some n =>
      simp only at h ⊢
      split
      · rename_i h3
        rw [if_pos h3] at h
        exact reflectSet_keeps _ _ h
      · rename_i h3
        rw [if_neg h3] at h
        exact reflectSetInt_keeps _ _ h

theorem handleBoolean_tail_keeps (name : List Char) (fv : Value) (parsed : Option Bool)
    (h : (match parsed with
      | none => ((.err { EnvVar := name, Reason := "not a valid boolean value" }, fv) :
          Result × Value)
      | some b =>
        if fv.isPointer then reflectSet fv (.ptrBool (some b))
        else reflectSetBool fv b).1 ≠ .nil) :
    (match parsed with
      | none => ((.err { EnvVar := name, Reason := "not a valid boolean value" }, fv) :
          Result × Value)
      | some b =>
        if fv.isPointer then reflectSet fv (.ptrBool (some b))
        else reflectSetBool fv b).2 = fv := by
  cases parsed with
  | none => rfl
  | some b =>
    simp only at h ⊢
    split
    · rename_i h3
      rw [if_pos h3] at h
      exact reflectSet_keeps _ _ h
    · rename_i h3
      rw [if_neg h3] at h
      exact reflectSetBool_keeps _ _ h

theorem handleBoolean_keeps (lib : GoLib) (name : List Char) (fv : Value)
    (val : Option (List Char)) (h : (handleBoolean lib name fv val).1 ≠ .nil) :
    (handleBoolean lib name fv val).2 = fv := by
  unfold handleBoolean at h ⊢
  split
  · rename_i h1
    rw [if_pos h1] at h
    exact reflectSet_keeps _ _ h
  · rename_i h1
    rw [if_neg h1] at h
    exact handleBoolean_tail_keeps name fv _ h

/-- A round of the loop that does not end with nil leaves the field as it was. -/
theorem bindField_value_of_not_nil (lib : GoLib) (src : envVarMap) (f : StructField)
    (h : (bindField lib src f).1 ≠ .nil) : (bindField lib src f).2.1 = f.value := by
  obtain ⟨nm, tag, d, v⟩ := f
  revert h
  simp only [bindField]
  generalize (match mapLookup src tag with
    | none => if d ≠ [] then some (TrimSpace d) else none
    | some none => none
    | some (some v) => some (TrimSpace v)) = val
  cases v <;> simp only <;> intro h <;>
    first
    | exact handleString_keeps _ _ _ h
    | exact handleTimeDuration_keeps _ _ _ _ h
    | exact handleNumeric_keeps _ _ _ h
    | exact handleBoolean_keeps _ _ _ _ h
    | trivial

theorem bindField_congr (lib : GoLib) (m1 m2 : envVarMap) (f : StructField)
    (h : trimmedLookup m1 f.tagEnvVar = trimmedLookup m2 f.tagEnvVar) :
    (bindField lib m1 f).1 = (bindField lib m2 f).1
      ∧ (bindField lib m1 f).2.1 = (bindField lib m2 f).2.1 := by
  unfold trimmedLookup at h
  simp only [bindField]
  rcases h1 : mapLookup m1 f.tagEnvVar with _ | _ | v1 <;>
    rcases h2 : mapLookup m2 f.tagEnvVar with _ | _ | v2 <;>
    simp_all

theorem bindField_map (lib : GoLib) (m : envVarMap) (f : StructField) (k : List Char) :
    trimmedLookup (bindField lib m f).2.2 k = trimmedLookup m k := by
  simp only [bindField, trimmedLookup]
  rcases h1 : mapLookup m f.tagEnvVar with _ | _ | v1
  · rfl
  · rfl
  · simp only
    rw [mapLookup_mapStore]
    by_cases hk : f.tagEnvVar = k
    · rw [if_pos hk, ← hk, h1]
      simp [TrimSpace_idem]
    · rw [if_neg hk]

theorem reflectMapToStruct_cons_skip (lib : GoLib) (m : envVarMap) (f : StructField)
    (rest : List StructField) (htag : f.tagEnvVar = []) :
    reflectMapToStruct lib m (f :: rest)
      = ((reflectMapToStruct lib m rest).1, f :: (reflectMapToStruct lib m rest).2.1,
          (reflectMapToStruct lib m rest).2.2) := by
  simp only [reflectMapToStruct]
  rw [if_pos htag]

theorem reflectMapToStruct_cons_nil (lib : GoLib) (m : envVarMap) (f : StructField)
    (rest : List StructField) (htag : f.tagEnvVar ≠ [])
    (hb : (bindField lib m f).1 = .nil) :
    reflectMapToStruct lib m (f :: rest)
      = ((reflectMapToStruct lib (bindField lib m f).2.2 rest).1,
          { f with value := (bindField lib m f).2.1 }
            :: (reflectMapToStruct lib (bindField lib m f).2.2 rest).2.1,
          (reflectMapToStruct lib (bindField lib m f).2.2 rest).2.2) := by
  simp only [reflectMapToStruct]
  rw [if_neg htag]
  rcases hq : bindField lib m f with ⟨r, v, s1⟩
  rw [hq] at hb
  simp only at hb
  subst hb
  rfl

theorem reflectMapToStruct_cons_stop (lib : GoLib) (m : envVarMap) (f : StructField)
    (rest : List StructField) (htag : f.tagEnvVar ≠ [])
    (hb : (bindField lib m f).1 ≠ .nil) :
    reflectMapToStruct lib m (f :: rest)
      = ((bindField lib m f).1, { f with value := (bindField lib m f).2.1 } :: rest,
          (bindField lib m f).2.2) := by
  rw [reflectMapToStruct, if_neg htag]
  rcases hq : bindField lib m f with ⟨r, v, s1⟩
  rw [hq] at hb
  cases r with
  | nil => exact absurd rfl hb
  | err e => rfl
  | panic msg => rfl

/-- The loop of `reflectMapToStruct` up to the first round that does not end with nil:
the fields before it are bound, each as it is bound from the map of the call, the field
of that round and the fields after it are left as they were. -/
theorem reflectMapToStruct_first_failure (lib : GoLib) (src : envVarMap)
    (pre : List StructField) (f : StructField) (post : List StructField) (m : envVarMap)
    (hm : ∀ k, trimmedLookup m k = trimmedLookup src k)
    (hpre : ∀ g ∈ pre, g.tagEnvVar ≠ [] → (bindField lib src g).1 = .nil)
    (htag : f.tagEnvVar ≠ []) (hf : (bindField lib src f).1 ≠ .nil) :
    (reflectMapToStruct lib m (pre ++ f :: post)).1 = (bindField lib src f).1
      ∧ (reflectMapToStruct lib m (pre ++ f :: post)).2.1
        = pre.map (boundField lib src) ++ f :: post := by
  induction pre generalizing m with
  | nil =>
    obtain ⟨c1, c2⟩ := bindField_congr lib m src f (hm _)
    have hb : (bindField lib m f).1 ≠ .nil := by rw [c1]; exact hf
    rw [List.nil_append, reflectMapToStruct_cons_stop lib m f post htag hb]
    refine ⟨c1, ?_⟩
    simp only [List.map_nil, List.nil_append]
    rw [bindField_value_of_not_nil lib m f hb]
  | cons g pre ih =>
    have hpre2 : ∀ x ∈ pre, x.tagEnvVar ≠ [] → (bindField lib src x).1 = .nil :=
      fun x hx => hpre x (List.mem_cons_of_mem _ hx)
    rw [List.cons_append]
    by_cases hg : g.tagEnvVar = []
    · rw [reflectMapToStruct_cons_skip lib m g _ hg]
      obtain ⟨i1, i2⟩ := ih m hm hpre2
      refine ⟨i1, ?_⟩
      simp only [List.map_cons, List.cons_append, i2, boundField, if_pos hg]
    · obtain ⟨c1, c2⟩ := bindField_congr lib m src g (hm _)
      have hb : (bindField lib m g).1 = .nil := by
        rw [c1]; exact hpre g (List.mem_cons_self _ _) hg
      rw [reflectMapToStruct_cons_nil lib m g _ hg hb]
      obtain ⟨i1, i2⟩ := ih (bindField lib m g).2.2
        (fun k => by rw [bindField_map]; exact hm k) hpre2
      refine ⟨i1, ?_⟩
      simp only [List.map_cons, List.cons_append, i2, boundField, if_neg hg, c2]

/-- A field without `envVar` tag takes no part in the loop of `reflectMapToStruct`. -/
theorem reflectMapToStruct_skip (lib : GoLib) (src : envVarMap)
    (pre : List StructField) (f : StructField) (post : List StructField)
    (htag : f.tagEnvVar = []) :
    ∃ a b, a.length = pre.length
      ∧ (reflectMapToStruct lib src (pre ++ post)).2.1 = a ++ b
      ∧ reflectMapToStruct lib src (pre ++ f :: post)
        = ((reflectMapToStruct lib src (pre ++ post)).1, a ++ f :: b,
            (reflectMapToStruct lib src (pre ++ post)).2.2) := by
  induction pre generalizing src with
  | nil =>
    refine ⟨[], (reflectMapToStruct lib src post).2.1, rfl, rfl, ?_⟩
    simp only [List.nil_append]
    exact reflectMapToStruct_cons_skip lib src f post htag
  | cons g pre ih =>
    simp only [List.cons_append]
    by_cases hg : g.tagEnvVar = []
    · obtain ⟨a, b, h1, h2, h3⟩ := ih src
      refine ⟨g :: a, b, by simp [h1], ?_, ?_⟩
      · rw [reflectMapToStruct_cons_skip lib src g _ hg, h2]; rfl
      · rw [reflectMapToStruct_cons_skip lib src g _ hg,
          reflectMapToStruct_cons_skip lib src g _ hg, h3]; rfl
    · by_cases hb : (bindField lib src g).1 = .nil
      · obtain ⟨a, b, h1, h2, h3⟩ := ih (bindField lib src g).2.2
        refine ⟨{ g with value := (bindField lib src g).2.1 } :: a, b, by simp [h1], ?_, ?_⟩
        · rw [reflectMapToStruct_cons_nil lib src g _ hg hb, h2]; rfl
        · rw [reflectMapToStruct_cons_nil lib src g _ hg hb,
            reflectMapToStruct_cons_nil lib src g _ hg hb, h3]; rfl
      · refine ⟨{ g with value := (bindField lib src g).2.1 } :: pre, post, by simp, ?_, ?_⟩
        · rw [reflectMapToStruct_cons_stop lib src g _ hg hb]; rfl
        · rw [reflectMapToStruct_cons_stop lib src g _ hg hb,
            reflectMapToStruct_cons_stop lib src g _ hg hb]; rfl

/-- C20: the fields are handled in the order of their declaration and the loop stops at
the first failure.  When every field with an `envVar` tag declared before `f` binds
without failure and `f` fails with the error `e`, binding returns `e`, each field
before `f` holds the value it is bound to (the one that binding it alone gives), and
`f` and the fields after it keep the values they had. -/
theorem C20_stops_at_first_failure (lib : GoLib) (src : envVarMap)
    (pre : List StructField) (f : StructField) (post : List StructField) (e : ErrSyntax)
    (hpre : ∀ g ∈ pre, g.tagEnvVar ≠ [] → (bindField lib src g).1 = .nil)
    (htag : f.tagEnvVar ≠ []) (hf : (bindField lib src f).1 = .err e) :
    (reflectMapToStruct lib src (pre ++ f :: post)).1 = .err e
      ∧ (reflectMapToStruct lib src (pre ++ f :: post)).2.1
        = pre.map (boundField lib src) ++ f :: post
      ∧ (∀ g ∈ pre, g.tagEnvVar ≠ [] →
          (reflectMapToStruct lib src [g]).1 = .nil
            ∧ (reflectMapToStruct lib src [g]).2.1 = [boundField lib src g])
      ∧ (reflectMapToStruct lib src [f]).1 = .err e := by
  obtain ⟨h1, h2⟩ := reflectMapToStruct_first_failure lib src pre f post src (fun _ => rfl)
    hpre htag (by rw [hf]; exact fun h => Result.noConfusion h)
  refine ⟨h1.trans hf, h2, fun g hg hgt => ?_, ?_⟩
  · rw [reflectMapToStruct_single lib src g hgt]
    exact ⟨hpre g hg hgt, by simp only [boundField, if_neg hgt]⟩
  · rw [reflectMapToStruct_single lib src f htag]
    exact hf

/-- C20 at a struct of four fields of which the third, a `bool`, is bound from
`maybe`. -/
theorem C20_stops_at_first_failure_witness :
    (reflectMapToStruct plainLib
        [("NUMBER".toList, some " 12 ".toList), ("BOOL".toList, some "maybe".toList),
          ("STRING".toList, some "new".toList)]
        ([{ Name := "Number".toList, tagEnvVar := "NUMBER".toList, value := .int 0 },
          { Name := "Note".toList, value := .string "keep".toList }]
          ++ { Name := "Boolean".toList, tagEnvVar := "BOOL".toList, value := .bool true }
          :: [{ Name := "Str".toList, tagEnvVar := "STRING".toList,
                value := .string "old".toList }])).1
      = .err { Line := 0, EnvVar := "BOOL".toList, Reason := "not a valid boolean value" }
    ∧ (reflectMapToStruct plainLib
        [("NUMBER".toList, some " 12 ".toList), ("BOOL".toList, some "maybe".toList),
          ("STRING".toList, some "new".toList)]
        ([{ Name := "Number".toList, tagEnvVar := "NUMBER".toList, value := .int 0 },
          { Name := "Note".toList, value := .string "keep".toList }]
          ++ { Name := "Boolean".toList, tagEnvVar := "BOOL".toList, value := .bool true }
          :: [{ Name := "Str".toList, tagEnvVar := "STRING".toList,
                value := .string "old".toList }])).2.1
      = [{ Name := "Number".toList, tagEnvVar := "NUMBER".toList, value := .int 12 },
          { Name := "Note".toList, value := .string "keep".toList },
          { Name := "Boolean".toList, tagEnvVar := "BOOL".toList, value := .bool true },
          { Name := "Str".toList, tagEnvVar := "STRING".toList,
            value := .string "old".toList }] :=
  ⟨(C20_stops_at_first_failure plainLib
      [("NUMBER".toList, some " 12 ".toList), ("BOOL".toList, some "maybe".toList),
        ("STRING".toList, some "new".toList)]
      [{ Name := "Number".toList, tagEnvVar := "NUMBER".toList, value := .int 0 },
        { Name := "Note".toList, value := .string "keep".toList }]
      { Name := "Boolean".toList, tagEnvVar := "BOOL".toList, value := .bool true }
      [{ Name := "Str".toList, tagEnvVar := "STRING".toList, value := .string "old".toList }]
      { Line := 0, EnvVar := "BOOL".toList, Reason := "not a valid boolean value" }
      (by decide) (by decide) (by decide)).1,
    (C20_stops_at_first_failure plainLib
      [("NUMBER".toList, some " 12 ".toList), ("BOOL".toList, some "maybe".toList),
        ("STRING".toList, some "new".toList)]
      [{ Name := "Number".toList, tagEnvVar := "NUMBER".toList, value := .int 0 },
        { Name := "Note".toList, value := .string "keep".toList }]
      { Name := "Boolean".toList, tagEnvVar := "BOOL".toList, value := .bool true }
      [{ Name := "Str".toList, tagEnvVar := "STRING".toList, value := .string "old".toList }]
      { Line := 0, EnvVar := "BOOL".toList, Reason := "not a valid boolean value" }
      (by decide) (by decide) (by decide)).2.1.trans (by decide)⟩

/-! ## The line counter and the stored error along the loops of the scanner -/

theorem read_line_count (ds : dotEnvScanner) (r : Char) (rest : List Char) :
    (ds.read r).line + (rest.count '\n' : Int) = ds.line + ((r :: rest).count '\n' : Int) := by
  by_cases h : r = '\n'
  · subst h
    simp only [dotEnvScanner.read, if_true, List.count_cons_self]
    push_cast
    omega
  · have h2 : ¬ (r == '\n') = true := by simpa using h
    simp [dotEnvScanner.read, h, List.count_cons]

theorem consumeRestLine_frame (ds : dotEnvScanner) (src : List Char) :
    (consumeRestLine ds src).1.line + ((consumeRestLine ds src).2.count '\n' : Int)
        = ds.line + (src.count '\n' : Int)
      ∧ (consumeRestLine ds src).1.lastErr = ds.lastErr := by
  induction src generalizing ds with
  | nil => simp [consumeRestLine, dotEnvScanner.eof]
  | cons r rest ih =>
    simp only [consumeRestLine]
    split
    · exact ⟨read_line_count ds r rest, rfl⟩
    · obtain ⟨h1, h2⟩ := ih (ds.read r)
      exact ⟨h1.trans (read_line_count ds r rest), h2⟩

theorem skipToEqual_frame (ds : dotEnvScanner) (src : List Char) :
    (skipToEqual ds src).1.line + ((skipToEqual ds src).2.count '\n' : Int)
        = ds.line + (src.count '\n' : Int)
      ∧ (skipToEqual ds src).1.lastErr = ds.lastErr := by
  induction src generalizing ds with
  | nil => simp [skipToEqual, dotEnvScanner.eof]
  | cons r rest ih =>
    simp only [skipToEqual]
    split
    · exact ⟨read_line_count ds r rest, rfl⟩
    · obtain ⟨h1, h2⟩ := ih (ds.read r)
      exact ⟨h1.trans (read_line_count ds r rest), h2⟩

theorem handleNameLoop_frame (ds : dotEnvScanner) (v src : List Char) :
    (handleNameLoop ds v src).2.1.line + ((handleNameLoop ds v src).2.2.count '\n' : Int)
        = ds.line + (src.count '\n' : Int)
      ∧ (handleNameLoop ds v src).2.1.lastErr = ds.lastErr
      ∧ ∀ e, (handleNameLoop ds v src).1 = .error e →
          e.Reason = "naked variable" ∨ e.Reason = "invalid variable name" := by
  induction src generalizing ds v with
  | nil =>
    simp [handleNameLoop, dotEnvScanner.eof]
  | cons r rest ih =>
    simp only [handleNameLoop]
    split_ifs with h1 h2 h3 h4 h5
    · exact ⟨read_line_count ds r rest, rfl, fun e h => (by cases h; exact Or.inl rfl)⟩
    · exact ⟨read_line_count ds r rest, rfl, fun e h => (by cases h)⟩
    · obtain ⟨k1, k2⟩ := skipToEqual_frame (ds.read r) rest
      exact ⟨k1.trans (read_line_count ds r rest), k2,
        fun e h => (by cases h; exact Or.inr rfl)⟩
    · obtain ⟨k1, k2⟩ := skipToEqual_frame (ds.read r) rest
      exact ⟨k1.trans (read_line_count ds r rest), k2, fun e h => (by cases h)⟩
    · exact ⟨read_line_count ds r rest, rfl, fun e h => (by cases h)⟩
    · obtain ⟨k1, k2, k3⟩ := ih (ds.read r) (v ++ [r])
      exact ⟨k1.trans (read_line_count ds r rest), k2, k3⟩

theorem handleQuotedValueLoop_frame (q : Option Char) (ds : dotEnvScanner)
    (v src : List Char) :
    (handleQuotedValueLoop q ds v src).2.1.line
          + ((handleQuotedValueLoop q ds v src).2.2.count '\n' : Int)
        = ds.line + (src.count '\n' : Int)
      ∧ (handleQuotedValueLoop q ds v src).2.1.lastErr = ds.lastErr
      ∧ ∀ e, (handleQuotedValueLoop q ds v src).1 = .error e →
          e = { Line := (handleQuotedValueLoop q ds v src).2.1.line,
                Reason := "missing closing quote" }
            ∧ (handleQuotedValueLoop q ds v src).2.2 = [] := by
  induction src generalizing ds v with
  | nil =>
    simp only [handleQuotedValueLoop, dotEnvScanner.eof, List.count_nil]
    refine ⟨trivial, trivial, fun e h => ?_⟩
    cases h
    exact ⟨rfl, trivial⟩
  | cons r rest ih =>
    simp only [handleQuotedValueLoop]
    split
    · exact ⟨read_line_count ds r rest, rfl, fun e h => (by cases h)⟩
    · obtain ⟨k1, k2, k3⟩ := ih (ds.read r) (v ++ [r])
      exact ⟨k1.trans (read_line_count ds r rest), k2, k3⟩

theorem handleValueLoop_frame (ds : dotEnvScanner) (v src : List Char) :
    (handleValueLoop ds v src).2.1.line + ((handleValueLoop ds v src).2.2.count '\n' : Int)
        = ds.line + (src.count '\n' : Int)
      ∧ (∀ e, (handleValueLoop ds v src).1 = .error e → e.Reason = "unsupported quote")
      ∧ ((handleValueLoop ds v src).2.1.lastErr = ds.lastErr
          ∨ ((handleValueLoop ds v src).2.1.lastErr
                = some { Line := (handleValueLoop ds v src).2.1.line,
                         Reason := "missing closing quote" }
              ∧ (handleValueLoop ds v src).2.2 = [])) := by
  induction src generalizing ds v with
  | nil =>
    simp [handleValueLoop, dotEnvScanner.eof]
  | cons r rest ih =>
    simp only [handleValueLoop]
    split_ifs with h1 h2 h3 h4
    · obtain ⟨k1, k2, k3⟩ := handleQuotedValueLoop_frame (ds.read r).ch (ds.read r)
        (runeString (ds.read r).ch) rest
      simp only [handleQuotedValue]
      rcases hq : handleQuotedValueLoop (ds.read r).ch (ds.read r)
        (runeString (ds.read r).ch) rest with ⟨res, ds2, rest2⟩
      rw [hq] at k1 k2 k3
      simp only at k1 k2 k3
      cases res with
      | error err =>
        obtain ⟨e1, e2⟩ := k3 err rfl
        simp only
        refine ⟨k1.trans (read_line_count ds r rest), fun e h => (by cases h), Or.inr ⟨?_, e2⟩⟩
        rw [e1]
      | ok quoted =>
        simp only
        split
        · exact ⟨k1.trans (read_line_count ds r rest), fun e h => (by cases h), Or.inl k2⟩
        · exact ⟨k1.trans (read_line_count ds r rest), fun e h => (by cases h), Or.inl k2⟩
    · obtain ⟨k1, k2⟩ := consumeRestLine_frame (ds.read r) rest
      exact ⟨k1.trans (read_line_count ds r rest), fun e h => (by cases h), Or.inl k2⟩
    · exact ⟨read_line_count ds r rest, fun e h => (by cases h), Or.inl rfl⟩
    · exact ⟨read_line_count ds r rest, fun e h => (by cases h; rfl), Or.inl rfl⟩
    · obtain ⟨k1, k2, k3⟩ := ih (ds.read r) (v ++ [r])
      exact ⟨k1.trans (read_line_count ds r rest), k2, k3⟩

/-- The loop of `parse` from a state without stored error: when it ends without error
every rune has been read, so the line counter has advanced by the number of line feeds
of the input; an error has one of four reasons, and a "missing closing quote" carries
the line counter at the end of the input. -/
theorem parseLoop_frame (fuel : Nat) (ds : dotEnvScanner) (src : List Char)
    (hf : src.length < fuel) (hE : ds.lastErr = none) :
    ((parseLoop fuel ds src).1 = none →
        (parseLoop fuel ds src).2.line = ds.line + (src.count '\n' : Int)
          ∧ (parseLoop fuel ds src).2.lastErr = none)
      ∧ ∀ e, (parseLoop fuel ds src).1 = some e →
          e.Reason = "naked variable" ∨ e.Reason = "invalid variable name"
            ∨ e.Reason = "unsupported quote"
            ∨ (e.Reason = "missing closing quote"
                ∧ e.Line = ds.line + (src.count '\n' : Int)) := by
  induction fuel generalizing ds src with
  | zero => omega
  | succ fuel ih =>
    cases src with
    | nil =>
      simp only [parseLoop, dotEnvScanner.eof, List.count_nil]
      exact ⟨fun _ => ⟨by simp, hE⟩, fun e h => (by cases h)⟩
    | cons r rest =>
      simp only [List.length_cons, Nat.add_lt_add_iff_right] at hf
      have hR := read_line_count ds r rest
      simp only [parseLoop]
      split_ifs with h1 h2
      · obtain ⟨i1, i2⟩ := ih (ds.read r) rest hf hE
        rw [← hR]
        exact ⟨i1, i2⟩
      · obtain ⟨c1, c2⟩ := consumeRestLine_frame (ds.read r) rest
        have hl := consumeRestLine_length (ds.read r) rest
        obtain ⟨i1, i2⟩ := ih (consumeRestLine (ds.read r) rest).1
          (consumeRestLine (ds.read r) rest).2 (by omega) (by rw [c2]; exact hE)
        rw [← hR, ← c1]
        exact ⟨i1, i2⟩
      · obtain ⟨n1, n2, n3⟩ := handleNameLoop_frame (ds.read r) (runeString (ds.read r).ch) rest
        have nl := handleNameLoop_length (ds.read r) (runeString (ds.read r).ch) rest
        simp only [handleName]
        rcases hN : handleNameLoop (ds.read r) (runeString (ds.read r).ch) rest
          with ⟨res, ds2, rest2⟩
        rw [hN] at n1 n2 n3 nl
        simp only at n1 n2 n3 nl
        have hE2 : ds2.lastErr = none := by rw [n2]; exact hE
        cases res with
        | error err =>
          simp only
          refine ⟨fun h => (by cases h), fun e h => ?_⟩
          cases h
          rcases n3 _ rfl with k | k
          · exact Or.inl k
          · exact Or.inr (Or.inl k)
        | ok p =>
          obtain ⟨varName, naked⟩ := p
          simp only
          split_ifs with hn
          · obtain ⟨v1, v2, v3⟩ := handleValueLoop_frame ds2 [] rest2
            have vl := handleValueLoop_length ds2 [] rest2
            simp only [handleValue]
            rcases hV : handleValueLoop ds2 [] rest2 with ⟨res3, ds3, rest3⟩
            rw [hV] at v1 v2 v3 vl
            simp only at v1 v2 v3 vl
            cases res3 with
            | error err =>
              simp only
              refine ⟨fun h => (by cases h), fun e h => ?_⟩
              cases h
              exact Or.inr (Or.inr (Or.inl (v2 _ rfl)))
            | ok value =>
              simp only
              cases hL : ds3.lastErr with
              | some err =>
                simp only
                refine ⟨fun h => (by cases h), fun e h => ?_⟩
                cases h
                rcases v3 with k | ⟨k1, k2⟩
                · rw [hL, hE2] at k
                  cases k
                · rw [hL] at k1
                  cases k1
                  refine Or.inr (Or.inr (Or.inr ⟨rfl, ?_⟩))
                  simp only
                  rw [k2] at v1
                  simp only [List.count_nil, Nat.cast_zero, add_zero] at v1
                  rw [v1, n1, hR]
              | none =>
                simp only
                obtain ⟨i1, i2⟩ := ih
                  { ds3 with vars := mapStore ds3.vars varName (some value), lastErr := none }
                  rest3 (by omega) rfl
                simp only at i1 i2
                rw [← hR, ← n1, ← v1]
                exact ⟨i1, i2⟩
          · cases hL : ds2.lastErr with
            | some err => rw [hE2] at hL; cases hL
            | none =>
              simp only
              obtain ⟨i1, i2⟩ := ih
                { ds2 with vars := mapStore ds2.vars varName none, lastErr := none } rest2
                (by omega) rfl
              simp only at i1 i2
              rw [← hR, ← n1]
              exact ⟨i1, i2⟩

/-! ## The errors of the binder -/

theorem reflectSet_not_err (fv x : Value) (e : ErrSyntax) : (reflectSet fv x).1 ≠ .err e := by
  unfold reflectSet
  split <;> simp

theorem reflectSetString_not_err (fv : Value) (w : List Char) (e : ErrSyntax) :
    (reflectSetString fv w).1 ≠ .err e := by
  cases fv <;> simp [reflectSetString]

theorem reflectSetInt_not_err (fv : Value) (n : Int) (e : ErrSyntax) :
    (reflectSetInt fv n).1 ≠ .err e := by
  cases fv <;> simp [reflectSetInt]

theorem reflectSetBool_not_err (fv : Value) (b : Bool) (e : ErrSyntax) :
    (reflectSetBool fv b).1 ≠ .err e := by
  cases fv <;> simp [reflectSetBool]

theorem handleString_err (name : List Char) (fv : Value) (val : Option (List Char))
    (e : ErrSyntax) (h : (handleString name fv val).1 = .err e) :
    e = { Line := 0, EnvVar := name, Reason := "missing closing quote" } := by
  have hassign : ∀ w : List Char,
      (if fv.isPointer then reflectSet fv (.string w) else reflectSetString fv w).1
        ≠ .err e := by
    intro w
    split
    · exact reflectSet_not_err _ _ e
    · exact reflectSetString_not_err _ _ e
  unfold handleString at h
  cases val with
  | none =>
    simp only at h
    split at h
    · exact absurd h (reflectSet_not_err _ _ e)
    · exact absurd h (reflectSet_not_err _ _ e)
  | some v =>
    cases v with
    | nil => exact absurd h (hassign [])
    | cons c tl =>
      simp only at h
      split at h
      · split at h
        · simp only [Result.err.injEq] at h
          exact h.symm
        · split at h
          · cases h
          · exact absurd h (hassign _)
      · exact absurd h (hassign _)

theorem handleTimeDuration_err (lib : GoLib) (name : List Char) (fv : Value)
    (val : Option (List Char)) (e : ErrSyntax)
    (h : (handleTimeDuration lib name fv val).1 = .err e) :
    e = { Line := 0, EnvVar := name, Reason := "not parsable as Go duration string" } := by
  unfold handleTimeDuration at h
  split at h
  · exact absurd h (reflectSet_not_err _ _ e)
  · split at h
    · split at h
      · exact absurd h (reflectSet_not_err _ _ e)
      · exact absurd h (reflectSet_not_err _ _ e)
    · cases hp : lib.ParseDuration (val.getD []) with
      | none =>
        rw [hp] at h
        simp only [Result.err.injEq] at h
        exact h.symm
      | some res =>
        rw [hp] at h
        exact absurd h (reflectSet_not_err _ _ e)

theorem handleNumeric_tail_err (name : List Char) (fv : Value) (parsed : Option Int)
    (e : ErrSyntax)
    (h : (match parsed with
      | none => ((.err { EnvVar := name, Reason := "number not parsable" }, fv) :
          Result × Value)
      | some n =>
        if fv.isPointer then reflectSet fv (.ptrInt64 (some n))
        else reflectSetInt fv n).1 = .err e) :
    e = { Line := 0, EnvVar := name, Reason := "number not parsable" } := by
  cases parsed with
  | none =>
    simp only [Result.err.injEq] at h
    exact h.symm
  | some n =>
    simp only at h
    split at h
    · exact absurd h (reflectSet_not_err _ _ e)
    · exact absurd h (reflectSetInt_not_err _ _ e)

theorem handleNumeric_err_reason (name : List Char) (fv : Value) (val : Option (List Char))
    (e : ErrSyntax) (h : (handleNumeric name fv val).1 = .err e) :
    e = { Line := 0, EnvVar := name, Reason := "number not parsable" } := by
  unfold handleNumeric at h
  split at h
  · exact absurd h (reflectSet_not_err _ _ e)
  · exact handleNumeric_tail_err name fv _ e h

theorem handleBoolean_tail_err (name : List Char) (fv : Value) (parsed : Option Bool)
    (e : ErrSyntax)
    (h : (match parsed with
      | none => ((.err { EnvVar := name, Reason := "not a valid boolean value" }, fv) :
          Result × Value)
      | some b =>
        if fv.isPointer then reflectSet fv (.ptrBool (some b))
        else reflectSetBool fv b).1 = .err e) :
    e = { Line := 0, EnvVar := name, Reason := "not a valid boolean value" } := by
  cases parsed with
  | none =>
    simp only [Result.err.injEq] at h
    exact h.symm
  | some b =>
    simp only at h
    split at h
    · exact absurd h (reflectSet_not_err _ _ e)
    · exact absurd h (reflectSetBool_not_err _ _ e)

theorem handleBoolean_err_reason (lib : GoLib) (name : List Char) (fv : Value)
    (val : Option (List Char)) (e : ErrSyntax)
    (h : (handleBoolean lib name fv val).1 = .err e) :
    e = { Line := 0, EnvVar := name, Reason := "not a valid boolean value" } := by
  unfold handleBoolean at h
  split at h
  · exact absurd h (reflectSet_not_err _ _ e)
  · exact handleBoolean_tail_err name fv _ e h

/-- An error of one round of the loop of `reflectMapToStruct` carries the name of the
variable, no line, and one of four reasons, each for the types of its handler. -/
theorem bindField_err (lib : GoLib) (src : envVarMap) (f : StructField) (e : ErrSyntax)
    (h : (bindField lib src f).1 = .err e) :
    e.Line = 0 ∧ e.EnvVar = f.tagEnvVar
      ∧ (e.Reason = "missing closing quote" ∨ e.Reason = "number not parsable"
          ∨ e.Reason = "not parsable as Go duration string"
          ∨ e.Reason = "not a valid boolean value") := by
  obtain ⟨nm, tag, d, v⟩ := f
  revert h
  simp only [bindField]
  generalize (match mapLookup src tag with
    | none => if d ≠ [] then some (TrimSpace d) else none
    | some none => none
    | some (some v) => some (TrimSpace v)) = val
  cases v <;> simp only <;> intro h <;>
    first
    | (rw [handleString_err _ _ _ e h]; exact ⟨rfl, rfl, Or.inl rfl⟩)
    | (rw [handleTimeDuration_err _ _ _ _ e h]; exact ⟨rfl, rfl, Or.inr (Or.inr (Or.inl rfl))⟩)
    | (rw [handleNumeric_err_reason _ _ _ e h]; exact ⟨rfl, rfl, Or.inr (Or.inl rfl)⟩)
    | (rw [handleBoolean_err_reason _ _ _ _ e h];
       exact ⟨rfl, rfl, Or.inr (Or.inr (Or.inr rfl))⟩)
    | cases h

/-- The result of `reflectMapToStruct` is nil or the result of the round of one field
that has an `envVar` tag, as that field is bound from the map of the call. -/
theorem reflectMapToStruct_result (lib : GoLib) (src : envVarMap) (dest : List StructField)
    (m : envVarMap) (hm : ∀ k, trimmedLookup m k = trimmedLookup src k) :
    (reflectMapToStruct lib m dest).1 = .nil
      ∨ ∃ f ∈ dest, f.tagEnvVar ≠ []
          ∧ (reflectMapToStruct lib m dest).1 = (bindField lib src f).1
          ∧ (bindField lib src f).1 ≠ .nil := by
  induction dest generalizing m with
  | nil => exact Or.inl rfl
  | cons g rest ih =>
    by_cases hg : g.tagEnvVar = []
    · rw [reflectMapToStruct_cons_skip lib m g rest hg]
      rcases ih m hm with h | ⟨f, hf, h1, h2, h3⟩
      · exact Or.inl h
      · exact Or.inr ⟨f, List.mem_cons_of_mem _ hf, h1, h2, h3⟩
    · obtain ⟨c1, -⟩ := bindField_congr lib m src g (hm _)
      by_cases hb : (bindField lib m g).1 = .nil
      · rw [reflectMapToStruct_cons_nil lib m g rest hg hb]
        rcases ih (bindField lib m g).2.2 (fun k => by rw [bindField_map]; exact hm k)
          with h | ⟨f, hf, h1, h2, h3⟩
        · exact Or.inl h
        · exact Or.inr ⟨f, List.mem_cons_of_mem _ hf, h1, h2, h3⟩
      · rw [reflectMapToStruct_cons_stop lib m g rest hg hb]
        exact Or.inr ⟨g, List.mem_cons_self _ _, hg, c1, by rw [← c1]; exact hb⟩

/-! ## The reasons of the errors -/

theorem parse_frame (ds : dotEnvScanner) (r : List Char) (hE : ds.lastErr = none) :
    ((parse ds r).1 = none → (parse ds r).2.line = 1 + (r.count '\n' : Int))
      ∧ ∀ e, (parse ds r).1 = some e →
          e.Reason = "naked variable" ∨ e.Reason = "invalid variable name"
            ∨ e.Reason = "unsupported quote"
            ∨ (e.Reason = "missing closing quote" ∧ e.Line = 1 + (r.count '\n' : Int)) := by
  obtain ⟨h1, h2⟩ := parseLoop_frame (r.length + 1) { ds with line := 1, vars := [] } r
    (Nat.lt_succ_self _) hE
  exact ⟨fun h => (h1 h).1, h2⟩

theorem dotEnvToStruct_bind_err (lib : GoLib) (s : dotEnvScanner) (dest : List StructField)
    (r : List Char) (s1 : dotEnvScanner) (e : ErrSyntax) (dest1 : List StructField)
    (vars1 : envVarMap) (h : parse s r = (none, s1))
    (hb : reflectMapToStruct lib s1.vars dest = (.err e, dest1, vars1)) :
    dotEnvToStruct lib s dest r
      = (.err { e with Line := s1.line }, dest1, { s1 with vars := vars1 }) := by
  simp [dotEnvToStruct, h, hb]

theorem reflectMapToStruct_err (lib : GoLib) (src : envVarMap) (dest : List StructField)
    (e : ErrSyntax) (h : (reflectMapToStruct lib src dest).1 = .err e) :
    ∃ f ∈ dest, f.tagEnvVar ≠ [] ∧ (bindField lib src f).1 = .err e := by
  rcases reflectMapToStruct_result lib src dest src (fun _ => rfl) with h1 | ⟨f, hf, h1, h2, -⟩
  · rw [h] at h1
    cases h1
  · exact ⟨f, hf, h1, by rw [← h2]; exact h⟩

/-- The errors of `dotEnvToStruct`: an error of the scanner as it is, or an error of the
binder with the line counter of the scanner in place of its line. -/
theorem dotEnvToStruct_err (lib : GoLib) (s : dotEnvScanner) (dest : List StructField)
    (r : List Char) (e : ErrSyntax) (h : (dotEnvToStruct lib s dest r).1 = .err e) :
    (parse s r).1 = some e
      ∨ ((parse s r).1 = none
          ∧ ∃ e0, (reflectMapToStruct lib (parse s r).2.vars dest).1 = .err e0
              ∧ e = { e0 with Line := (parse s r).2.line }) := by
  rcases hp : parse s r with ⟨po, s1⟩
  cases po with
  | some err =>
    rw [dotEnvToStruct_parse_err lib s dest r err s1 hp] at h
    simp only [Result.err.injEq] at h
    exact Or.inl (by rw [h])
  | none =>
    right
    refine ⟨rfl, ?_⟩
    rcases hR : reflectMapToStruct lib s1.vars dest with ⟨res, d1, v1⟩
    cases res with
    | nil =>
      rw [dotEnvToStruct_bind_nil lib s dest r s1 d1 v1 hp hR] at h
      cases h
    | err e0 =>
      rw [dotEnvToStruct_bind_err lib s dest r s1 e0 d1 v1 hp hR] at h
      simp only [Result.err.injEq] at h
      exact ⟨e0, rfl, h.symm⟩
    | panic msg =>
      simp [dotEnvToStruct, hp, hR] at h

theorem dotEnvToStruct_reason (lib : GoLib) (s : dotEnvScanner) (dest : List StructField)
    (r : List Char) (e : ErrSyntax) (hE : s.lastErr = none)
    (h : (dotEnvToStruct lib s dest r).1 = .err e) : e.Reason ∈ syntaxReasons := by
  rcases dotEnvToStruct_err lib s dest r e h with h1 | ⟨-, e0, h1, h2⟩
  · rcases (parse_frame s r hE).2 e h1 with k | k | k | ⟨k, -⟩ <;> rw [k] <;> decide
  · obtain ⟨f, -, -, hb⟩ := reflectMapToStruct_err lib _ dest e0 h1
    obtain ⟨-, -, k⟩ := bindField_err lib _ f e0 hb
    rw [h2]
    rcases k with k | k | k | k <;> simp only [k] <;> decide

/-- C21, with the seven strings as the specification lists them: a `time.Duration` field
bound from `Not a Duration` fails with the reason "not parsable as Go duration
string", which is none of the seven. -/
theorem C21_duration_reason_names_go :
    reflectMapToStruct plainLib [("Duration".toList, some "Not a Duration".toList)]
        [{ Name := "Duration".toList, tagEnvVar := "Duration".toList, value := .duration 0 }]
      = (.err { Line := 0, EnvVar := "Duration".toList,
                Reason := "not parsable as Go duration string" },
          [{ Name := "Duration".toList, tagEnvVar := "Duration".toList, value := .duration 0 }],
          [("Duration".toList, some "Not a Duration".toList)])
    ∧ NodeJSDotEnv plainLib
        [{ Name := "Duration".toList, tagEnvVar := "Duration".toList, value := .duration 0 }]
        "Duration=Not a Duration".toList
      = (.err { Line := 1, EnvVar := "Duration".toList,
                Reason := "not parsable as Go duration string" },
          [{ Name := "Duration".toList, tagEnvVar := "Duration".toList, value := .duration 0 }])
    ∧ "not parsable as Go duration string"
      ∉ ["naked variable", "invalid variable name", "missing closing quote",
          "unsupported quote", "number not parsable", "not parsable as duration string",
          "not a valid boolean value"] := by
  decide

/-- C21 (amended): every `ErrSyntax` that scanning or binding returns has one of the
seven reasons of `syntaxReasons`, the sixth being "not parsable as Go duration string":
for `parse` from a scanner without stored error, for `reflectMapToStruct`, for
`NodeJSDotEnv`, `DjangoDotEnv` and `OSEnviron`.  A `time.Duration` field bound from a
text that is not empty and that `time.ParseDuration` rejects fails with that sixth
reason. -/
theorem C21_reasons_of_errors (lib : GoLib) :
    (∀ (ds : dotEnvScanner) (r : List Char) (e : ErrSyntax),
        ds.lastErr = none → (parse ds r).1 = some e → e.Reason ∈ syntaxReasons)
      ∧ (∀ (src : envVarMap) (dest : List StructField) (e : ErrSyntax),
          (reflectMapToStruct lib src dest).1 = .err e → e.Reason ∈ syntaxReasons)
      ∧ (∀ (dest : List StructField) (r : List Char) (e : ErrSyntax),
          (NodeJSDotEnv lib dest r).1 = .err e → e.Reason ∈ syntaxReasons)
      ∧ (∀ (dest : List StructField) (r : List Char) (e : ErrSyntax),
          (DjangoDotEnv lib dest r).1 = .err e → e.Reason ∈ syntaxReasons)
      ∧ (∀ (environ : List (List Char)) (dest : List StructField) (e : ErrSyntax),
          (OSEnviron lib environ dest).1 = .err e → e.Reason ∈ syntaxReasons)
      ∧ (∀ (src : envVarMap) (f : StructField) (raw : List Char) (old : Int),
          f.tagEnvVar ≠ [] → mapLookup src f.tagEnvVar = some (some raw) →
          f.value = .duration old → TrimSpace raw ≠ [] →
          lib.ParseDuration (TrimSpace raw) = none →
          reflectMapToStruct lib src [f]
            = (.err { Line := 0, EnvVar := f.tagEnvVar,
                      Reason := "not parsable as Go duration string" },
                [f], mapStore src f.tagEnvVar (some (TrimSpace raw)))) := by
  have hbind : ∀ (src : envVarMap) (dest : List StructField) (e : ErrSyntax),
      (reflectMapToStruct lib src dest).1 = .err e → e.Reason ∈ syntaxReasons := by
    intro src dest e h
    obtain ⟨f, -, -, hb⟩ := reflectMapToStruct_err lib src dest e h
    obtain ⟨-, -, k⟩ := bindField_err lib src f e hb
    rcases k with k | k | k | k <;> rw [k] <;> decide
  refine ⟨fun ds r e hE h => ?_, hbind, fun dest r e h => ?_, fun dest r e h => ?_,
    fun environ dest e h => ?_, fun src f raw old htag hl hv hne hp => ?_⟩
  · rcases (parse_frame ds r hE).2 e h with k | k | k | ⟨k, -⟩ <;> rw [k] <;> decide
  · exact dotEnvToStruct_reason lib nodeJSScanner dest r e rfl h
  · exact dotEnvToStruct_reason lib djangoScanner dest r e rfl h
  · exact hbind (environMap environ) dest e h
  · rw [reflectMapToStruct_single lib _ f htag]
    obtain ⟨nm, tag, d, v⟩ := f
    simp only at htag hl hv
    subst hv
    simp [bindField, hl, handleTimeDuration, Value.isPointer, hne, hp]

/-- C21 (amended) at the text `NUMBER=Not a number` bound to an `int` field under
NodeJSDotEnv. -/
theorem C21_reasons_of_errors_witness :
    (NodeJSDotEnv plainLib
        [{ Name := "Number".toList, tagEnvVar := "NUMBER".toList, value := .int 0 }]
        "NUMBER=Not a number".toList).1
      = .err { Line := 1, EnvVar := "NUMBER".toList, Reason := "number not parsable" }
    ∧ "number not parsable" ∈ syntaxReasons :=
  ⟨by decide,
    (C21_reasons_of_errors plainLib).2.2.1
      [{ Name := "Number".toList, tagEnvVar := "NUMBER".toList, value := .int 0 }]
      "NUMBER=Not a number".toList
      { Line := 1, EnvVar := "NUMBER".toList, Reason := "number not parsable" } (by decide)⟩

/-! ## A value that is one quote character -/

theorem handleString_string_cases (name old : List Char) (val : Option (List Char)) :
    ((∃ q, (q = dquote ∨ q = backtick ∨ q = squote) ∧ val = some [q]) →
        handleString name (.string old) val = (.panic sliceBoundsPanic, .string old))
      ∧ (¬ (∃ q, (q = dquote ∨ q = backtick ∨ q = squote) ∧ val = some [q]) →
        (handleString name (.string old) val).1 = .nil
          ∨ handleString name (.string old) val
            = (.err { Line := 0, EnvVar := name, Reason := "missing closing quote" },
                .string old)) := by
  constructor
  · rintro ⟨q, hq, rfl⟩
    simp [handleString, hq, sliceBoundsPanic]
  · intro hno
    cases val with
    | none => left; simp [handleString, Value.isPointer, reflectSet, Value.sameType, Value.zero]
    | some v =>
      cases v with
      | nil => left; simp [handleString, Value.isPointer, reflectSetString]
      | cons c tl =>
        by_cases hq : c = dquote ∨ c = backtick ∨ c = squote
        · by_cases hlast : c = (c :: tl).getLast (List.cons_ne_nil c tl)
          · have htl : tl ≠ [] := by
              rintro rfl
              exact hno ⟨c, hq, rfl⟩
            left
            simp only [handleString, Value.isPointer]
            rw [if_pos hq, if_neg (not_not.mpr hlast), if_neg htl]
            simp [reflectSetString]
          · right
            simp only [handleString, Value.isPointer]
            rw [if_pos hq, if_pos hlast]
        · left
          simp only [handleString, Value.isPointer]
          rw [if_neg hq]
          simp [reflectSetString]

theorem bindField_string (lib : GoLib) (src : envVarMap) (f : StructField)
    (old : List Char) (hv : f.value = .string old) :
    ∃ val, (bindField lib src f).1 = (handleString f.tagEnvVar (.string old) val).1 := by
  obtain ⟨nm, tag, d, v⟩ := f
  simp only at hv
  subst hv
  exact ⟨_, rfl⟩

theorem bindField_string_cases (lib : GoLib) (src : envVarMap) (f : StructField)
    (old : List Char) (hv : f.value = .string old) :
    (bindField lib src f).1 = .nil ∨ (∃ e, (bindField lib src f).1 = .err e)
      ∨ (bindField lib src f).1 = .panic sliceBoundsPanic := by
  obtain ⟨val, hval⟩ := bindField_string lib src f old hv
  rw [hval]
  obtain ⟨h1, h2⟩ := handleString_string_cases f.tagEnvVar old val
  by_cases hq : ∃ q, (q = dquote ∨ q = backtick ∨ q = squote) ∧ val = some [q]
  · right; right
    rw [h1 hq]
  · rcases h2 hq with k | k
    · exact Or.inl k
    · exact Or.inr (Or.inl ⟨_, by rw [k]⟩)

/-- C26: binding a `string` field whose variable is in the map with a value.  When the
trimmed value is one quote character, the first and the last byte are equal and the
slice `v[1:0]` panics: `reflectMapToStruct` ends with that panic and not with an
error, the field being left as it was.  For every other value it returns nil or the
"missing closing quote" error.  A struct whose fields with an `envVar` tag are all of
type `string` is bound with the result nil, an error, or that panic, which then is the
panic of one of its fields. -/
theorem C26_single_quote_character_panics (lib : GoLib) (src : envVarMap)
    (f : StructField) (raw old : List Char) (htag : f.tagEnvVar ≠ [])
    (hl : mapLookup src f.tagEnvVar = some (some raw)) (hv : f.value = .string old) :
    ((∃ q, (q = dquote ∨ q = backtick ∨ q = squote) ∧ TrimSpace raw = [q]) →
        reflectMapToStruct lib src [f]
          = (.panic sliceBoundsPanic, [f], mapStore src f.tagEnvVar (some (TrimSpace raw))))
      ∧ (¬ (∃ q, (q = dquote ∨ q = backtick ∨ q = squote) ∧ TrimSpace raw = [q]) →
        (reflectMapToStruct lib src [f]).1 = .nil
          ∨ (reflectMapToStruct lib src [f]).1
            = .err { Line := 0, EnvVar := f.tagEnvVar, Reason := "missing closing quote" })
      ∧ (∀ dest : List StructField,
          (∀ g ∈ dest, g.tagEnvVar ≠ [] → ∃ o, g.value = .string o) →
          (reflectMapToStruct lib src dest).1 = .nil
            ∨ (∃ e, (reflectMapToStruct lib src dest).1 = .err e)
            ∨ ((reflectMapToStruct lib src dest).1 = .panic sliceBoundsPanic
                ∧ ∃ g ∈ dest, g.tagEnvVar ≠ []
                    ∧ (bindField lib src g).1 = .panic sliceBoundsPanic)) := by
  have hB : bindField lib src f
      = ((handleString f.tagEnvVar (.string old) (some (TrimSpace raw))).1,
          (handleString f.tagEnvVar (.string old) (some (TrimSpace raw))).2,
          mapStore src f.tagEnvVar (some (TrimSpace raw))) := by
    obtain ⟨nm, tag, d, v⟩ := f
    simp only at htag hl hv
    subst hv
    simp [bindField, hl]
  obtain ⟨h1, h2⟩ := handleString_string_cases f.tagEnvVar old (some (TrimSpace raw))
  refine ⟨fun hq => ?_, fun hq => ?_, fun dest hdest => ?_⟩
  · have hq2 : ∃ q, (q = dquote ∨ q = backtick ∨ q = squote)
        ∧ some (TrimSpace raw) = some [q] := by
      obtain ⟨q, a, b⟩ := hq
      exact ⟨q, a, by rw [b]⟩
    rw [reflectMapToStruct_single lib src f htag, hB, h1 hq2]
    simp only [← hv]
  · have hq2 : ¬ ∃ q, (q = dquote ∨ q = backtick ∨ q = squote)
        ∧ some (TrimSpace raw) = some [q] := by
      rintro ⟨q, a, b⟩
      exact hq ⟨q, a, Option.some.inj b⟩
    rw [reflectMapToStruct_single lib src f htag, hB]
    rcases h2 hq2 with k | k
    · exact Or.inl k
    · exact Or.inr (by rw [k])
  · rcases reflectMapToStruct_result lib src dest src (fun _ => rfl)
      with k | ⟨g, hg, k1, k2, -⟩
    · exact Or.inl k
    · obtain ⟨o, ho⟩ := hdest g hg k1
      rcases bindField_string_cases lib src g o ho with c | ⟨e, c⟩ | c
      · exact Or.inl (by rw [k2, c])
      · exact Or.inr (Or.inl ⟨e, by rw [k2, c]⟩)
      · exact Or.inr (Or.inr ⟨by rw [k2, c], g, hg, k1, c⟩)

/-- C26 at a variable of the environment whose value is one double quote. -/
theorem C26_single_quote_character_panics_witness :
    OSEnviron plainLib ["STRING=".toList ++ [dquote]]
        [{ Name := "UnquotedString".toList, tagEnvVar := "STRING".toList, value := .string [] }]
      = (.panic sliceBoundsPanic,
          [{ Name := "UnquotedString".toList, tagEnvVar := "STRING".toList,
             value := .string [] }])
    ∧ reflectMapToStruct plainLib [("STRING".toList, some [dquote])]
        [{ Name := "UnquotedString".toList, tagEnvVar := "STRING".toList, value := .string [] }]
      = (.panic sliceBoundsPanic,
          [{ Name := "UnquotedString".toList, tagEnvVar := "STRING".toList,
             value := .string [] }],
          mapStore [("STRING".toList, some [dquote])] "STRING".toList
            (some (TrimSpace [dquote]))) :=
  ⟨by decide,
    (C26_single_quote_character_panics plainLib [("STRING".toList, some [dquote])]
      { Name := "UnquotedString".toList, tagEnvVar := "STRING".toList, value := .string [] }
      [dquote] [] (by decide) (by decide) rfl).1 ⟨dquote, Or.inl rfl, by decide⟩⟩

/-! ## A name ended by a carriage return, and by the end of the input -/

theorem handleNameLoop_cr (ds : dotEnvScanner) (v name rest : List Char)
    (hname : ∀ x ∈ name, x ≠ ' ' ∧ x ≠ '=' ∧ x ≠ '\r' ∧ x ≠ '\n') :
    handleNameLoop ds v (name ++ '\r' :: rest)
      = if ds.allowNaked = false then
          (.error { Line := ds.line - 1, Reason := "naked variable" },
            { ds with ch := some '\r' }, rest)
        else
          (.ok (v ++ name, true), { ds with ch := some '\r' }, rest) := by
  induction name generalizing ds v with
  | nil =>
    rw [List.nil_append]
    simp only [handleNameLoop]
    rw [if_pos (Or.inl trivial)]
    simp [dotEnvScanner.read]
  | cons c tl ih =>
    obtain ⟨h1, h2, h3, h4⟩ := hname c (List.mem_cons_self _ _)
    rw [List.cons_append]
    simp only [handleNameLoop]
    rw [if_neg (by simp [h3, h4]), if_neg h1, if_neg h2,
      ih _ _ (fun x hx => hname x (List.mem_cons_of_mem _ hx))]
    simp [dotEnvScanner.read, h4]

theorem handleNameLoop_eof (ds : dotEnvScanner) (v name : List Char)
    (hname : ∀ x ∈ name, x ≠ ' ' ∧ x ≠ '=' ∧ x ≠ '\r' ∧ x ≠ '\n') :
    handleNameLoop ds v name = (.ok (v ++ name, false), { ds with ch := none }, []) := by
  induction name generalizing ds v with
  | nil => simp [handleNameLoop, dotEnvScanner.eof]
  | cons c tl ih =>
    obtain ⟨h1, h2, h3, h4⟩ := hname c (List.mem_cons_self _ _)
    simp only [handleNameLoop]
    rw [if_neg (by simp [h3, h4]), if_neg h1, if_neg h2,
      ih _ _ (fun x hx => hname x (List.mem_cons_of_mem _ hx))]
    simp [dotEnvScanner.read, h4]

/-- A name ended by a carriage return where naked variables are not allowed: the line
of the error is the line counter less one, the counter not having moved. -/
theorem scanFrom_naked_err_cr (ds : dotEnvScanner) (name rest : List Char)
    (hname : isName name = true) (hA : ds.allowNaked = false) :
    scanFrom ds (name ++ '\r' :: rest)
      = (some { Line := ds.line - 1, Reason := "naked variable" },
          { ds with ch := some '\r' }) := by
  obtain ⟨c, tl, rfl, hc1, hc2, htl⟩ := isName_cases name hname
  have hN := handleNameLoop_cr (ds.read c) [c] tl rest htl
  rw [read_allowNaked, if_pos hA] at hN
  rw [List.cons_append, scanFrom_nameErr _ c _ _ _ _ hc1 hc2 hN]
  simp [dotEnvScanner.read, name_head_ne_newline c hc1]

/-- A name ended by the end of the input: the scanner stores the name with the empty
string as its value, in either dialect. -/
theorem scanFrom_name_eof (ds : dotEnvScanner) (name : List Char)
    (hname : isName name = true) (hE : ds.lastErr = none) :
    scanFrom ds name
      = (none, { ds with ch := none, vars := mapStore ds.vars name (some []) }) := by
  obtain ⟨c, tl, rfl, hc1, hc2, htl⟩ := isName_cases name hname
  have hN := handleNameLoop_eof (ds.read c) [c] tl htl
  have hV : handleValueLoop { (ds.read c) with ch := none } [] []
      = (.ok [], { (ds.read c) with ch := none }, []) := by
    simp [handleValueLoop, dotEnvScanner.eof]
  rw [scanFrom_assign _ c _ _ _ _ _ _ _ hc1 hc2 hN hV]
  simp only [read_lastErr, hE, scanFrom_nil]
  simp [dotEnvScanner.read, dotEnvScanner.eof, name_head_ne_newline c hc1]

/-- C22: a variable name that starts on line `1 + ws.count LF`, after the blank runes
`ws`, under NodeJSDotEnv, which does not allow naked variables.  Ended by a line feed,
the error "naked variable" carries that line.  Ended by a carriage return, as in a
CRLF line ending, it carries that line less one: for a name on the first line the
line is 0 and the text of the error has no line.  From any state of a scanner that
does not allow naked variables the line of the error is the line counter for a line
feed and the line counter less one for a carriage return. -/
theorem C22_naked_variable_line (lib : GoLib) (dest : List StructField)
    (ws name rest : List Char) (hws : isBlank ws = true) (hname : isName name = true) :
    NodeJSDotEnv lib dest (ws ++ (name ++ '\n' :: rest))
        = (.err { Line := 1 + ws.count '\n', Reason := "naked variable" }, dest)
      ∧ NodeJSDotEnv lib dest (ws ++ (name ++ '\r' :: rest))
        = (.err { Line := 1 + ws.count '\n' - 1, Reason := "naked variable" }, dest)
      ∧ (∀ ds : dotEnvScanner, ds.allowNaked = false →
          (scanFrom ds (name ++ '\n' :: rest)).1
              = some { Line := ds.line, Reason := "naked variable" }
            ∧ (scanFrom ds (name ++ '\r' :: rest)).1
              = some { Line := ds.line - 1, Reason := "naked variable" })
      ∧ (ws.count '\n' = 0 →
          ErrSyntax.Error { Line := 1 + ws.count '\n' - 1, Reason := "naked variable" }
            = ": syntax error (naked variable)".toList) := by
  refine ⟨?_, ?_, fun ds hA => ⟨?_, ?_⟩, fun h0 => ?_⟩
  · obtain ⟨ch0, hp⟩ := parse_blanks nodeJSScanner ws (name ++ '\n' :: rest) hws
    apply NodeJSDotEnv_scan_err
    rw [hp, scanFrom_naked_err _ name rest hname rfl]
  · obtain ⟨ch0, hp⟩ := parse_blanks nodeJSScanner ws (name ++ '\r' :: rest) hws
    apply NodeJSDotEnv_scan_err
    rw [hp, scanFrom_naked_err_cr _ name rest hname rfl]
  · rw [scanFrom_naked_err ds name rest hname hA]
  · rw [scanFrom_naked_err_cr ds name rest hname hA]
  · rw [h0]
    decide

/-- C22 at the text of the repository's test with a CRLF line ending: `NUMBER`,
carriage return, line feed, `STRING=foo`. -/
theorem C22_naked_variable_line_witness :
    NodeJSDotEnv plainLib [{ tagEnvVar := "NUMBER".toList, value := .int 0 }]
        ([] ++ ("NUMBER".toList ++ '\r' :: "\nSTRING=foo".toList))
      = (.err { Line := 0, Reason := "naked variable" },
          [{ tagEnvVar := "NUMBER".toList, value := .int 0 }])
    ∧ NodeJSDotEnv plainLib [{ tagEnvVar := "NUMBER".toList, value := .int 0 }]
        "NUMBER\nSTRING=foo".toList
      = (.err { Line := 1, Reason := "naked variable" },
          [{ tagEnvVar := "NUMBER".toList, value := .int 0 }])
    ∧ ErrSyntax.Error { Line := 0, Reason := "naked variable" }
      = ": syntax error (naked variable)".toList :=
  ⟨(C22_naked_variable_line plainLib [{ tagEnvVar := "NUMBER".toList, value := .int 0 }]
      [] "NUMBER".toList "\nSTRING=foo".toList (by decide) (by decide)).2.1,
    by decide, by decide⟩

/-- C25: a bare variable name at the end of the input, after the blank runes `ws`, with
no line feed after it.  The loop of `handleName` ends without a word on the end of the
input and `handleValue` reads the empty value, so in both dialects the scanner stores
the name with the empty string and returns no error, while the same text followed by a
line feed is the "naked variable" error under NodeJSDotEnv and stores the nil pointer
under DjangoDotEnv.  A `*bool` field bound to the name under DjangoDotEnv points to
false without the line feed and is nil with it. -/
theorem C25_name_at_end_of_input (lib : GoLib) (ws name : List Char)
    (hws : isBlank ws = true) (hname : isName name = true) :
    parse nodeJSScanner (ws ++ name)
        = (none, { nodeJSScanner with
            ch := none, line := 1 + ws.count '\n', vars := [(name, some [])] })
      ∧ (parse nodeJSScanner (ws ++ (name ++ ['\n']))).1
        = some { Line := 1 + ws.count '\n', Reason := "naked variable" }
      ∧ parse djangoScanner (ws ++ name)
        = (none, { djangoScanner with
            ch := none, line := 1 + ws.count '\n', vars := [(name, some [])] })
      ∧ (parse djangoScanner (ws ++ (name ++ ['\n']))).2.vars = [(name, none)]
      ∧ (∀ (f : StructField) (p : Option Bool), f.tagEnvVar = name → f.value = .ptrBool p →
          DjangoDotEnv lib [f] (ws ++ name)
              = (.nil, [{ f with value := .ptrBool (some false) }])
            ∧ DjangoDotEnv lib [f] (ws ++ (name ++ ['\n']))
              = (.nil, [{ f with value := .ptrBool none }]))
      ∧ (∀ (f : StructField) (old : List Char), f.tagEnvVar = name → f.value = .string old →
          NodeJSDotEnv lib [f] (ws ++ name) = (.nil, [{ f with value := .string [] }])) := by
  have hne := isName_ne_nil name hname
  have hN : parse nodeJSScanner (ws ++ name)
      = (none, { nodeJSScanner with
          ch := none, line := 1 + ws.count '\n', vars := [(name, some [])] }) := by
    obtain ⟨ch0, hp⟩ := parse_blanks nodeJSScanner ws name hws
    rw [hp, scanFrom_name_eof _ name hname rfl]
    simp [mapStore]
  have hD : parse djangoScanner (ws ++ name)
      = (none, { djangoScanner with
          ch := none, line := 1 + ws.count '\n', vars := [(name, some [])] }) := by
    obtain ⟨ch0, hp⟩ := parse_blanks djangoScanner ws name hws
    rw [hp, scanFrom_name_eof _ name hname rfl]
    simp [mapStore]
  have hDn : parse djangoScanner (ws ++ (name ++ ['\n']))
      = (none, { djangoScanner with
          ch := none, line := 1 + ws.count '\n' + 1, vars := [(name, none)] }) := by
    obtain ⟨ch0, hp⟩ := parse_blanks djangoScanner ws (name ++ ['\n']) hws
    rw [hp, scanFrom_naked_ok _ name [] hname rfl rfl, scanFrom_nil]
    simp [mapStore, dotEnvScanner.eof]
  refine ⟨hN, ?_, hD, ?_, fun f p htag hv => ⟨?_, ?_⟩, fun f old htag hv => ?_⟩
  · obtain ⟨ch0, hp⟩ := parse_blanks nodeJSScanner ws (name ++ ['\n']) hws
    rw [hp, scanFrom_naked_err _ name [] hname rfl]
  · rw [hDn]
  · refine DjangoDotEnv_bind_nil lib _ _ _ _ [(name, some [])] hD ?_
    rw [reflectMapToStruct_single lib _ f (by rw [htag]; exact hne)]
    obtain ⟨nm, tag, d, v⟩ := f
    simp only at htag hv
    subst htag hv
    simp [bindField, mapLookup, mapStore, handleBoolean, Value.isPointer, reflectSet,
      Value.sameType, Value.zero, TrimSpace, List.rdropWhile]
  · exact DjangoDotEnv_bind_nil lib _ _ _ _ _ hDn
      (by
        have hb := bind_naked lib f name hne htag (fun t => by rw [hv]; simp)
        rw [hv] at hb
        exact hb)
  · refine NodeJSDotEnv_bind_nil lib _ _ _ _ [(name, some [])] hN ?_
    rw [reflectMapToStruct_single lib _ f (by rw [htag]; exact hne)]
    obtain ⟨nm, tag, d, v⟩ := f
    simp only at htag hv
    subst htag hv
    simp [bindField, mapLookup, mapStore, handleString, Value.isPointer, reflectSetString,
      TrimSpace, List.rdropWhile]

/-- C25 at the one-word text `PTR_BOOLEAN`, with and without a line feed after it. -/
theorem C25_name_at_end_of_input_witness :
    (parse nodeJSScanner ([] ++ "PTR_BOOLEAN".toList)).1 = none
      ∧ (parse nodeJSScanner "PTR_BOOLEAN\n".toList).1
        = some { Line := 1, Reason := "naked variable" }
      ∧ DjangoDotEnv plainLib
          [{ Name := "PtrBoolean".toList, tagEnvVar := "PTR_BOOLEAN".toList,
             value := .ptrBool none }] ([] ++ "PTR_BOOLEAN".toList)
        = (.nil, [{ Name := "PtrBoolean".toList, tagEnvVar := "PTR_BOOLEAN".toList,
                    value := .ptrBool (some false) }])
      ∧ DjangoDotEnv plainLib
          [{ Name := "PtrBoolean".toList, tagEnvVar := "PTR_BOOLEAN".toList,
             value := .ptrBool none }] "PTR_BOOLEAN\n".toList
        = (.nil, [{ Name := "PtrBoolean".toList, tagEnvVar := "PTR_BOOLEAN".toList,
                    value := .ptrBool none }]) :=
  ⟨by rw [(C25_name_at_end_of_input plainLib [] "PTR_BOOLEAN".toList (by decide)
      (by decide)).1],
    by decide,
    ((C25_name_at_end_of_input plainLib [] "PTR_BOOLEAN".toList (by decide)
      (by decide)).2.2.2.2.1
      { Name := "PtrBoolean".toList, tagEnvVar := "PTR_BOOLEAN".toList,
        value := .ptrBool none } none rfl rfl).1,
    by decide⟩

/-! ## The line of an error -/

theorem ErrSyntax_Error_line (e : ErrSyntax) (h : e.Line > 0) :
    ErrSyntax.Error e
      = "line ".toList ++ formatInt e.Line ++ ": syntax error (".toList ++ e.Reason.toList
          ++ ")".toList := by
  simp only [ErrSyntax.Error]
  rw [if_pos h]

/-- C23, at a text of two lines: the double quote opens on line 1 and is not closed;
the error carries line 2, the line on which the input ends. -/
theorem C23_unclosed_quote_reports_last_line :
    NodeJSDotEnv plainLib [{ tagEnvVar := "DOUBLE_QUOTED".toList, value := .string [] }]
        ("DOUBLE_QUOTED=".toList ++ dquote :: "I should\nbe closed".toList)
      = (.err { Line := 2, Reason := "missing closing quote" },
          [{ tagEnvVar := "DOUBLE_QUOTED".toList, value := .string [] }])
    ∧ DjangoDotEnv plainLib [{ tagEnvVar := "DOUBLE_QUOTED".toList, value := .string [] }]
        ("DOUBLE_QUOTED=".toList ++ dquote :: "I should\nbe closed".toList)
      = (.err { Line := 2, Reason := "missing closing quote" },
          [{ tagEnvVar := "DOUBLE_QUOTED".toList, value := .string [] }])
    ∧ ("DOUBLE_QUOTED=".toList).count '\n' = 0 := by
  decide

/-- C23 (amended): a quote `q` of the dialect that opens after `name=` and unquoted
text, `name` being the first variable of the input, and is not closed before the end
of the input.  The error "missing closing quote" carries the line of the opening quote
plus the number of line feeds of the text after it: the line of the last rune of the
input, which is the line of the opening quote when no line feed follows it.  For every
input, a "missing closing quote" error of `parse` carries 1 plus the number of line
feeds of the whole input. -/
theorem C23_unclosed_quote_line (lib : GoLib) (dest : List StructField)
    (ws name pre inner : List Char) (q : Char)
    (hws : isBlank ws = true) (hname : isName name = true) (hpre : isUnquoted pre = true)
    (hin : q ∉ inner) :
    ((q = dquote ∨ q = squote ∨ q = backtick) →
        NodeJSDotEnv lib dest (ws ++ (name ++ '=' :: (pre ++ q :: inner)))
          = (.err { Line := 1 + (ws ++ (name ++ '=' :: pre)).count '\n' + inner.count '\n',
                    Reason := "missing closing quote" }, dest))
      ∧ ((q = dquote ∨ q = squote) →
        DjangoDotEnv lib dest (ws ++ (name ++ '=' :: (pre ++ q :: inner)))
          = (.err { Line := 1 + (ws ++ (name ++ '=' :: pre)).count '\n' + inner.count '\n',
                    Reason := "missing closing quote" }, dest))
      ∧ (∀ (ds : dotEnvScanner) (r : List Char) (e : ErrSyntax),
          ds.lastErr = none → (parse ds r).1 = some e →
          e.Reason = "missing closing quote" → e.Line = 1 + (r.count '\n' : Int)) := by
  refine ⟨fun hq => ?_, fun hq => ?_, fun ds r e hE h hr => ?_⟩
  · have hq3 : q = dquote ∨ q = backtick ∨ q = squote := by tauto
    have hqn := quote_ne_newline q hq3
    obtain ⟨ch0, hp⟩ := parse_blanks nodeJSScanner ws (name ++ '=' :: (pre ++ q :: inner)) hws
    apply NodeJSDotEnv_scan_err
    have hs := scanFrom_unclosed
      { nodeJSScanner with ch := ch0, line := 1 + ws.count '\n', vars := [] } name pre inner q
      hname (isUnquoted_nodeJS pre hpre _ rfl rfl)
      (mem_quotes_nodeJS q hq) hqn hin
    rw [hp, hs, count_newline_before_value ws name pre hname hpre]
  · have hq3 : q = dquote ∨ q = backtick ∨ q = squote := by tauto
    have hqn := quote_ne_newline q hq3
    obtain ⟨ch0, hp⟩ := parse_blanks djangoScanner ws (name ++ '=' :: (pre ++ q :: inner)) hws
    apply DjangoDotEnv_scan_err
    have hs := scanFrom_unclosed
      { djangoScanner with ch := ch0, line := 1 + ws.count '\n', vars := [] } name pre inner q
      hname (isUnquoted_django pre hpre _ rfl rfl)
      (mem_quotes_django q hq) hqn hin
    rw [hp, hs, count_newline_before_value ws name pre hname hpre]
  · rcases (parse_frame ds r hE).2 e h with k | k | k | ⟨-, k⟩
    · rw [k] at hr; exact absurd hr (by decide)
    · rw [k] at hr; exact absurd hr (by decide)
    · rw [k] at hr; exact absurd hr (by decide)
    · exact k

/-- C23 (amended) at a backtick that opens on line 2 and runs over three lines. -/
theorem C23_unclosed_quote_line_witness :
    NodeJSDotEnv plainLib [{ tagEnvVar := "BACKQUOTED".toList, value := .string [] }]
        ("\n".toList ++ ("BACKQUOTED".toList ++ '=' ::
          ([] ++ backtick :: "I should\nbe\nclosed".toList)))
      = (.err { Line := 1 + ("\n".toList ++ ("BACKQUOTED".toList ++ '=' :: [])).count '\n'
                  + "I should\nbe\nclosed".toList.count '\n',
                Reason := "missing closing quote" },
          [{ tagEnvVar := "BACKQUOTED".toList, value := .string [] }])
    ∧ (1 + ("\n".toList ++ ("BACKQUOTED".toList ++ '=' :: [])).count '\n' : Int) = 2
    ∧ (1 + ("\n".toList ++ ("BACKQUOTED".toList ++ '=' :: [])).count '\n'
        + "I should\nbe\nclosed".toList.count '\n' : Int) = 4 :=
  ⟨(C23_unclosed_quote_line plainLib
      [{ tagEnvVar := "BACKQUOTED".toList, value := .string [] }]
      "\n".toList "BACKQUOTED".toList [] "I should\nbe\nclosed".toList backtick
      (by decide) (by decide) (by decide) (by decide)).1 (Or.inr (Or.inr rfl)),
    by decide, by decide⟩

/-- C24: the line of an error of the binder.  For a text `r` that scans without error,
from a scanner without stored error, and whose binding fails with the error `e0`
(which has no line and one of the four reasons of the binder), `dotEnvToStruct` sets
the line of `e0` to the line counter of the scanner after the whole text: 1 plus the
number of line feeds of `r`, on whatever line the offending variable is assigned.
The text of the error is `line N: syntax error (reason)` with that N.  The same holds
for `NodeJSDotEnv` and `DjangoDotEnv`. -/
theorem C24_bind_error_line (lib : GoLib) (s : dotEnvScanner) (dest : List StructField)
    (r : List Char) (e0 : ErrSyntax) (hE : s.lastErr = none)
    (hp : (parse s r).1 = none)
    (hb : (reflectMapToStruct lib (parse s r).2.vars dest).1 = .err e0) :
    (dotEnvToStruct lib s dest r).1 = .err { e0 with Line := 1 + r.count '\n' }
      ∧ e0.Line = 0
      ∧ (e0.Reason = "missing closing quote" ∨ e0.Reason = "number not parsable"
          ∨ e0.Reason = "not parsable as Go duration string"
          ∨ e0.Reason = "not a valid boolean value")
      ∧ ErrSyntax.Error { e0 with Line := 1 + r.count '\n' }
        = "line ".toList ++ formatInt (1 + r.count '\n') ++ ": syntax error (".toList
            ++ e0.Reason.toList ++ ")".toList
      ∧ (s = nodeJSScanner →
          (NodeJSDotEnv lib dest r).1 = .err { e0 with Line := 1 + r.count '\n' })
      ∧ (s = djangoScanner →
          (DjangoDotEnv lib dest r).1 = .err { e0 with Line := 1 + r.count '\n' }) := by
  have hline := (parse_frame s r hE).1 hp
  have hmain : (dotEnvToStruct lib s dest r).1 = .err { e0 with Line := 1 + r.count '\n' } := by
    rcases hq : parse s r with ⟨po, s1⟩
    rw [hq] at hp hb hline
    simp only at hp hb hline
    subst hp
    rcases hR : reflectMapToStruct lib s1.vars dest with ⟨res, d1, v1⟩
    rw [hR] at hb
    simp only at hb
    subst hb
    rw [dotEnvToStruct_bind_err lib s dest r s1 e0 d1 v1 hq hR, hline]
  obtain ⟨f, -, -, hf⟩ := reflectMapToStruct_err lib _ dest e0 hb
  obtain ⟨b1, -, b3⟩ := bindField_err lib _ f e0 hf
  refine ⟨hmain, b1, b3, ?_, fun hs => ?_, fun hs => ?_⟩
  · exact ErrSyntax_Error_line { e0 with Line := 1 + r.count '\n' }
      (by show (1 + (r.count '\n' : Int)) > 0; omega)
  · subst hs
    exact hmain
  · subst hs
    exact hmain

/-- C24 at a text of two lines that ends with a line feed: the value of `NUMBER`,
assigned on line 1, is not a number; the error carries line 3 and its text starts with
`line 3`. -/
theorem C24_bind_error_line_witness :
    (NodeJSDotEnv plainLib
        [{ Name := "Number".toList, tagEnvVar := "NUMBER".toList, value := .int 0 }]
        "NUMBER=Not a number\nSTRING=foo\n".toList).1
      = .err { Line := 3, EnvVar := "NUMBER".toList, Reason := "number not parsable" }
    ∧ ErrSyntax.Error { Line := 3, EnvVar := "NUMBER".toList, Reason := "number not parsable" }
      = "line 3: syntax error (number not parsable)".toList
    ∧ ("NUMBER=Not a number".toList).count '\n' = 0 :=
  ⟨((C24_bind_error_line plainLib nodeJSScanner
      [{ Name := "Number".toList, tagEnvVar := "NUMBER".toList, value := .int 0 }]
      "NUMBER=Not a number\nSTRING=foo\n".toList
      { Line := 0, EnvVar := "NUMBER".toList, Reason := "number not parsable" }
      rfl (by decide) (by decide)).2.2.2.2.1 rfl).trans (by decide),
    by decide, by decide⟩

/-! ## The type switch on a field of interface type -/

theorem unsupportedTypePanic_head (t nm : List Char) :
    (unsupportedTypePanic t nm).head? = some 'u' := rfl

theorem handleStringInterface_panic (name : List Char) (held : Value)
    (value : Option (List Char)) (msg : List Char)
    (h : (handleStringInterface name held value).1 = .panic msg) :
    msg.head? = some 'r' := by
  unfold handleStringInterface at h
  cases value with
  | none => cases h
  | some v =>
    cases v with
    | nil =>
      simp only [Result.panic.injEq] at h
      rw [← h]
      rfl
    | cons c tl =>
      simp only at h
      split at h
      · split at h
        · cases h
        · split at h
          · simp only [Result.panic.injEq] at h
            rw [← h]
            rfl
          · simp only [Result.panic.injEq] at h
            rw [← h]
            rfl
      · simp only [Result.panic.injEq] at h
        rw [← h]
        rfl

theorem handleTimeDurationInterface_panic (lib : GoLib) (name : List Char) (held : Value)
    (value : Option (List Char)) (msg : List Char) :
    (handleTimeDurationInterface lib name held value).1 ≠ .panic msg := by
  unfold handleTimeDurationInterface
  split
  · simp
  · cases lib.ParseDuration (value.getD []) <;> simp

theorem handleNumericInterface_tail_panic (name : List Char) (held : Value)
    (parsed : Option Int) (msg : List Char)
    (h : (match parsed with
      | none => ((.err { EnvVar := name, Reason := "number not parsable" }, held) :
          Result × Value)
      | some _ =>
        (.panic "reflect: call of reflect.Value.SetInt on interface Value".toList, held)).1
      = .panic msg) :
    msg.head? = some 'r' := by
  cases parsed with
  | none => cases h
  | some n =>
    simp only [Result.panic.injEq] at h
    rw [← h]
    rfl

theorem handleNumericInterface_panic (name : List Char) (held : Value)
    (value : Option (List Char)) (msg : List Char)
    (h : (handleNumericInterface name held value).1 = .panic msg) :
    msg.head? = some 'r' :=
  handleNumericInterface_tail_panic name held _ msg h

theorem handleBooleanInterface_tail_panic (name : List Char) (held : Value)
    (parsed : Option Bool) (msg : List Char)
    (h : (match parsed with
      | none => ((.err { EnvVar := name, Reason := "not a valid boolean value" }, held) :
          Result × Value)
      | some _ =>
        (.panic "reflect: call of reflect.Value.SetBool on interface Value".toList, held)).1
      = .panic msg) :
    msg.head? = some 'r' := by
  cases parsed with
  | none => cases h
  | some b =>
    simp only [Result.panic.injEq] at h
    rw [← h]
    rfl

theorem handleBooleanInterface_panic (lib : GoLib) (name : List Char) (held : Value)
    (value : Option (List Char)) (msg : List Char)
    (h : (handleBooleanInterface lib name held value).1 = .panic msg) :
    msg.head? = some 'r' :=
  handleBooleanInterface_tail_panic name held _ msg h

/-- A panic of the round for a field of interface type that holds a value of one of the
sixteen types comes from `reflect` or from the slice expression, not from the default
branch of the type switch. -/
theorem bindInterfaceField_panic (lib : GoLib) (src : envVarMap) (g : InterfaceField)
    (msg : List Char) (hs : ∀ t, g.held ≠ .unsupported t)
    (h : (bindInterfaceField lib src g).1 = .panic msg) : msg.head? = some 'r' := by
  obtain ⟨nm, tag, d, v⟩ := g
  revert h
  simp only [bindInterfaceField]
  cases v <;> simp only <;> intro h <;>
    first
    | exact handleStringInterface_panic _ _ _ msg h
    | exact absurd h (handleTimeDurationInterface_panic _ _ _ _ msg)
    | exact handleNumericInterface_panic _ _ _ msg h
    | exact handleBooleanInterface_panic _ _ _ _ msg h
    | exact absurd rfl (hs _)

/-- The round for a field of interface type that holds a `time.Duration` or a
`*time.Duration`, its variable being in the map with a value. -/
theorem bindInterfaceField_duration (lib : GoLib) (src : envVarMap) (g : InterfaceField)
    (raw : List Char)
    (hv : (∃ old, g.held = .duration old) ∨ (∃ p, g.held = .ptrDuration p))
    (hl : mapLookup src g.tagEnvVar = some (some raw)) :
    bindInterfaceField lib src g
      = ((handleTimeDurationInterface lib g.tagEnvVar g.held (some (TrimSpace raw))).1,
          (handleTimeDurationInterface lib g.tagEnvVar g.held (some (TrimSpace raw))).2,
          mapStore src g.tagEnvVar (some (TrimSpace raw))) := by
  obtain ⟨nm, tag, d, v⟩ := g
  simp only at hv hl
  rcases hv with ⟨old, rfl⟩ | ⟨p, rfl⟩ <;> simp [bindInterfaceField, hl]

/-- C19, at a field declared `any`, which is none of the listed types, that holds a
`time.Duration`: the type switch runs on what the field holds, so the field is handed
to `handleTimeDuration`.  Bound from `Not a Duration` the call returns an `ErrSyntax`
and no panic; bound from `5s`, for a library that reads `5s` as five seconds, it
returns nil and the field holds five seconds. -/
theorem C19_interface_field_holding_duration :
    reflectMapToStructInterface plainLib [("TIMEOUT".toList, some "Not a Duration".toList)]
        { Name := "Timeout".toList, tagEnvVar := "TIMEOUT".toList, held := .duration 0 }
      = (.err { Line := 0, EnvVar := "TIMEOUT".toList,
                Reason := "not parsable as Go duration string" },
          { Name := "Timeout".toList, tagEnvVar := "TIMEOUT".toList, held := .duration 0 },
          [("TIMEOUT".toList, some "Not a Duration".toList)])
    ∧ reflectMapToStructInterface
        { ParseDuration := fun s => if s = "5s".toList then some 5000000000 else none,
          ToLowerRune := fun c => c }
        [("TIMEOUT".toList, some "5s".toList)]
        { Name := "Timeout".toList, tagEnvVar := "TIMEOUT".toList, held := .duration 0 }
      = (.nil,
          { Name := "Timeout".toList, tagEnvVar := "TIMEOUT".toList,
            held := .duration 5000000000 },
          [("TIMEOUT".toList, some "5s".toList)]) :=
  ⟨by decide, by decide⟩

/-- C19 (amended): the type switch runs on the value the field holds.  For a field
whose declared type is no interface type that is the declared type: when the loop
reaches a field with an `envVar` tag whose type is none of the sixteen (the fields
before it having been bound without failure), binding panics with `unsupported type`
naming the type and the field, whatever the map holds for the variable, and the field
and the fields after it are left as they were.  A field of interface type panics in
that way when it holds nil or a value of a type that is none of the sixteen; when it
holds a value of one of the sixteen it is handed to the handler of that type and never
panics with `unsupported type`: holding a `time.Duration` or a `*time.Duration` it is
bound to zero from the empty text and to the duration from a text that parses, and
the call returns the `ErrSyntax` "not parsable as Go duration string" for a text that
does not.  A field without `envVar` tag is skipped whatever its type: with it in the
struct the result and the map are those of binding the struct without it, the other
fields end the same, and the field keeps its value in its place. -/
theorem C19_type_switch_on_held_value (lib : GoLib) (src : envVarMap)
    (pre : List StructField) (f : StructField) (post : List StructField) :
    (∀ t, f.value = .unsupported t → f.tagEnvVar ≠ [] →
        (∀ g ∈ pre, g.tagEnvVar ≠ [] → (bindField lib src g).1 = .nil) →
        (reflectMapToStruct lib src (pre ++ f :: post)).1
            = .panic (unsupportedTypePanic t f.Name)
          ∧ (reflectMapToStruct lib src (pre ++ f :: post)).2.1
            = pre.map (boundField lib src) ++ f :: post)
      ∧ (f.tagEnvVar = [] →
        ∃ a b, a.length = pre.length
          ∧ (reflectMapToStruct lib src (pre ++ post)).2.1 = a ++ b
          ∧ reflectMapToStruct lib src (pre ++ f :: post)
            = ((reflectMapToStruct lib src (pre ++ post)).1, a ++ f :: b,
                (reflectMapToStruct lib src (pre ++ post)).2.2))
      ∧ (∀ (g : InterfaceField) (t : List Char), g.held = .unsupported t →
          g.tagEnvVar ≠ [] →
          (reflectMapToStructInterface lib src g).1 = .panic (unsupportedTypePanic t g.Name)
            ∧ (reflectMapToStructInterface lib src g).2.1 = g)
      ∧ (∀ g : InterfaceField, g.tagEnvVar = [] →
          reflectMapToStructInterface lib src g = (.nil, g, src))
      ∧ (∀ g : InterfaceField, (∀ t, g.held ≠ .unsupported t) →
          ∀ t nm, (reflectMapToStructInterface lib src g).1
            ≠ .panic (unsupportedTypePanic t nm))
      ∧ (∀ (g : InterfaceField) (raw : List Char), g.tagEnvVar ≠ [] →
          ((∃ old, g.held = .duration old) ∨ (∃ p, g.held = .ptrDuration p)) →
          mapLookup src g.tagEnvVar = some (some raw) →
          (TrimSpace raw = [] →
              reflectMapToStructInterface lib src g
                = (.nil, { g with held := .duration 0 },
                    mapStore src g.tagEnvVar (some (TrimSpace raw))))
            ∧ (TrimSpace raw ≠ [] → lib.ParseDuration (TrimSpace raw) = none →
              reflectMapToStructInterface lib src g
                = (.err { Line := 0, EnvVar := g.tagEnvVar,
                          Reason := "not parsable as Go duration string" },
                    g, mapStore src g.tagEnvVar (some (TrimSpace raw))))
            ∧ (∀ d, TrimSpace raw ≠ [] → lib.ParseDuration (TrimSpace raw) = some d →
              reflectMapToStructInterface lib src g
                = (.nil, { g with held := .duration d },
                    mapStore src g.tagEnvVar (some (TrimSpace raw))))) := by
  refine ⟨fun t ht htag hpre => ?_, fun htag => reflectMapToStruct_skip lib src pre f post htag,
    fun g t hg htag => ?_, fun g htag => ?_, fun g hs t nm => ?_,
    fun g raw htag hv hl => ⟨fun he => ?_, fun hne hp => ?_, fun d hne hp => ?_⟩⟩
  · have hb : (bindField lib src f).1 = .panic (unsupportedTypePanic t f.Name) := by
      simp only [bindField, ht, unsupportedTypePanic]
    obtain ⟨h1, h2⟩ := reflectMapToStruct_first_failure lib src pre f post src (fun _ => rfl)
      hpre htag (by rw [hb]; exact fun h => Result.noConfusion h)
    exact ⟨h1.trans hb, h2⟩
  · obtain ⟨nm, tag, d, v⟩ := g
    simp only at hg htag
    subst hg
    simp [reflectMapToStructInterface, htag, bindInterfaceField]
  · simp [reflectMapToStructInterface, htag]
  · by_cases htag : g.tagEnvVar = []
    · simp [reflectMapToStructInterface, htag]
    · intro h
      simp only [reflectMapToStructInterface, if_neg htag] at h
      have h1 := bindInterfaceField_panic lib src g _ hs h
      rw [unsupportedTypePanic_head] at h1
      exact absurd h1 (by decide)
  · simp only [reflectMapToStructInterface, if_neg htag,
      bindInterfaceField_duration lib src g raw hv hl, he]
    simp [handleTimeDurationInterface]
  · simp only [reflectMapToStructInterface, if_neg htag,
      bindInterfaceField_duration lib src g raw hv hl]
    simp [handleTimeDurationInterface, hne, hp]
  · simp only [reflectMapToStructInterface, if_neg htag,
      bindInterfaceField_duration lib src g raw hv hl]
    simp [handleTimeDurationInterface, hne, hp]

/-- C19 (amended) at the field `Something` of type `io.Writer` that holds nil, whose
variable is set, and at a field declared `fmt.Stringer` that holds a `time.Duration`
and is bound from `90m`. -/
theorem C19_type_switch_on_held_value_witness :
    ((reflectMapToStruct plainLib
        [("SOMETHING".toList, some "goes into struct field of unsupported type".toList)]
        ([] ++ { Name := "Something".toList, tagEnvVar := "SOMETHING".toList,
                 value := .unsupported "<nil>".toList } :: [])).1
      = .panic (unsupportedTypePanic "<nil>".toList "Something".toList))
    ∧ reflectMapToStructInterface
        { ParseDuration := fun s => if s = "90m".toList then some 5400000000000 else none,
          ToLowerRune := fun c => c }
        [("WAIT".toList, some " 90m ".toList)]
        { Name := "Wait".toList, tagEnvVar := "WAIT".toList, held := .duration 7 }
      = (.nil,
          { Name := "Wait".toList, tagEnvVar := "WAIT".toList, held := .duration 5400000000000 },
          mapStore [("WAIT".toList, some " 90m ".toList)] "WAIT".toList
            (some (TrimSpace " 90m ".toList))) :=
  ⟨((C19_type_switch_on_held_value plainLib
      [("SOMETHING".toList, some "goes into struct field of unsupported type".toList)]
      [] { Name := "Something".toList, tagEnvVar := "SOMETHING".toList,
           value := .unsupported "<nil>".toList } []).1 "<nil>".toList rfl (by decide)
      (fun g hg => absurd hg (List.not_mem_nil g))).1,
    ((C19_type_switch_on_held_value
      { ParseDuration := fun s => if s = "90m".toList then some 5400000000000 else none,
        ToLowerRune := fun c => c }
      [("WAIT".toList, some " 90m ".toList)] []
      { tagEnvVar := "X".toList, value := .string [] } []).2.2.2.2.2
      { Name := "Wait".toList, tagEnvVar := "WAIT".toList, held := .duration 7 }
      " 90m ".toList (by decide) (Or.inl ⟨7, rfl⟩) (by decide)).2.2 5400000000000
      (by decide) (by decide)⟩

end envs
